import Mathlib

/-!
# rpihddevice: the OMX output device (`omxdevice.c`)

A shallow embedding of `cOmxDevice` and a verification of its specification.

* Byte buffers (`const uchar *`) are lists of natural numbers; the `int Length`
  that accompanies a pointer is kept as a separate argument, as in the source.
* Pointer arithmetic `Data + n` is `List.drop n`.
* `int` and `int64_t` variables are integers.
-/

namespace OmxDevice

/-! ## Codec sniffer -/

/-- The video codecs of `cVideoCodec::eCodec`. -/
inductive eCodec where
  | eMPEG2
  | eH264
  | eInvalid
  deriving DecidableEq, Repr

/-- The byte `p[i]` of a buffer. -/
def byteAt (p : List Nat) (i : Nat) : Nat := p.getD i 0

/-- The body of the `for` loop of `ParseVideoCodec`, from index `i`, with at
most `n` iterations left (the loop runs while `i < 5`, so `n = 5 - i`). -/
def parseVideoCodecLoop (p : List Nat) (length : Int) : Nat → Nat → eCodec
  | _, 0 => eCodec.eInvalid
  | i, n + 1 =>
    if i < 5 ∧ (i : Int) + 4 < length then
      -- find start code prefix - should be right at the beginning of payload
      if byteAt p i = 0 ∧ byteAt p (i + 1) = 0 ∧ byteAt p (i + 2) = 0x01 then
        if byteAt p (i + 3) = 0xb3 then        -- sequence header
          eCodec.eMPEG2
        else if byteAt p (i + 3) = 0x09 then   -- slice
          -- quick hack for converted mkvs
          if byteAt p (i + 4) = 0xf0 then
            eCodec.eH264
          else
            match byteAt p (i + 4) >>> 5 with
            | 0 | 3 | 5 => eCodec.eH264        -- I frame
            | _ => eCodec.eH264                -- B frame, P frame, default
        else
          eCodec.eInvalid
      else
        parseVideoCodecLoop p length (i + 1) n
    else
      eCodec.eInvalid

/-- The function `cOmxDevice::ParseVideoCodec(const uchar *data, int length)`. -/
def ParseVideoCodec (data : List Nat) (length : Int) : eCodec :=
  parseVideoCodecLoop data length 0 5

/-! ## PES framer

The helpers of `vdr/remux.h` that `omxdevice.c` calls. The header is not part
of the sources, so they follow the description of the framer in the
specification. -/

/-- Modelled from the spec: `PesPayloadOffset` of `vdr/remux.h`, which is not
in the sources: the fixed header length 9 plus the header's "additional data
length" byte. -/
def PesPayloadOffset (p : List Nat) : Nat := 9 + byteAt p 8

/-- Modelled from the spec: `PesHasPts` of `vdr/remux.h`, which is not in the
sources: true if the PTS-present bit of the PES header flags is set. -/
def PesHasPts (p : List Nat) : Bool := decide (byteAt p 7 &&& 0x80 ≠ 0)

/-- Modelled from the spec: `PesGetPts` of `vdr/remux.h`, which is not in the
sources: the 33 bit presentation timestamp of the standard five byte PTS
encoding (groups of 3, 15 and 15 bits, each followed by a marker bit) at bytes
9..13 of the header. -/
def PesGetPts (p : List Nat) : Int :=
  Int.ofNat
    (((byteAt p 9 &&& 0x0E) <<< 29) ||| (byteAt p 10 <<< 22) |||
      ((byteAt p 11 &&& 0xFE) <<< 14) ||| (byteAt p 12 <<< 7) |||
      ((byteAt p 13 &&& 0xFE) >>> 1))

/-- Modelled from the spec: `PesLongEnough` of `vdr/remux.h`, which is not in
the sources: a buffer can hold a PES packet if it has at least the six bytes
up to and including the packet length field. -/
def PesLongEnough (Length : Int) : Bool := decide (6 ≤ Length)

/-- Modelled from the spec: `PesHasLength` of `vdr/remux.h`, which is not in
the sources: the 16 bit packet length field is not 0 (0 means unbounded). -/
def PesHasLength (p : List Nat) : Bool := decide (byteAt p 4 ||| byteAt p 5 ≠ 0)

/-- Modelled from the spec: `PesLength` of `vdr/remux.h`, which is not in the
sources: the length of the whole packet, the six bytes up to the length field
plus the value of the 16 bit length field. -/
def PesLength (p : List Nat) : Int := Int.ofNat (6 + byteAt p 4 * 256 + byteAt p 5)

/-- The constant `MAX33BIT` of `vdr/remux.h`. -/
def MAX33BIT : Int := 0x1FFFFFFFF

/-- Modelled from the spec: `PtsDiff` of `vdr/remux.h`, which is not in the
sources: the signed delta from one presentation timestamp to the next, brought
back into the range of a 33 bit counter that wraps around. -/
def PtsDiff (Pts1 Pts2 : Int) : Int :=
  let d := Pts2 - Pts1
  if d > Int.tdiv MAX33BIT 2 then d - (MAX33BIT + 1)
  else if d < Int.tdiv (-MAX33BIT) 2 then d + (MAX33BIT + 1)
  else d

/-! ## Data model -/

/-- The play modes of `vdr/device.h`. -/
inductive ePlayMode where
  | pmNone
  | pmAudioVideo
  | pmAudioOnly
  | pmAudioOnlyBlack
  | pmVideoOnly
  | pmExtern_THIS_SHOULD_BE_AVOIDED
  deriving DecidableEq, Repr

/-- The play directions, the first index of `s_playbackSpeeds`. -/
inductive eDirection where
  | eForward
  | eBackward
  deriving DecidableEq, Repr

/-- The playback speeds, the second index of `s_playbackSpeeds`
(`eNormal` is index 4). -/
inductive ePlaybackSpeed where
  | ePause
  | eSlowest
  | eSlower
  | eSlow
  | eNormal
  | eFast
  | eFaster
  | eFastest
  deriving DecidableEq, Repr

/-- The index of a playback speed. -/
def ePlaybackSpeed.toNat : ePlaybackSpeed → Nat
  | ePause => 0
  | eSlowest => 1
  | eSlower => 2
  | eSlow => 3
  | eNormal => 4
  | eFast => 5
  | eFaster => 6
  | eFastest => 7

/-- The live speed correction levels, the index of `s_liveSpeeds`. -/
inductive eLiveSpeed where
  | eNegMaxCorrection
  | eNegCorrection
  | eNoCorrection
  | ePosCorrection
  | ePosMaxCorrection
  deriving DecidableEq, Repr

/-- The index of a correction level; the source compares levels by it. -/
def eLiveSpeed.toNat : eLiveSpeed → Nat
  | eNegMaxCorrection => 0
  | eNegCorrection => 1
  | eNoCorrection => 2
  | ePosCorrection => 3
  | ePosMaxCorrection => 4

/-- The clock reference of `cOmx`. -/
inductive eClockReference where
  | eClockRefAudio
  | eClockRefVideo
  deriving DecidableEq, Repr

/-- The table `s_playbackSpeeds`, in 16.16 fixed point: `S(x) = floor(x * 2^16)`. -/
def s_playbackSpeeds : eDirection → ePlaybackSpeed → Int
  | .eForward, .ePause => 0
  | .eForward, .eSlowest => 8192
  | .eForward, .eSlower => 16384
  | .eForward, .eSlow => 32768
  | .eForward, .eNormal => 65536
  | .eForward, .eFast => 131072
  | .eForward, .eFaster => 262144
  | .eForward, .eFastest => 786432
  | .eBackward, .ePause => 0
  | .eBackward, .eSlowest => -8192
  | .eBackward, .eSlower => -16384
  | .eBackward, .eSlow => -32768
  | .eBackward, .eNormal => -65536
  | .eBackward, .eFast => -131072
  | .eBackward, .eFaster => -262144
  | .eBackward, .eFastest => -786432

/-- The table `s_liveSpeeds`, in 16.16 fixed point: `S(0.999f)`, `S(0.99985f)`,
`S(1.000f)`, `S(1.00015)`, `S(1.001)`. -/
def s_liveSpeeds : eLiveSpeed → Int
  | .eNegMaxCorrection => 65470
  | .eNegCorrection => 65526
  | .eNoCorrection => 65536
  | .ePosCorrection => 65545
  | .ePosMaxCorrection => 65601

/-- The table `PesVideoHeader`. -/
def PesVideoHeader : List Nat :=
  [0x00, 0x00, 0x01, 0xe0, 0x00, 0x00, 0x80, 0x80, 0x05, 0x00, 0x00, 0x00, 0x00, 0x00]

/-- A decoder input buffer (`OMX_BUFFERHEADERTYPE`) as this device fills it:
the bytes copied into `pBuffer` (`nFilledLen` of them) and the two flags the
device sets. -/
structure OmxBuffer where
  pBuffer : List Nat
  nFilledLen : Nat
  endOfFrame : Bool
  eos : Bool
  deriving DecidableEq, Repr

/-- The float literals of `UpdateLatency`. -/
inductive FloatLit where
  | f1_4
  | f2_0
  | f0_5
  | f1_1
  | f0_9
  deriving DecidableEq, Repr

/-- A call from the device to a collaborator (`m_omx`, `m_audio`, the `cDevice`
base class, `Skins`, the allocator), with the answer it got. -/
inductive Call where
  | StopVideo
  | SetVideoCodec (codec : eCodec)
  | SetClockReference (ref : eClockReference)
  | SetClockScale (scale : Int)
  | StartClock (hasVideo hasAudio : Bool)
  | StopClock
  | FlushVideo (flushRender : Bool)
  | SetCurrentReferenceTime (t : Int)
  | IsClockRunning (res : Bool)
  | GetSTC (res : Int)
  | GetVideoBuffer (pts : Int) (nAllocLen : Option Nat)
  | EmptyVideoBuffer (buf : Option OmxBuffer) (res : Bool)
  | AudioWriteData (data : List Nat) (length : Int) (pts : Int) (res : Bool)
  | AudioReset
  | Transferring (res : Bool)
  | QueueMessage
  | Malloc (size : Int) (res : Bool)
  | cDeviceStillPicture (Data : List Nat) (Length : Int)
  | cDeviceClear
  | cDevicePlay
  | cDeviceFreeze
  deriving DecidableEq, Repr

/-- The collaborators of the device. Each answer is a function of the calls
made so far (and of the arguments of the call), so that every run of the
collaborators is some `Env`.

The two constants of `omxdevice.h` and the float arithmetic of the platform
are parameters as well. -/
structure Env where
  /-- The answer of `m_omx->GetVideoBuffer(pts)`: the capacity `nAllocLen` of
  the buffer, or `none` for a null pointer. -/
  GetVideoBuffer : List Call → Int → Option Nat
  /-- The answer of `m_omx->EmptyVideoBuffer(buf)`. -/
  EmptyVideoBuffer : List Call → Option OmxBuffer → Bool
  /-- The answer of `m_omx->IsClockRunning()`. -/
  IsClockRunning : List Call → Bool
  /-- The answer of `m_omx->GetSTC()`. -/
  GetSTC : List Call → Int
  /-- The answer of `m_audio->WriteData(data, length, pts)`. -/
  WriteData : List Call → List Nat → Int → Int → Bool
  /-- The answer of `cDevice::Transferring()`. -/
  Transferring : List Call → Bool
  /-- The answer of `cRpiSetup::IsVideoCodecSupported(codec)`. -/
  IsVideoCodecSupported : eCodec → Bool
  /-- Whether `MALLOC(uchar, size)` returns a buffer. -/
  Malloc : List Call → Int → Bool
  /-- The constant `LATENCY_FILTER_SIZE` of `omxdevice.h`. -/
  LATENCY_FILTER_SIZE : Nat
  /-- The constant `LATENCY_FILTER_PREROLL` of `omxdevice.h`. -/
  LATENCY_FILTER_PREROLL : Int
  /-- The value of `(int)(c * n)` for a float literal `c` and an `int n`. -/
  floatMulToInt : FloatLit → Int → Int
  /-- The value of `a > c * t` for a float literal `c` and `int`s `a`, `t`. -/
  floatGt : Int → FloatLit → Int → Bool
  /-- The value of `a < c * t` for a float literal `c` and `int`s `a`, `t`. -/
  floatLt : Int → FloatLit → Int → Bool

/-- The member variables of `cOmxDevice`, and the calls it has made. -/
structure Dev where
  m_videoCodec : eCodec
  m_liveSpeed : eLiveSpeed
  m_playbackSpeed : ePlaybackSpeed
  m_direction : eDirection
  m_hasVideo : Bool
  m_hasAudio : Bool
  m_skipAudio : Bool
  m_playDirection : Int
  m_trickRequest : Int
  m_audioPts : Int
  m_videoPts : Int
  m_audioId : Nat
  m_latency : List Int
  m_latencySamples : Int
  m_latencyTarget : Int
  m_posMaxCorrections : Int
  m_negMaxCorrections : Int
  trace : List Call
  deriving DecidableEq, Repr

/-- Record a call to a collaborator. -/
def Dev.emit (s : Dev) (c : Call) : Dev := { s with trace := s.trace ++ [c] }

/-- The constructor `cOmxDevice::cOmxDevice`. It does not initialise the
array `m_latency`; `garbage` is what the array holds. -/
def cOmxDevice (env : Env) (garbage : Nat → Int) : Dev where
  m_videoCodec := eCodec.eInvalid
  m_liveSpeed := eLiveSpeed.eNoCorrection
  m_playbackSpeed := ePlaybackSpeed.eNormal
  m_direction := eDirection.eForward
  m_hasVideo := false
  m_hasAudio := false
  m_skipAudio := false
  m_playDirection := 0
  m_trickRequest := 0
  m_audioPts := 0
  m_videoPts := 0
  m_audioId := 0
  m_latency := (List.range env.LATENCY_FILTER_SIZE).map garbage
  m_latencySamples := 0
  m_latencyTarget := 0
  m_posMaxCorrections := 0
  m_negMaxCorrections := 0
  trace := []

/-! ## Operations of the device

Every operation runs under the mutex `m_mutex` for its whole duration, so the
operations are atomic steps on `Dev`. -/

/-- The function `cOmxDevice::FlushStreams(bool flushVideoRender)`. -/
def FlushStreams (s : Dev) (flushVideoRender : Bool) : Dev :=
  let s := s.emit Call.StopClock
  let s := s.emit (Call.SetClockScale 0)
  let s := if s.m_hasVideo then s.emit (Call.FlushVideo flushVideoRender) else s
  let s := if s.m_hasAudio then s.emit Call.AudioReset else s
  s.emit (Call.SetCurrentReferenceTime 0)

/-- The function `cOmxDevice::SetPlayMode(ePlayMode PlayMode)`; it always
returns `true`. -/
def SetPlayMode (s : Dev) (PlayMode : ePlayMode) : Dev :=
  match PlayMode with
  | .pmNone =>
    let s := FlushStreams s true
    let s := if s.m_hasVideo then s.emit Call.StopVideo else s
    { s with m_hasAudio := false, m_hasVideo := false, m_videoCodec := eCodec.eInvalid }
  | .pmAudioVideo | .pmAudioOnly | .pmAudioOnlyBlack | .pmVideoOnly =>
    { s with m_playbackSpeed := ePlaybackSpeed.eNormal, m_direction := eDirection.eForward }
  | _ => s

/-- The function `cOmxDevice::ApplyTrickSpeed(int trickSpeed, bool forward)`. -/
def ApplyTrickSpeed (s : Dev) (trickSpeed : Int) (forward : Bool) : Dev :=
  let s := { s with m_direction := if forward then eDirection.eForward else eDirection.eBackward }
  let s := { s with m_playbackSpeed :=
    -- slow forward
    if trickSpeed = 8 then ePlaybackSpeed.eSlowest
    else if trickSpeed = 4 then ePlaybackSpeed.eSlower
    else if trickSpeed = 2 then ePlaybackSpeed.eSlow
    -- fast for-/backward
    else if trickSpeed = 6 then ePlaybackSpeed.eFast
    else if trickSpeed = 3 then ePlaybackSpeed.eFaster
    else if trickSpeed = 1 then ePlaybackSpeed.eFastest
    -- slow backward
    else if trickSpeed = 63 then ePlaybackSpeed.eSlowest
    else if trickSpeed = 48 then ePlaybackSpeed.eSlower
    else if trickSpeed = 24 then ePlaybackSpeed.eSlow
    else ePlaybackSpeed.eNormal }
  s.emit (Call.SetClockScale (s_playbackSpeeds s.m_direction s.m_playbackSpeed))

/-- The function `cOmxDevice::PtsTracker(int64_t ptsDiff)`. -/
def PtsTracker (s : Dev) (ptsDiff : Int) : Dev :=
  let s :=
    if ptsDiff < 0 then { s with m_playDirection := s.m_playDirection - 1 }
    else if ptsDiff > 0 then { s with m_playDirection := s.m_playDirection + 2 }
    else s
  if s.m_playDirection < -2 ∨ s.m_playDirection > 3 then
    let s := ApplyTrickSpeed s s.m_trickRequest (decide (s.m_playDirection > 0))
    { s with m_trickRequest := 0 }
  else s

/-- The function `cOmxDevice::TrickSpeed(int Speed, bool Forward)`, compiled
with `APIVERSNUM >= 20103`. -/
def TrickSpeed_20103 (s : Dev) (Speed : Int) (Forward : Bool) : Dev :=
  ApplyTrickSpeed s Speed Forward

/-- The function `cOmxDevice::TrickSpeed(int Speed)`, compiled with older API
versions. -/
def TrickSpeed (s : Dev) (Speed : Int) : Dev :=
  let s := { s with m_audioPts := 0, m_videoPts := 0, m_playDirection := 0 }
  -- play direction is ambiguous for fast modes, start PTS tracking
  if Speed = 1 ∨ Speed = 3 ∨ Speed = 6 then
    { s with m_trickRequest := Speed }
  else
    ApplyTrickSpeed s Speed (decide (Speed = 8 ∨ Speed = 4 ∨ Speed = 2))

/-- The function `cOmxDevice::HasIBPTrickSpeed`. -/
def HasIBPTrickSpeed (s : Dev) : Bool := !s.m_hasVideo

/-- The function `cOmxDevice::ResetLatency`. -/
def ResetLatency (env : Env) (s : Dev) : Dev :=
  { s with
    m_latencySamples := -env.LATENCY_FILTER_PREROLL
    m_latencyTarget := 0
    m_liveSpeed := eLiveSpeed.eNoCorrection
    m_posMaxCorrections := 0
    m_negMaxCorrections := 0 }

/-- The five bands of `UpdateLatency`: the correction level and the counters
after the comparison of `average` with the target. -/
def updateLiveSpeed (env : Env) (s : Dev) (average : Int) : Dev :=
  if env.floatGt average FloatLit.f2_0 s.m_latencyTarget then
    if s.m_liveSpeed.toNat < eLiveSpeed.ePosMaxCorrection.toNat then
      { s with m_liveSpeed := eLiveSpeed.ePosMaxCorrection
               m_posMaxCorrections := s.m_posMaxCorrections + 1 }
    else s
  else if env.floatLt average FloatLit.f0_5 s.m_latencyTarget then
    if s.m_liveSpeed.toNat > eLiveSpeed.eNegMaxCorrection.toNat then
      { s with m_liveSpeed := eLiveSpeed.eNegMaxCorrection
               m_negMaxCorrections := s.m_negMaxCorrections + 1 }
    else s
  else if env.floatGt average FloatLit.f1_1 s.m_latencyTarget then
    if s.m_liveSpeed.toNat < eLiveSpeed.ePosMaxCorrection.toNat then
      { s with m_liveSpeed := eLiveSpeed.ePosCorrection }
    else s
  else if env.floatLt average FloatLit.f0_9 s.m_latencyTarget then
    if s.m_liveSpeed.toNat > eLiveSpeed.eNegMaxCorrection.toNat then
      { s with m_liveSpeed := eLiveSpeed.eNegCorrection }
    else s
  else if average > s.m_latencyTarget then
    if s.m_liveSpeed.toNat < eLiveSpeed.eNoCorrection.toNat then
      { s with m_liveSpeed := eLiveSpeed.eNoCorrection }
    else s
  else if average < s.m_latencyTarget then
    if s.m_liveSpeed.toNat > eLiveSpeed.eNoCorrection.toNat then
      { s with m_liveSpeed := eLiveSpeed.eNoCorrection }
    else s
  else
    { s with m_liveSpeed := eLiveSpeed.eNoCorrection }

/-- The end of `UpdateLatency`, once the window is full: the mean of the
window, the target on the first evaluation, the correction level and the clock
scale. -/
def latencyEvaluate (env : Env) (s : Dev) : Dev :=
  let average :=
    Int.tdiv (s.m_latency.take env.LATENCY_FILTER_SIZE).sum env.LATENCY_FILTER_SIZE
  let s :=
    if s.m_latencyTarget = 0 then
      { s with m_latencyTarget := env.floatMulToInt FloatLit.f1_4 average }
    else s
  let s := updateLiveSpeed env s average
  s.emit (Call.SetClockScale (s_liveSpeeds s.m_liveSpeed))

/-- The middle of `UpdateLatency`: shift the sample `(pts - stc) / 90` into the
ring buffer, count it while the window is not full, evaluate the window
otherwise. -/
def latencyPush (env : Env) (s : Dev) (sample : Int) : Dev :=
  let s := { s with
    m_latency := sample :: s.m_latency.take (env.LATENCY_FILTER_SIZE - 1) }
  if s.m_latencySamples < (env.LATENCY_FILTER_SIZE : Int) - 1 then
    { s with m_latencySamples := s.m_latencySamples + 1 }
  else latencyEvaluate env s

/-- The function `cOmxDevice::UpdateLatency(int64_t pts)`. -/
def UpdateLatency (env : Env) (s : Dev) (pts : Int) : Dev :=
  if pts = 0 then s
  else
    let running := env.IsClockRunning s.trace
    let s := s.emit (Call.IsClockRunning running)
    if !running then s
    else
      let stc := env.GetSTC s.trace
      let s := s.emit (Call.GetSTC stc)
      if stc = 0 ∨ pts ≤ stc then s
      else latencyPush env s (Int.tdiv (pts - stc) 90)

/-- The expression `PesHasPts(Data) ? PesGetPts(Data) : 0` of `PlayAudio` and
`PlayVideo`. -/
def packetPts (Data : List Nat) : Int := if PesHasPts Data then PesGetPts Data else 0

/-- The first block of `PlayAudio`: the first audio packet of a stream. -/
def playAudioStart (env : Env) (s : Dev) (Id : Nat) : Dev :=
  if !s.m_hasAudio then
    let s := { s with m_hasAudio := true, m_audioId := Id }
    let s := s.emit (Call.SetClockReference eClockReference.eClockRefAudio)
    let s :=
      if !s.m_hasVideo then
        -- audio first
        let s := s.emit (Call.SetClockScale (s_playbackSpeeds s.m_direction s.m_playbackSpeed))
        s.emit (Call.StartClock s.m_hasVideo s.m_hasAudio)
      else s
    let t := env.Transferring s.trace
    let s := s.emit (Call.Transferring t)
    if t then ResetLatency env s else s
  else s

/-- The second block of `PlayAudio`: keep track of direction in case of trick
speed. -/
def playAudioTrack (s : Dev) (pts : Int) : Dev :=
  if s.m_trickRequest ≠ 0 ∧ pts ≠ 0 then
    let s := if s.m_audioPts ≠ 0 then PtsTracker s (PtsDiff s.m_audioPts pts) else s
    { s with m_audioPts := pts }
  else s

/-- The third block of `PlayAudio`: the latency filter in transfer mode. -/
def playAudioLatency (env : Env) (s : Dev) (pts : Int) (Id : Nat) : Dev :=
  let t := env.Transferring s.trace
  let s := s.emit (Call.Transferring t)
  if t ∧ pts ≠ 0 then
    let s := if s.m_audioId ≠ Id then { (ResetLatency env s) with m_audioId := Id } else s
    UpdateLatency env s pts
  else s

/-- The last block of `PlayAudio`: pass the payload to the audio decoder. -/
def playAudioWrite (env : Env) (s : Dev) (Data : List Nat) (Length : Int) (Id : Nat)
    (pts : Int) : Dev × Int :=
  let ret := Length
  let length := Length - PesPayloadOffset Data
  -- ignore packets with invalid payload offset
  if length > 0 then
    let data := Data.drop (PesPayloadOffset Data)
    -- remove audio substream header (0x80: AC3, 0x88: DTS, 0xA0: LPCM)
    let strip := decide ((byteAt data 0 = 0x80 ∨ byteAt data 0 = 0x88 ∨ byteAt data 0 = 0xa0)
      ∧ byteAt data 0 = Id)
    let length := if strip then length - 4 else length
    let data := if strip then data.drop 4 else data
    let res := env.WriteData s.trace data length pts
    let s := s.emit (Call.AudioWriteData data length pts res)
    (s, if !res then 0 else ret)
  else (s, ret)

/-- The function `cOmxDevice::PlayAudio(const uchar *Data, int Length, uchar Id)`. -/
def PlayAudio (env : Env) (s : Dev) (Data : List Nat) (Length : Int) (Id : Nat) : Dev × Int :=
  let s := playAudioStart env s Id
  let pts := packetPts Data
  let s := playAudioTrack s pts
  let s := playAudioLatency env s pts Id
  playAudioWrite env s Data Length Id pts

/-- The codec that `PlayVideo` sniffs: only packets with a PTS are sniffed. -/
def playVideoCodec (Data : List Nat) (Length : Int) : eCodec :=
  if PesHasPts Data then
    ParseVideoCodec (Data.drop (PesPayloadOffset Data)) (Length - PesPayloadOffset Data)
  else eCodec.eInvalid

/-- The block "video restart after SetPlayMode() or codec changed" of
`PlayVideo`, with the initial value of `videoRestart` (video restart after
Clear() with same codec) computed before it. The result is the new state and
`videoRestart`. -/
def playVideoCodecChange (env : Env) (s : Dev) (codec : eCodec) : Dev × Bool :=
  let videoRestart :=
    !s.m_hasVideo && decide (codec = s.m_videoCodec) && env.IsVideoCodecSupported codec
  if codec ≠ eCodec.eInvalid ∧ codec ≠ s.m_videoCodec then
    let s := { s with m_videoCodec := codec }
    let s :=
      if s.m_hasVideo then
        let s := s.emit Call.StopVideo
        { s with m_hasVideo := false }
      else s
    if env.IsVideoCodecSupported codec then
      (s.emit (Call.SetVideoCodec codec), true)
    else
      (s.emit Call.QueueMessage, videoRestart)
  else (s, videoRestart)

/-- The block `if (videoRestart)` of `PlayVideo`. -/
def playVideoRestart (env : Env) (s : Dev) (videoRestart : Bool) : Dev :=
  if videoRestart then
    let s := { s with m_hasVideo := true }
    let s :=
      if !s.m_hasAudio then
        -- video first
        let s := s.emit (Call.SetClockReference eClockReference.eClockRefVideo)
        let s := s.emit (Call.SetClockScale (s_playbackSpeeds s.m_direction s.m_playbackSpeed))
        s.emit (Call.StartClock s.m_hasVideo s.m_hasAudio)
      else s
    let t := env.Transferring s.trace
    let s := s.emit (Call.Transferring t)
    if t then ResetLatency env s else s
  else s

/-- The tracking of direction and latency at the head of the block
`if (m_hasVideo)` of `PlayVideo`. -/
def playVideoTrack (env : Env) (s : Dev) (pts : Int) : Dev :=
  -- keep track of direction in case of trick speed
  let s :=
    if s.m_trickRequest ≠ 0 ∧ pts ≠ 0 ∧ s.m_videoPts ≠ 0 then
      PtsTracker s (PtsDiff s.m_videoPts pts)
    else s
  if !s.m_hasAudio then
    let t := env.Transferring s.trace
    let s := s.emit (Call.Transferring t)
    if t ∧ pts ≠ 0 then UpdateLatency env s pts else s
  else s

/-- The buffer that one iteration of the loop of `PlayVideo` fills from the
`Length` bytes left at `Data`: `nFilledLen` is the lesser of `nAllocLen` and
`Length`, and the end of frame flag is set if `EndOfFrame` holds and nothing
is left after this buffer. -/
def fillVideoBuffer (nAllocLen : Nat) (Data : List Nat) (Length : Int) (EndOfFrame : Bool) :
    OmxBuffer :=
  let nFilledLen := if (nAllocLen : Int) < Length then nAllocLen else Length.toNat
  { pBuffer := Data.take nFilledLen
    nFilledLen := nFilledLen
    endOfFrame := EndOfFrame && decide (Length - (nFilledLen : Int) = 0)
    eos := false }

/-- The loop `while (Length > 0)` of `PlayVideo`, run for at most `fuel`
iterations. The result is the state and the value of `ret` at the end of the
loop, or `none` when the loop is still running after `fuel` iterations. -/
def playVideoSubmit (env : Env) :
    Nat → Dev → List Nat → Int → Int → Bool → Int → Dev × Option Int
  | 0, s, _, Length, _, _, ret => if Length > 0 then (s, none) else (s, some ret)
  | fuel + 1, s, Data, Length, pts, EndOfFrame, ret =>
    if Length > 0 then
      match env.GetVideoBuffer s.trace pts with
      | some nAllocLen =>
        let s := s.emit (Call.GetVideoBuffer pts (some nAllocLen))
        let b := fillVideoBuffer nAllocLen Data Length EndOfFrame
        let res := env.EmptyVideoBuffer s.trace (some b)
        let s := s.emit (Call.EmptyVideoBuffer (some b) res)
        if !res then (s, some 0)
        else
          playVideoSubmit env fuel s (Data.drop b.nFilledLen) (Length - (b.nFilledLen : Int))
            0 EndOfFrame ret
      | none => (s.emit (Call.GetVideoBuffer pts none), some 0)
    else (s, some ret)

/-- The function `cOmxDevice::PlayVideo(const uchar *Data, int Length, bool
EndOfFrame)`, its submission loop run for at most `fuel` iterations. The
result is the state and the returned value, or `none` when the call has not
returned after `fuel` iterations. -/
def PlayVideo (env : Env) (fuel : Nat) (s : Dev) (Data : List Nat) (Length : Int)
    (EndOfFrame : Bool) : Dev × Option Int :=
  let ret := Length
  let codec := playVideoCodec Data Length
  let r := playVideoCodecChange env s codec
  let s := playVideoRestart env r.1 r.2
  if s.m_hasVideo then
    let pts := packetPts Data
    let s := playVideoTrack env s pts
    -- skip PES header, proceed with payload towards OMX
    playVideoSubmit env fuel s (Data.drop (PesPayloadOffset Data))
      (Length - PesPayloadOffset Data) pts EndOfFrame ret
  else (s, some ret)

/-- The function `cOmxDevice::SubmitEOS`. -/
def SubmitEOS (env : Env) (s : Dev) : Dev × Bool :=
  let buf := env.GetVideoBuffer s.trace 0
  let s := s.emit (Call.GetVideoBuffer 0 buf)
  let b : Option OmxBuffer :=
    buf.map (fun _ => { pBuffer := [], nFilledLen := 0, endOfFrame := false, eos := true })
  let res := env.EmptyVideoBuffer s.trace b
  (s.emit (Call.EmptyVideoBuffer b res), res)

/-- The expression `PesHasLength(data) ? PesLength(data) : length` of
`StillPicture`: the length of the packet at `data`. -/
def pesPacketLength (data : List Nat) (length : Int) : Int :=
  if PesHasLength data then PesLength data else length

/-- The body of the packet loop of `StillPicture`: play the packet at `data`
if it is a video packet, skip non-video packets as they may occur in PES
recordings. The result is the state and the value of `PlayVideo`, or `none`
when `PlayVideo` has not returned. -/
def playVideoPacket (env : Env) (fuel : Nat) (s : Dev) (data : List Nat) (length : Int) :
    Dev × Option Int :=
  if byteAt data 3 &&& 0xf0 = 0xe0 then
    PlayVideo env fuel s data (pesPacketLength data length)
      (decide (pesPacketLength data length = length))
  else (s, some 0)

/-- The loop `while (PesLongEnough(length))` of `StillPicture`: play every
single PES packet, rise ENDOFFRAME flag on last. The first argument bounds the
number of iterations. The result is the state and whether the loop has ended
(`false` when a `PlayVideo` call or the loop itself is still running). -/
def stillPicturePackets (env : Env) (fuel : Nat) : Nat → Dev → List Nat → Int → Dev × Bool
  | 0, s, _, length => (s, !PesLongEnough length)
  | n + 1, s, data, length =>
    if PesLongEnough length then
      match (playVideoPacket env fuel s data length).2 with
      | none => ((playVideoPacket env fuel s data length).1, false)
      | some _ =>
        stillPicturePackets env fuel n (playVideoPacket env fuel s data length).1
          (data.drop (pesPacketLength data length).toNat)
          (length - pesPacketLength data length)
    else (s, true)

/-- The loop `while (repeat--)` of `StillPicture`. The result is the state and
whether the loop has ended. -/
def stillPictureRepeat (env : Env) (fuel : Nat) : Nat → Dev → List Nat → Int → Dev × Bool
  | 0, s, _, _ => (s, true)
  | n + 1, s, data, length =>
    let r := stillPicturePackets env fuel fuel s data length
    if r.2 then stillPictureRepeat env fuel n r.1 data length else (r.1, false)

/-- The part of `StillPicture` under the mutex: show the picture `data` of the
given codec. -/
def stillPictureShow (env : Env) (fuel : Nat) (s : Dev) (codec : eCodec) (data : List Nat)
    (length : Int) : Dev × Bool :=
  let s := { s with m_playbackSpeed := ePlaybackSpeed.eNormal, m_direction := eDirection.eForward }
  let s := s.emit Call.StopClock
  -- to get a picture displayed, PlayVideo() needs to be called
  -- 4x for MPEG2 and 10x for H264... ?
  let r := stillPictureRepeat env fuel (if codec = eCodec.eMPEG2 then 4 else 10) s data length
  if r.2 then ((SubmitEOS env r.1).1, true) else (r.1, false)

/-- The function `cOmxDevice::StillPicture(const uchar *Data, int Length)`, its
loops run for at most `fuel` iterations each. The result is the state and
whether the call has returned. -/
def StillPicture (env : Env) (fuel : Nat) (s : Dev) (Data : List Nat) (Length : Int) :
    Dev × Bool :=
  if byteAt Data 0 = 0x47 then
    (s.emit (Call.cDeviceStillPicture Data Length), true)
  else
    let codec := ParseVideoCodec Data Length
    if codec ≠ eCodec.eInvalid then
      -- some plugins deliver raw MPEG data, but PlayVideo() needs a
      -- complete PES packet with valid header
      let pesLength := Length + (PesVideoHeader.length : Int)
      let res := env.Malloc s.trace pesLength
      let s := s.emit (Call.Malloc pesLength res)
      if !res then (s, true)
      else stillPictureShow env fuel s codec (PesVideoHeader ++ Data.take Length.toNat) pesLength
    else
      let codec := ParseVideoCodec (Data.drop (PesPayloadOffset Data))
        (Length - PesPayloadOffset Data)
      if codec = eCodec.eInvalid then (s, true)
      else stillPictureShow env fuel s codec Data Length

/-- The function `cOmxDevice::Clear`. -/
def Clear (s : Dev) : Dev :=
  let s := FlushStreams s false
  let s := { s with m_hasAudio := false, m_hasVideo := false }
  s.emit Call.cDeviceClear

/-- The function `cOmxDevice::Play`. -/
def Play (s : Dev) : Dev :=
  let s := { s with m_playbackSpeed := ePlaybackSpeed.eNormal, m_direction := eDirection.eForward }
  let s := s.emit (Call.SetClockScale (s_playbackSpeeds s.m_direction s.m_playbackSpeed))
  s.emit Call.cDevicePlay

/-- The function `cOmxDevice::Freeze`. -/
def Freeze (s : Dev) : Dev :=
  let s := s.emit
    (Call.SetClockScale (s_playbackSpeeds eDirection.eForward ePlaybackSpeed.ePause))
  s.emit Call.cDeviceFreeze

/-- The function `cOmxDevice::HandleBufferStall`. -/
def HandleBufferStall (s : Dev) : Dev :=
  let s := FlushStreams s false
  let s := s.emit (Call.SetClockScale (s_playbackSpeeds s.m_direction s.m_playbackSpeed))
  s.emit (Call.StartClock s.m_hasVideo s.m_hasAudio)

/-- The function `cOmxDevice::HandleEndOfStream`. -/
def HandleEndOfStream (s : Dev) : Dev :=
  -- flush pipes and restart clock after still image
  let s := FlushStreams s false
  let s := s.emit (Call.SetClockScale (s_playbackSpeeds s.m_direction s.m_playbackSpeed))
  s.emit (Call.StartClock s.m_hasVideo s.m_hasAudio)

/-! ## Observations and sample inputs -/

/-- The speed that `ApplyTrickSpeed` selects for a fast request. -/
def fastSpeed (trickRequest : Int) : ePlaybackSpeed :=
  if trickRequest = 6 then ePlaybackSpeed.eFast
  else if trickRequest = 3 then ePlaybackSpeed.eFaster
  else ePlaybackSpeed.eFastest

/-- The numerator and denominator of the decimal value of a float literal. -/
def FloatLit.ratio : FloatLit → Int × Int
  | .f1_4 => (14, 10)
  | .f2_0 => (20, 10)
  | .f0_5 => (5, 10)
  | .f1_1 => (11, 10)
  | .f0_9 => (9, 10)

/-- A sample environment: a decoder that hands out buffers of `cap` bytes and
accepts every buffer, a running clock at time `stc`, an audio decoder that
accepts every packet, transfer mode as given, both codecs supported, an
allocator that succeeds, a filter of 8 samples after a pre-roll of 64, and
float arithmetic without rounding errors. -/
def sampleEnv (cap : Nat) (stc : Int) (transferring : Bool) : Env where
  GetVideoBuffer := fun _ _ => some cap
  EmptyVideoBuffer := fun _ _ => true
  IsClockRunning := fun _ => true
  GetSTC := fun _ => stc
  WriteData := fun _ _ _ _ => true
  Transferring := fun _ => transferring
  IsVideoCodecSupported := fun c => decide (c ≠ eCodec.eInvalid)
  Malloc := fun _ _ => true
  LATENCY_FILTER_SIZE := 8
  LATENCY_FILTER_PREROLL := 64
  floatMulToInt := fun c n => Int.tdiv (c.ratio.1 * n) c.ratio.2
  floatGt := fun a c t => decide (a * c.ratio.2 > c.ratio.1 * t)
  floatLt := fun a c t => decide (a * c.ratio.2 < c.ratio.1 * t)

/-- A freshly constructed device whose latency array holds zeros. -/
def freshDev (env : Env) : Dev := cOmxDevice env (fun _ => 0)

/-- The playback part of the state: every member variable that the latency
filter does not own. -/
structure Playback where
  videoCodec : eCodec
  playbackSpeed : ePlaybackSpeed
  direction : eDirection
  hasVideo : Bool
  hasAudio : Bool
  playDirection : Int
  trickRequest : Int
  audioPts : Int
  videoPts : Int
  audioId : Nat
  deriving DecidableEq, Repr

/-- The playback part of a device state. -/
def Dev.playback (s : Dev) : Playback where
  videoCodec := s.m_videoCodec
  playbackSpeed := s.m_playbackSpeed
  direction := s.m_direction
  hasVideo := s.m_hasVideo
  hasAudio := s.m_hasAudio
  playDirection := s.m_playDirection
  trickRequest := s.m_trickRequest
  audioPts := s.m_audioPts
  videoPts := s.m_videoPts
  audioId := s.m_audioId

/-- The trick speed part of the state: the playback state (direction, speed)
and the direction tracker. -/
structure TrickState where
  playbackSpeed : ePlaybackSpeed
  direction : eDirection
  playDirection : Int
  trickRequest : Int
  audioPts : Int
  videoPts : Int
  deriving DecidableEq, Repr

/-- The trick speed part of a device state. -/
def Dev.trick (s : Dev) : TrickState where
  playbackSpeed := s.m_playbackSpeed
  direction := s.m_direction
  playDirection := s.m_playDirection
  trickRequest := s.m_trickRequest
  audioPts := s.m_audioPts
  videoPts := s.m_videoPts

/-- The five bytes that encode the presentation timestamp `pts` in a PES
header. -/
def ptsBytes (pts : Nat) : List Nat :=
  [0x21 ||| ((pts >>> 29) &&& 0x0E), (pts >>> 22) &&& 0xFF, ((pts >>> 14) &&& 0xFE) ||| 0x01,
    (pts >>> 7) &&& 0xFF, ((pts <<< 1) &&& 0xFE) ||| 0x01]

/-- A video PES packet with the presentation timestamp `pts`, no length and
the given payload. -/
def videoPes (pts : Nat) (payload : List Nat) : List Nat :=
  [0x00, 0x00, 0x01, 0xe0, 0x00, 0x00, 0x80, 0x80, 0x05] ++ ptsBytes pts ++ payload

/-- An audio PES packet with the presentation timestamp `pts`, no length and
the given payload. -/
def audioPes (pts : Nat) (payload : List Nat) : List Nat :=
  [0x00, 0x00, 0x01, 0xc0, 0x00, 0x00, 0x80, 0x80, 0x05] ++ ptsBytes pts ++ payload

/-- A payload that sniffs as MPEG2. -/
def mpeg2Payload : List Nat := [0x00, 0x00, 0x01, 0xb3, 0x2d, 0x02]

/-- A payload that sniffs as H264. -/
def h264Payload : List Nat := [0x00, 0x00, 0x01, 0x09, 0x10, 0x00]

/-- Submit the video packets with the given timestamps, one `PlayVideo` call
each (its loop run for at most 8 iterations), each with an MPEG2 payload. -/
def playVideoPts (env : Env) (s : Dev) : List Nat → Dev
  | [] => s
  | pts :: rest =>
    playVideoPts env (PlayVideo env 8 s (videoPes pts mpeg2Payload)
      (videoPes pts mpeg2Payload).length false).1 rest

/-- A device that is presenting video: a fresh device after
`SetPlayMode(pmAudioVideo)` and one MPEG2 video packet. -/
def presentingVideo (env : Env) : Dev :=
  playVideoPts env (SetPlayMode (freshDev env) ePlayMode.pmAudioVideo) [50]

/-- The clock reference that a call selects. -/
def Call.clockRef : Call → Option eClockReference
  | .SetClockReference ref => some ref
  | _ => none

/-- The clock references that the device has selected, in order. -/
def clockRefs (t : List Call) : List eClockReference := t.filterMap Call.clockRef

/-- The arguments `(hasVideo, hasAudio)` of a `StartClock` call. -/
def Call.startClock : Call → Option (Bool × Bool)
  | .StartClock hasVideo hasAudio => some (hasVideo, hasAudio)
  | _ => none

/-- The arguments `(hasVideo, hasAudio)` of the `StartClock` calls, in order. -/
def startClocks (t : List Call) : List (Bool × Bool) := t.filterMap Call.startClock

/-- The clock scale that a call sets. -/
def Call.clockScale : Call → Option Int
  | .SetClockScale scale => some scale
  | _ => none

/-- The clock scales that the device has set, in order. -/
def clockScales (t : List Call) : List Int := t.filterMap Call.clockScale

/-- The buffer that a call submits to the video decoder. -/
def Call.submission : Call → Option (Option OmxBuffer)
  | .EmptyVideoBuffer buf _ => some buf
  | _ => none

/-- The buffers that the device has submitted to the video decoder, in order. -/
def submissions (t : List Call) : List (Option OmxBuffer) := t.filterMap Call.submission

/-- The queries: calls that only ask for a value. -/
def Call.isQuery : Call → Bool
  | .IsClockRunning _ => true
  | .GetSTC _ => true
  | .Transferring _ => true
  | _ => false

/-- The calls that neither control the clock nor set up the decoder: queries,
data transfer and allocation. -/
def Call.isData : Call → Bool
  | .IsClockRunning _ => true
  | .GetSTC _ => true
  | .GetVideoBuffer _ _ => true
  | .EmptyVideoBuffer _ _ => true
  | .AudioWriteData _ _ _ _ => true
  | .Transferring _ => true
  | .Malloc _ _ => true
  | _ => false

/-- The calls of the latency filter: queries and `SetClockScale`. -/
def Call.isLatency : Call → Bool
  | .SetClockScale _ => true
  | c => c.isQuery

/-- The calls that acquire or submit a decoder input buffer. -/
def Call.isVideoBuffer : Call → Bool
  | .GetVideoBuffer _ _ => true
  | .EmptyVideoBuffer _ _ => true
  | _ => false

/-- A failed buffer acquisition (`GetVideoBuffer` returned a null pointer) or a
failed submission (`EmptyVideoBuffer` returned false). -/
def Call.isFailure : Call → Bool
  | .GetVideoBuffer _ none => true
  | .EmptyVideoBuffer _ false => true
  | _ => false

/-- The trace `t1` extends the trace `t0` by calls that satisfy `P`. -/
def traceExt (P : Call → Prop) (t0 t1 : List Call) : Prop :=
  ∃ l : List Call, t1 = t0 ++ l ∧ ∀ c ∈ l, P c

/-- The device has gone from `s` to `t` making only calls that satisfy `P`. -/
def emitsOnly (P : Call → Prop) (s t : Dev) : Prop := traceExt P s.trace t.trace

/-- The answer of the decoder to the buffer that one iteration of the loop of
`PlayVideo` submits, given the capacity `nAllocLen` of the acquired buffer. -/
def submitRes (env : Env) (s : Dev) (pts : Int) (nAllocLen : Nat) (Data : List Nat)
    (Length : Int) (EndOfFrame : Bool) : Bool :=
  env.EmptyVideoBuffer (s.emit (Call.GetVideoBuffer pts (some nAllocLen))).trace
    (some (fillVideoBuffer nAllocLen Data Length EndOfFrame))

/-- The state after one iteration of the loop of `PlayVideo` that has acquired
a buffer of capacity `nAllocLen`. -/
def submitState (env : Env) (s : Dev) (pts : Int) (nAllocLen : Nat) (Data : List Nat)
    (Length : Int) (EndOfFrame : Bool) : Dev :=
  (s.emit (Call.GetVideoBuffer pts (some nAllocLen))).emit
    (Call.EmptyVideoBuffer (some (fillVideoBuffer nAllocLen Data Length EndOfFrame))
      (submitRes env s pts nAllocLen Data Length EndOfFrame))

/-- The three ways the submission loop can end: it has passed everything and
`ret` is untouched, or its last call has failed (the only failure) and `ret` is
0, or it is still running when the fuel is used up. -/
def loopOutcome (l : List Call) (res : Option Int) (ret : Int) : Prop :=
  (res = some ret ∧ ∀ c ∈ l, c.isFailure = false) ∨
  (res = some 0 ∧ ∃ pre c, l = pre ++ [c] ∧ c.isFailure = true ∧
    ∀ d ∈ pre, d.isFailure = false) ∨
  (res = none ∧ ∀ c ∈ l, c.isFailure = false)

/-- The calls of the codec change block of `PlayVideo`. -/
def Call.isCodecSetup : Call → Bool
  | .StopVideo => true
  | .SetVideoCodec _ => true
  | .QueueMessage => true
  | _ => false

/-- The calls of the restart block of `PlayVideo`. -/
def Call.isRestart : Call → Bool
  | .SetClockReference _ => true
  | .SetClockScale _ => true
  | .StartClock _ _ => true
  | .Transferring _ => true
  | _ => false

/-- The state of `PlayVideo` when it reaches `if (m_hasVideo)`: after the codec
change block and the restart block. -/
def playVideoHead (env : Env) (s : Dev) (Data : List Nat) (Length : Int) : Dev :=
  playVideoRestart env (playVideoCodecChange env s (playVideoCodec Data Length)).1
    (playVideoCodecChange env s (playVideoCodec Data Length)).2

/-- A decoder that hands out buffers of `cap` bytes and accepts the first
`accepted` submissions only; the rest is as in `sampleEnv`. -/
def rejectingEnv (cap : Nat) (accepted : Nat) : Env :=
  { sampleEnv cap 0 false with
    EmptyVideoBuffer := fun t _ => decide ((submissions t).length < accepted) }

/-- The buffer that carries a whole frame at once: `Length` bytes of `Data`,
flagged end of frame. -/
def frameBuffer (Data : List Nat) (Length : Int) : OmxBuffer where
  pBuffer := Data.take Length.toNat
  nFilledLen := Length.toNat
  endOfFrame := true
  eos := false

/-- The buffer of `SubmitEOS`: empty, flagged end of stream. -/
def eosBuffer : OmxBuffer where
  pBuffer := []
  nFilledLen := 0
  endOfFrame := false
  eos := true

/-! ## Sequences of operations and the clock protocol -/

/-- The operations of the device that the player and the decoder invoke. -/
inductive Op where
  | SetPlayMode (PlayMode : ePlayMode)
  | PlayAudio (Data : List Nat) (Length : Int) (Id : Nat)
  | PlayVideo (fuel : Nat) (Data : List Nat) (Length : Int) (EndOfFrame : Bool)
  | Clear
  | StillPicture (fuel : Nat) (Data : List Nat) (Length : Int)
  | HandleBufferStall
  | HandleEndOfStream
  | Play
  | Freeze
  | TrickSpeed (Speed : Int)
  | TrickSpeed_20103 (Speed : Int) (Forward : Bool)

/-- The state after one operation. A `PlayVideo` or `StillPicture` call that
has not returned within its fuel leaves the state it has reached. -/
def step (env : Env) (s : Dev) : Op → Dev
  | .SetPlayMode PlayMode => SetPlayMode s PlayMode
  | .PlayAudio Data Length Id => (PlayAudio env s Data Length Id).1
  | .PlayVideo fuel Data Length EndOfFrame => (PlayVideo env fuel s Data Length EndOfFrame).1
  | .Clear => Clear s
  | .StillPicture fuel Data Length => (StillPicture env fuel s Data Length).1
  | .HandleBufferStall => HandleBufferStall s
  | .HandleEndOfStream => HandleEndOfStream s
  | .Play => Play s
  | .Freeze => Freeze s
  | .TrickSpeed Speed => TrickSpeed s Speed
  | .TrickSpeed_20103 Speed Forward => TrickSpeed_20103 s Speed Forward

/-- The state after a sequence of operations. -/
def run (env : Env) (s : Dev) (ops : List Op) : Dev := ops.foldl (step env) s

/-- The stall and end of stream handlers run while a stream is present. -/
def Op.ready (s : Dev) : Op → Prop
  | .HandleBufferStall => s.m_hasAudio = true ∨ s.m_hasVideo = true
  | .HandleEndOfStream => s.m_hasAudio = true ∨ s.m_hasVideo = true
  | _ => True

instance (s : Dev) (op : Op) : Decidable (op.ready s) := by
  cases op <;> unfold Op.ready <;> infer_instance

/-- Every stall and end of stream handler of the sequence runs while a stream
is present. -/
def runReady (env : Env) : Dev → List Op → Prop
  | _, [] => True
  | s, op :: ops => op.ready s ∧ runReady env (step env s op) ops

instance runReady_decidable (env : Env) : ∀ (s : Dev) (ops : List Op),
    Decidable (runReady env s ops)
  | _, [] => isTrue trivial
  | s, op :: ops =>
    have := runReady_decidable env (step env s op) ops
    by unfold runReady; infer_instance

/-- One step of the check of the clock protocol. The state is `none` once the
clock has been started twice in a row, and otherwise whether the last of the
start and stop calls so far is a start. With `videoStops` a `StopVideo` call
counts as a stop. -/
def clockStep (videoStops : Bool) : Option Bool → Call → Option Bool
  | none, _ => none
  | some started, .StartClock _ _ => if started then none else some true
  | some _, .StopClock => some false
  | some started, .StopVideo => if videoStops then some false else some started
  | some started, _ => some started

/-- The check of the clock protocol on a trace that begins with the clock not
started. -/
def clockCheck (videoStops : Bool) (t : List Call) : Option Bool :=
  t.foldl (clockStep videoStops) (some false)

/-- The device has never called `StartClock` twice without a `StopClock` call
between the two. -/
def noDoubleStart (t : List Call) : Prop := clockCheck false t ≠ none

/-- The device has never called `StartClock` twice without a `StopClock` or a
`StopVideo` call between the two. -/
def noDoubleStartV (t : List Call) : Prop := clockCheck true t ≠ none

/-- The calls that do not take part in the clock protocol. -/
def Call.isClockNeutral : Call → Bool
  | .StartClock _ _ => false
  | .StopClock => false
  | .StopVideo => false
  | _ => true

/-- The invariant of the clock protocol: the check has not failed, and while
the clock is started a stream is present. -/
def clockInv (t : List Call) (hasAudio hasVideo : Bool) : Prop :=
  ∃ started, clockCheck true t = some started ∧
    (started = true → hasAudio = true ∨ hasVideo = true)

/-- The invariant of the clock protocol on a device state. -/
def Dev.clockInv (s : Dev) : Prop := OmxDevice.clockInv s.trace s.m_hasAudio s.m_hasVideo

/-- The packet submissions `PlayAudio` and `PlayVideo`. -/
def Op.isPlay : Op → Bool
  | .PlayAudio _ _ _ => true
  | .PlayVideo _ _ _ _ => true
  | _ => false

/-- The clock references that a device with the given stream flags has
selected since both streams were absent: the first stream to arrive selects
its reference, and audio that arrives after video selects Audio again. -/
def clockRefOK (refs : List eClockReference) : Bool → Bool → Prop
  | false, false => refs = []
  | true, false => refs = [eClockReference.eClockRefAudio]
  | false, true => refs = [eClockReference.eClockRefVideo]
  | true, true => refs = [eClockReference.eClockRefAudio] ∨
      refs = [eClockReference.eClockRefVideo, eClockReference.eClockRefAudio]

/-- The invariant of the clock reference: the decoder has been stopped (a
codec change while video was present), or the selected references fit the
stream flags. -/
def clockRefInv (t : List Call) (hasAudio hasVideo : Bool) : Prop :=
  Call.StopVideo ∈ t ∨ clockRefOK (clockRefs t) hasAudio hasVideo

/-- The invariant of the clock reference on a device state. -/
def Dev.clockRefInv (s : Dev) : Prop := OmxDevice.clockRefInv s.trace s.m_hasAudio s.m_hasVideo

/-- A `StillPicture` call displays a picture: the data is not a transport
stream, and either it is a raw frame of a known codec and the PES copy can be
allocated, or it is a PES packet whose payload is of a known codec. -/
def stillPictureShown (env : Env) (s : Dev) (Data : List Nat) (Length : Int) : Prop :=
  byteAt Data 0 ≠ 0x47 ∧
  if ParseVideoCodec Data Length ≠ eCodec.eInvalid then
    env.Malloc s.trace (Length + (PesVideoHeader.length : Int)) = true
  else
    ParseVideoCodec (Data.drop (PesPayloadOffset Data)) (Length - PesPayloadOffset Data) ≠
      eCodec.eInvalid

/-- The playback state is (Forward, Normal). -/
def Dev.isNormalForward (s : Dev) : Prop :=
  s.m_direction = eDirection.eForward ∧ s.m_playbackSpeed = ePlaybackSpeed.eNormal

/-! ## The direction tracker and the trick speed table -/

/-- A device with a pending fast request whose tracker has seen one forward
step: a fresh device after an audio packet, `TrickSpeed(1)` and two more audio
packets with rising timestamps. -/
def pendingFast (env : Env) : Dev :=
  run env (freshDev env)
    [Op.PlayAudio (audioPes 50 [1, 2]) 16 0xc0, Op.TrickSpeed 1,
     Op.PlayAudio (audioPes 1000 [1, 2]) 16 0xc0, Op.PlayAudio (audioPes 2000 [1, 2]) 16 0xc0]

/-- The table of the trick speed codes as the specification lists it: the slow
forward codes, the slow backward codes and the fast codes. -/
def trickSpeedTable : List (Int × ePlaybackSpeed) :=
  [(2, ePlaybackSpeed.eSlow), (4, ePlaybackSpeed.eSlower), (8, ePlaybackSpeed.eSlowest),
   (24, ePlaybackSpeed.eSlow), (48, ePlaybackSpeed.eSlower), (63, ePlaybackSpeed.eSlowest),
   (6, ePlaybackSpeed.eFast), (3, ePlaybackSpeed.eFaster), (1, ePlaybackSpeed.eFastest)]

/-- The speed of a code by the table of the specification: the entry of the
code, and Normal for a code outside the table. -/
def lookupTrickSpeed (code : Int) : ePlaybackSpeed :=
  (trickSpeedTable.lookup code).getD ePlaybackSpeed.eNormal

/-- The direction that a flag `forward` stands for. -/
def directionOf (forward : Bool) : eDirection :=
  if forward then eDirection.eForward else eDirection.eBackward

/-! ## The latency filter: samples, windows and the order of float values -/

/-- The clock time that an `UpdateLatency` call reads in state `s`. -/
def latencyStc (env : Env) (s : Dev) : Int :=
  env.GetSTC (s.emit (Call.IsClockRunning (env.IsClockRunning s.trace))).trace

/-- An `UpdateLatency(pts)` call in state `s` accepts its sample: `pts` is not
0, the clock is running, and the clock time is not 0 and less than `pts`. -/
def sampleAccepted (env : Env) (s : Dev) (pts : Int) : Bool :=
  decide (pts ≠ 0) && env.IsClockRunning s.trace && decide (latencyStc env s ≠ 0) &&
    decide (latencyStc env s < pts)

/-- The sample `(pts - stc) / 90` of an `UpdateLatency(pts)` call in state `s`. -/
def latencySample (env : Env) (s : Dev) (pts : Int) : Int :=
  Int.tdiv (pts - latencyStc env s) 90

/-- The state of an `UpdateLatency` call after its two queries. -/
def afterQueries (env : Env) (s : Dev) : Dev :=
  (s.emit (Call.IsClockRunning (env.IsClockRunning s.trace))).emit
    (Call.GetSTC (latencyStc env s))

/-- The mean of the window: the sum of the `LATENCY_FILTER_SIZE` entries of the
ring buffer divided by `LATENCY_FILTER_SIZE`. -/
def windowMean (env : Env) (latency : List Int) : Int :=
  Int.tdiv (latency.take env.LATENCY_FILTER_SIZE).sum env.LATENCY_FILTER_SIZE

/-- The ring buffer after an `UpdateLatency(pts)` call in state `s` has shifted
its sample in. -/
def pushedWindow (env : Env) (s : Dev) (pts : Int) : List Int :=
  latencySample env s pts :: s.m_latency.take (env.LATENCY_FILTER_SIZE - 1)

/-- The window mean of an `UpdateLatency(pts)` call in state `s`. -/
def pushedMean (env : Env) (s : Dev) (pts : Int) : Int :=
  windowMean env (pushedWindow env s pts)

/-- The window is full: the sample counter has reached
`LATENCY_FILTER_SIZE - 1`, so that the next accepted sample is evaluated. -/
def windowFull (env : Env) (s : Dev) : Prop :=
  ¬ s.m_latencySamples < (env.LATENCY_FILTER_SIZE : Int) - 1

instance (env : Env) (s : Dev) : Decidable (windowFull env s) := by
  unfold windowFull; infer_instance

/-- A sequence of `UpdateLatency` calls. -/
def updateAll (env : Env) (s : Dev) (ptss : List Int) : Dev :=
  ptss.foldl (UpdateLatency env) s

/-- The number of calls of a sequence of `UpdateLatency` calls that accept
their sample. -/
def acceptedCount (env : Env) : Dev → List Int → Nat
  | _, [] => 0
  | s, pts :: rest =>
    (if sampleAccepted env s pts then 1 else 0) + acceptedCount env (UpdateLatency env s pts) rest

/-- The float comparisons of the platform are ordered like the numbers they
stand for: they are monotone in the compared value, twice a non-negative
target is not below 1.1 times it and half of it not above 0.9 times it, a
positive target lies between 0.9 times and 1.1 times itself, and for a target
that is not positive the order of the multiples is reversed. -/
structure FloatOrder (env : Env) : Prop where
  gt_mono : ∀ (a b : Int) (c : FloatLit) (t : Int),
    a ≤ b → env.floatGt a c t = true → env.floatGt b c t = true
  lt_mono : ∀ (a b : Int) (c : FloatLit) (t : Int),
    b ≤ a → env.floatLt a c t = true → env.floatLt b c t = true
  gt_two : ∀ a t : Int, 0 ≤ t →
    env.floatGt a FloatLit.f2_0 t = true → env.floatGt a FloatLit.f1_1 t = true
  lt_half : ∀ a t : Int, 0 ≤ t →
    env.floatLt a FloatLit.f0_5 t = true → env.floatLt a FloatLit.f0_9 t = true
  gt_self : ∀ t : Int, 0 < t → env.floatGt t FloatLit.f1_1 t = false
  lt_self : ∀ t : Int, 0 < t → env.floatLt t FloatLit.f0_9 t = false
  gt_of_nonpos : ∀ a t : Int, t ≤ 0 → t < a → env.floatGt a FloatLit.f1_1 t = true
  lt_of_nonpos : ∀ a t : Int, t ≤ 0 → a < t → env.floatLt a FloatLit.f0_9 t = true

/-- A device in transfer mode whose window is full of samples of `sample` ms,
with the target fixed at 140 ms and the given correction level. -/
def filterDev (sample : Int) (level : eLiveSpeed) : Dev :=
  { freshDev (sampleEnv 64 1000 true) with
    m_latency := List.replicate 8 sample
    m_latencySamples := 7
    m_latencyTarget := 140
    m_liveSpeed := level }

/-- Every call of a sequence of `UpdateLatency` calls accepts its sample and
finds the mean of its window equal to the target. -/
def onTargetCalls (env : Env) : Dev → List Int → Prop
  | _, [] => True
  | s, pts :: rest =>
    (sampleAccepted env s pts = true ∧ pushedMean env s pts = s.m_latencyTarget) ∧
      onTargetCalls env (UpdateLatency env s pts) rest

instance onTargetCalls_decidable (env : Env) : ∀ (s : Dev) (ptss : List Int),
    Decidable (onTargetCalls env s ptss)
  | _, [] => isTrue trivial
  | s, pts :: rest =>
    have := onTargetCalls_decidable env (UpdateLatency env s pts) rest
    by unfold onTargetCalls; infer_instance

/-! ## Payloads: skipped packets and the chunks of a video packet -/

/-- The calls that pass audio data to the audio decoder. -/
def Call.isAudioWrite : Call → Bool
  | .AudioWriteData _ _ _ _ => true
  | _ => false

/-- The capacity of the buffer that a call acquires. -/
def Call.acquired : Call → Option Nat
  | .GetVideoBuffer _ (some nAllocLen) => some nAllocLen
  | _ => none

/-- The capacities of the buffers that the device has acquired, in order. -/
def acquisitions (t : List Call) : List Nat := t.filterMap Call.acquired

/-- One chunk as the specification describes it: its size is the lesser of the
buffer capacity and the remaining payload, it holds that many bytes of the
payload, and it is flagged end of frame if the frame ends with the packet and
nothing remains after the chunk. -/
def specChunk (cap : Nat) (payload : List Nat) (remaining : Nat) (EndOfFrame : Bool) :
    OmxBuffer where
  pBuffer := payload.take (min cap remaining)
  nFilledLen := min cap remaining
  endOfFrame := EndOfFrame && decide (remaining - min cap remaining = 0)
  eos := false

/-- The chunks of `remaining` bytes of payload for buffers of the capacities
`caps`, as the specification describes them. -/
def specChunks : List Nat → List Nat → Nat → Bool → List OmxBuffer
  | [], _, _, _ => []
  | cap :: caps, payload, remaining, EndOfFrame =>
    if remaining = 0 then []
    else
      specChunk cap payload remaining EndOfFrame ::
        specChunks caps (payload.drop (min cap remaining)) (remaining - min cap remaining)
          EndOfFrame

/-- The end of frame flags of `n` chunks as the specification describes them:
the flag of the packet on the final chunk and no flag on the chunks before. -/
def eofFlags : Nat → Bool → List Bool
  | 0, _ => []
  | n + 1, EndOfFrame => List.replicate n false ++ [EndOfFrame]

/-- The calls of a `PlayVideo` call that passes a payload of 10 bytes in
buffers of 4 bytes: the transfer mode query and three buffers of 4, 4 and 2
bytes, the last one flagged end of frame. -/
def chunkedCalls : List Call :=
  [Call.Transferring false,
   Call.GetVideoBuffer 3000 (some 4),
   Call.EmptyVideoBuffer (some ⟨[10, 11, 12, 13], 4, false, false⟩) true,
   Call.GetVideoBuffer 0 (some 4),
   Call.EmptyVideoBuffer (some ⟨[14, 15, 16, 17], 4, false, false⟩) true,
   Call.GetVideoBuffer 0 (some 4),
   Call.EmptyVideoBuffer (some ⟨[18, 19], 2, true, false⟩) true]

/-! ## The invariant of the latency filter -/

/-- The latency filter part of the state: the ring buffer, the sample counter
and the target. -/
structure FilterState where
  latency : List Int
  samples : Int
  target : Int
  deriving DecidableEq, Repr

/-- The latency filter part of a device state. -/
def Dev.filterState (s : Dev) : FilterState where
  latency := s.m_latency
  samples := s.m_latencySamples
  target := s.m_latencyTarget

/-- The invariant of the latency filter: the target is not negative, and the
entries of the ring buffer that the sample counter counts are not negative
(they are samples; the rest may be uninitialised). -/
def FilterState.inv (f : FilterState) : Prop :=
  0 ≤ f.target ∧ ∀ i : Nat, (i : Int) < f.samples → 0 ≤ f.latency.getD i 0

/-- The invariant of the latency filter on a device state. -/
def Dev.filterInv (s : Dev) : Prop := s.filterState.inv

/-- The assumptions on the platform under which the target is never negative:
the pre-roll is not negative, and 1.4 times a non-negative mean is not
negative. -/
structure FilterEnv (env : Env) : Prop where
  preroll_nonneg : 0 ≤ env.LATENCY_FILTER_PREROLL
  target_nonneg : ∀ a : Int, 0 ≤ a → 0 ≤ env.floatMulToInt FloatLit.f1_4 a

/-! ## Accepted buffers and the packet of a still picture -/

/-- The buffer that a call passes to the video decoder and the decoder
accepts. -/
def Call.accepted : Call → Option OmxBuffer
  | .EmptyVideoBuffer (some b) true => some b
  | _ => none

/-- The buffers that the video decoder has accepted, in order. -/
def acceptedBuffers (t : List Call) : List OmxBuffer := t.filterMap Call.accepted

/-- The bytes that the video decoder has accepted, in order. -/
def acceptedBytes (t : List Call) : List Nat :=
  ((acceptedBuffers t).map OmxBuffer.pBuffer).flatten

/-- The number of bytes that the video decoder has accepted, by the sizes of
the buffers. -/
def acceptedSize (t : List Call) : Nat := ((acceptedBuffers t).map OmxBuffer.nFilledLen).sum

/-- A decoder that hands out buffers of `cap` bytes and rejects exactly the
submission number `k` (counted from 0); the rest is as in `sampleEnv`. -/
def flakyEnv (cap : Nat) (k : Nat) : Env :=
  { sampleEnv cap 0 false with
    EmptyVideoBuffer := fun t _ => decide ((submissions t).length ≠ k) }

/-! ## The samples of the first window -/

/-- The samples that a sequence of `UpdateLatency` calls accepts, in order. -/
def acceptedSamples (env : Env) : Dev → List Int → List Int
  | _, [] => []
  | s, pts :: rest =>
    (if sampleAccepted env s pts then [latencySample env s pts] else []) ++
      acceptedSamples env (UpdateLatency env s pts) rest

/-- The ring buffer `latency` begins with the samples `samples`, the most
recent one first, as far as they fit into the window of `size` entries. -/
def ringHolds (size : Nat) (latency : List Int) (samples : List Int) : Prop :=
  ∀ i : Nat, i < samples.length → i < size → latency[i]? = samples.reverse[i]?

/-! ## Theorems: codec sniffer -/

/-- The scan keeps going as long as no start code prefix has been seen, and
answers MPEG2 at the first prefix when the byte after it is `0xb3`. -/
theorem parseVideoCodecLoop_mpeg2 (p : List Nat) (length : Int) (i : Nat)
    (hi : i < 5) (hlen : (i : Int) + 4 < length)
    (h0 : byteAt p i = 0) (h1 : byteAt p (i + 1) = 0) (h2 : byteAt p (i + 2) = 0x01)
    (h3 : byteAt p (i + 3) = 0xb3)
    (hfirst : ∀ j, j < i →
      ¬ (byteAt p j = 0 ∧ byteAt p (j + 1) = 0 ∧ byteAt p (j + 2) = 0x01)) :
    ∀ n j, j ≤ i → i < j + n → parseVideoCodecLoop p length j n = eCodec.eMPEG2 := by
  intro n
  induction n with
  | zero => intro j hj hjn; omega
  | succ n ih =>
    intro j hj hjn
    unfold parseVideoCodecLoop
    have hj5 : j < 5 := by omega
    have hjl : (j : Int) + 4 < length := by omega
    rw [if_pos ⟨hj5, hjl⟩]
    by_cases hji : j = i
    · subst hji
      rw [if_pos ⟨h0, h1, h2⟩, if_pos h3]
    · have hlt : j < i := by omega
      rw [if_neg (hfirst j hlt)]
      exact ih (j + 1) (by omega) (by omega)

/-- C1 (as stated, refuted): a buffer that is exactly `00 00 01 B3` has the
pattern at offset 0 but is not classified as MPEG2 (the scan needs a fifth
byte), and a buffer with the pattern at offset 3 behind an earlier start code
`00 00 01 00` is not classified as MPEG2 either (the scan stops at the first
start code). -/
theorem C1_counterexample :
    (byteAt [0, 0, 1, 0xb3] 0 = 0 ∧ byteAt [0, 0, 1, 0xb3] 1 = 0 ∧
      byteAt [0, 0, 1, 0xb3] 2 = 0x01 ∧ byteAt [0, 0, 1, 0xb3] 3 = 0xb3 ∧
      ParseVideoCodec [0, 0, 1, 0xb3] 4 = eCodec.eInvalid) ∧
    (byteAt [0, 0, 1, 0, 0, 1, 0xb3, 0] 3 = 0 ∧ byteAt [0, 0, 1, 0, 0, 1, 0xb3, 0] 4 = 0 ∧
      byteAt [0, 0, 1, 0, 0, 1, 0xb3, 0] 5 = 0x01 ∧
      byteAt [0, 0, 1, 0, 0, 1, 0xb3, 0] 6 = 0xb3 ∧
      ParseVideoCodec [0, 0, 1, 0, 0, 1, 0xb3, 0] 8 = eCodec.eInvalid) := by
  decide

/-- C1 (amended): for every buffer and every offset `i` in 0..4 such that bytes
`i..i+3` are `00 00 01 B3`, at least one more byte follows within the given
length (`i + 4 < length`) and no start code prefix `00 00 01` begins at an
earlier offset, `ParseVideoCodec` classifies the buffer as MPEG2. -/
theorem C1_ParseVideoCodec_mpeg2 (p : List Nat) (length : Int) (i : Nat)
    (hi : i < 5) (hlen : (i : Int) + 4 < length)
    (h0 : byteAt p i = 0) (h1 : byteAt p (i + 1) = 0) (h2 : byteAt p (i + 2) = 0x01)
    (h3 : byteAt p (i + 3) = 0xb3)
    (hfirst : ∀ j, j < i →
      ¬ (byteAt p j = 0 ∧ byteAt p (j + 1) = 0 ∧ byteAt p (j + 2) = 0x01)) :
    ParseVideoCodec p length = eCodec.eMPEG2 :=
  parseVideoCodecLoop_mpeg2 p length i hi hlen h0 h1 h2 h3 hfirst 5 0 (by omega) (by omega)

/-- C1 witness: the pattern at offset 4 of a nine byte buffer. -/
theorem C1_ParseVideoCodec_mpeg2_witness :
    ParseVideoCodec [9, 9, 9, 9, 0, 0, 1, 0xb3, 0] 9 = eCodec.eMPEG2 :=
  C1_ParseVideoCodec_mpeg2 [9, 9, 9, 9, 0, 0, 1, 0xb3, 0] 9 4 (by decide) (by decide)
    (by decide) (by decide) (by decide) (by decide) (by decide)

/-- C2: every buffer of at least five bytes that begins with `00 00 01 09`
followed by any byte `b` is classified as H264, never as invalid. -/
theorem C2_ParseVideoCodec_h264 (b : Nat) (rest : List Nat) :
    ParseVideoCodec (0 :: 0 :: 1 :: 9 :: b :: rest)
        ((0 :: 0 :: 1 :: 9 :: b :: rest).length : Int) = eCodec.eH264 ∧
      ParseVideoCodec (0 :: 0 :: 1 :: 9 :: b :: rest)
        ((0 :: 0 :: 1 :: 9 :: b :: rest).length : Int) ≠ eCodec.eInvalid := by
  have hlen : ((0 : Nat) : Int) + 4 < ((0 :: 0 :: 1 :: 9 :: b :: rest).length : Int) := by
    simp only [List.length_cons]; omega
  have h : ParseVideoCodec (0 :: 0 :: 1 :: 9 :: b :: rest)
      ((0 :: 0 :: 1 :: 9 :: b :: rest).length : Int) = eCodec.eH264 := by
    unfold ParseVideoCodec parseVideoCodecLoop
    rw [if_pos ⟨by decide, hlen⟩]
    have hb : byteAt (0 :: 0 :: 1 :: 9 :: b :: rest) (0 + 3) ≠ 0xb3 := by
      simp [byteAt]
    have h9 : byteAt (0 :: 0 :: 1 :: 9 :: b :: rest) (0 + 3) = 0x09 := by
      simp [byteAt]
    rw [if_pos ⟨rfl, rfl, rfl⟩, if_neg hb, if_pos h9]
    split
    · rfl
    · split <;> rfl
  exact ⟨h, by rw [h]; decide⟩

/-! ## Theorems: trick speed tracker -/

/-- A positive delta adds 2 to the accumulator; while the sum stays within
`[-2, 3]` nothing else changes. -/
theorem PtsTracker_pos_pending (s : Dev) (d : Int) (hd : 0 < d)
    (hlo : -4 ≤ s.m_playDirection) (hhi : s.m_playDirection ≤ 1) :
    PtsTracker s d = { s with m_playDirection := s.m_playDirection + 2 } := by
  have h1 : ¬ d < 0 := by omega
  have h2 : ¬ (s.m_playDirection + 2 < -2 ∨ s.m_playDirection + 2 > 3) := by omega
  simp [PtsTracker, h1, hd, h2]

/-- A negative delta subtracts 1 from the accumulator; while the difference
stays within `[-2, 3]` nothing else changes. -/
theorem PtsTracker_neg_pending (s : Dev) (d : Int) (hd : d < 0)
    (hlo : -1 ≤ s.m_playDirection) (hhi : s.m_playDirection ≤ 4) :
    PtsTracker s d = { s with m_playDirection := s.m_playDirection - 1 } := by
  have h2 : ¬ (s.m_playDirection - 1 < -2 ∨ s.m_playDirection - 1 > 3) := by omega
  simp [PtsTracker, hd, h2]

/-- A positive delta that takes the accumulator above 3 applies the request
forward and clears it. -/
theorem PtsTracker_pos_fire (s : Dev) (d : Int) (hd : 0 < d) (hhi : 1 < s.m_playDirection) :
    PtsTracker s d =
      { (ApplyTrickSpeed { s with m_playDirection := s.m_playDirection + 2 }
          s.m_trickRequest true) with m_trickRequest := 0 } := by
  have h1 : ¬ d < 0 := by omega
  have h2 : s.m_playDirection + 2 < -2 ∨ s.m_playDirection + 2 > 3 := by omega
  have h3 : 0 < s.m_playDirection + 2 := by omega
  simp [PtsTracker, h1, hd, h2, h3]

/-- A negative delta that takes the accumulator below -2 applies the request
backward and clears it. -/
theorem PtsTracker_neg_fire (s : Dev) (d : Int) (hd : d < 0) (hlo : s.m_playDirection < -1) :
    PtsTracker s d =
      { (ApplyTrickSpeed { s with m_playDirection := s.m_playDirection - 1 }
          s.m_trickRequest false) with m_trickRequest := 0 } := by
  have h2 : s.m_playDirection - 1 < -2 ∨ s.m_playDirection - 1 > 3 := by omega
  have h3 : ¬ 0 < s.m_playDirection - 1 := by omega
  simp [PtsTracker, hd, h2, h3]

/-- C3: from a pending ambiguous fast request (1, 3 or 6) with the accumulator
at 0, two positive PTS deltas resolve the request to Forward (it is still
pending after the first), and three negative PTS deltas resolve it to Backward
(it is still pending after the first and the second); the resolved request is
applied with its speed and cleared. -/
theorem C3_PtsTracker_resolves (s : Dev) (d1 d2 d3 : Int)
    (hreq : s.m_trickRequest = 1 ∨ s.m_trickRequest = 3 ∨ s.m_trickRequest = 6)
    (hacc : s.m_playDirection = 0) :
    (0 < d1 → 0 < d2 →
      (PtsTracker s d1).m_trickRequest = s.m_trickRequest ∧
      (PtsTracker (PtsTracker s d1) d2).m_trickRequest = 0 ∧
      (PtsTracker (PtsTracker s d1) d2).m_direction = eDirection.eForward ∧
      (PtsTracker (PtsTracker s d1) d2).m_playbackSpeed = fastSpeed s.m_trickRequest) ∧
    (d1 < 0 → d2 < 0 → d3 < 0 →
      (PtsTracker s d1).m_trickRequest = s.m_trickRequest ∧
      (PtsTracker (PtsTracker s d1) d2).m_trickRequest = s.m_trickRequest ∧
      (PtsTracker (PtsTracker (PtsTracker s d1) d2) d3).m_trickRequest = 0 ∧
      (PtsTracker (PtsTracker (PtsTracker s d1) d2) d3).m_direction = eDirection.eBackward ∧
      (PtsTracker (PtsTracker (PtsTracker s d1) d2) d3).m_playbackSpeed =
        fastSpeed s.m_trickRequest) := by
  constructor
  · intro h1 h2
    rw [PtsTracker_pos_pending s d1 h1 (by omega) (by omega)]
    rw [PtsTracker_pos_fire _ d2 h2 (by simp only; omega)]
    refine ⟨rfl, rfl, rfl, ?_⟩
    rcases hreq with h | h | h <;> simp [ApplyTrickSpeed, Dev.emit, fastSpeed, h]
  · intro h1 h2 h3
    rw [PtsTracker_neg_pending s d1 h1 (by omega) (by omega)]
    rw [PtsTracker_neg_pending _ d2 h2 (by simp only; omega) (by simp only; omega)]
    rw [PtsTracker_neg_fire _ d3 h3 (by simp only; omega)]
    refine ⟨rfl, rfl, rfl, rfl, ?_⟩
    rcases hreq with h | h | h <;> simp [ApplyTrickSpeed, Dev.emit, fastSpeed, h]

/-- C3 witness: the request 1 pending on a fresh device, with deltas of 100
ticks forward and of 100 ticks backward. -/
theorem C3_PtsTracker_resolves_witness :
    ((TrickSpeed (freshDev (sampleEnv 4 0 false)) 1).m_trickRequest = 1 ∨
      (TrickSpeed (freshDev (sampleEnv 4 0 false)) 1).m_trickRequest = 3 ∨
      (TrickSpeed (freshDev (sampleEnv 4 0 false)) 1).m_trickRequest = 6) ∧
    (TrickSpeed (freshDev (sampleEnv 4 0 false)) 1).m_playDirection = 0 ∧
    (PtsTracker (PtsTracker (TrickSpeed (freshDev (sampleEnv 4 0 false)) 1) 100)
      100).m_direction = eDirection.eForward ∧
    (PtsTracker (PtsTracker (PtsTracker (TrickSpeed (freshDev (sampleEnv 4 0 false)) 1)
      (-100)) (-100)) (-100)).m_direction = eDirection.eBackward :=
  ⟨by decide, by decide,
    ((C3_PtsTracker_resolves (TrickSpeed (freshDev (sampleEnv 4 0 false)) 1) 100 100 100
      (by decide) (by decide)).1 (by decide) (by decide)).2.2.1,
    ((C3_PtsTracker_resolves (TrickSpeed (freshDev (sampleEnv 4 0 false)) 1)
      (-100) (-100) (-100) (by decide) (by decide)).2
      (by decide) (by decide) (by decide)).2.2.2.1⟩

/-! ## Frame lemmas: what the latency filter and the submission loop leave alone -/

theorem emit_playback (s : Dev) (c : Call) : (s.emit c).playback = s.playback := rfl

theorem emit_trace (s : Dev) (c : Call) : (s.emit c).trace = s.trace ++ [c] := rfl

theorem ResetLatency_playback (env : Env) (s : Dev) :
    (ResetLatency env s).playback = s.playback := rfl

theorem ResetLatency_trace (env : Env) (s : Dev) : (ResetLatency env s).trace = s.trace := rfl

theorem updateLiveSpeed_playback (env : Env) (s : Dev) (average : Int) :
    (updateLiveSpeed env s average).playback = s.playback := by
  unfold updateLiveSpeed
  split_ifs <;> rfl

theorem updateLiveSpeed_trace (env : Env) (s : Dev) (average : Int) :
    (updateLiveSpeed env s average).trace = s.trace := by
  unfold updateLiveSpeed
  split_ifs <;> rfl

theorem latencyEvaluate_playback (env : Env) (s : Dev) :
    (latencyEvaluate env s).playback = s.playback := by
  unfold latencyEvaluate
  simp only [emit_playback, updateLiveSpeed_playback]
  split_ifs <;> rfl

theorem latencyPush_playback (env : Env) (s : Dev) (sample : Int) :
    (latencyPush env s sample).playback = s.playback := by
  unfold latencyPush
  simp only
  split_ifs
  · rfl
  · rw [latencyEvaluate_playback]; rfl

theorem UpdateLatency_playback (env : Env) (s : Dev) (pts : Int) :
    (UpdateLatency env s pts).playback = s.playback := by
  unfold UpdateLatency
  simp only
  split_ifs <;> first | rfl | (rw [latencyPush_playback]; rfl)

theorem playVideoSubmit_playback (env : Env) (fuel : Nat) :
    ∀ (s : Dev) (Data : List Nat) (Length pts : Int) (EndOfFrame : Bool) (ret : Int),
      (playVideoSubmit env fuel s Data Length pts EndOfFrame ret).1.playback = s.playback := by
  induction fuel with
  | zero =>
    intro s Data Length pts EndOfFrame ret
    unfold playVideoSubmit
    split_ifs <;> rfl
  | succ n ih =>
    intro s Data Length pts EndOfFrame ret
    rw [playVideoSubmit]
    by_cases hL : Length > 0
    · rw [if_pos hL]
      split
      · simp only
        split
        · rfl
        · rw [ih]; rfl
      · rfl
    · rw [if_neg hL]

theorem trick_of_playback {s t : Dev} (h : t.playback = s.playback) : t.trick = s.trick := by
  simp only [Dev.playback, Playback.mk.injEq] at h
  simp only [Dev.trick, TrickState.mk.injEq]
  tauto

theorem playVideoCodecChange_trick (env : Env) (s : Dev) (codec : eCodec) :
    (playVideoCodecChange env s codec).1.trick = s.trick := by
  unfold playVideoCodecChange
  simp only
  split_ifs <;> rfl

theorem playVideoRestart_trick (env : Env) (s : Dev) (videoRestart : Bool) :
    (playVideoRestart env s videoRestart).trick = s.trick := by
  unfold playVideoRestart
  simp only
  split_ifs <;> rfl

theorem playVideoTrack_playback (env : Env) (s : Dev) (pts : Int)
    (h : s.m_trickRequest = 0 ∨ pts = 0 ∨ s.m_videoPts = 0) :
    (playVideoTrack env s pts).playback = s.playback := by
  have h1 : ¬ (s.m_trickRequest ≠ 0 ∧ pts ≠ 0 ∧ s.m_videoPts ≠ 0) := by tauto
  unfold playVideoTrack
  rw [if_neg h1]
  simp only
  split_ifs <;> first | rfl | (simp only [UpdateLatency_playback]; rfl)

/-- `PlayVideo` leaves the playback state and the direction tracker alone when
no request is pending, the packet has no PTS or `m_videoPts` is 0. -/
theorem PlayVideo_trick (env : Env) (fuel : Nat) (s : Dev) (Data : List Nat) (Length : Int)
    (EndOfFrame : Bool)
    (h : s.m_trickRequest = 0 ∨ packetPts Data = 0 ∨ s.m_videoPts = 0) :
    (PlayVideo env fuel s Data Length EndOfFrame).1.trick = s.trick := by
  have h0 : (playVideoRestart env (playVideoCodecChange env s (playVideoCodec Data Length)).1
      (playVideoCodecChange env s (playVideoCodec Data Length)).2).trick = s.trick := by
    rw [playVideoRestart_trick, playVideoCodecChange_trick]
  unfold PlayVideo
  simp only
  split_ifs
  · rw [trick_of_playback (playVideoSubmit_playback _ _ _ _ _ _ _ _)]
    rw [trick_of_playback (playVideoTrack_playback _ _ _ ?_), h0]
    simp only [Dev.trick, TrickState.mk.injEq] at h0
    rw [h0.2.2.2.1, h0.2.2.2.2.2]
    exact h
  · exact h0

/-! ## Theorems: the trick speed request on the video path -/

/-- C4 (the code at the failing input): on a device that is presenting video,
after `TrickSpeed(1)` and four video packets with the PTS values 100, 200, 300
and 400, the request is still pending and the playback state is still
(Forward, Normal), not (Forward, Fastest): `PlayVideo` never assigns
`m_videoPts`, so it never calls `PtsTracker`. -/
theorem C4_trick_request_stays_pending :
    (presentingVideo (sampleEnv 64 0 false)).m_hasVideo = true ∧
    packetPts (videoPes 100 mpeg2Payload) = 100 ∧
    packetPts (videoPes 200 mpeg2Payload) = 200 ∧
    packetPts (videoPes 300 mpeg2Payload) = 300 ∧
    packetPts (videoPes 400 mpeg2Payload) = 400 ∧
    (playVideoPts (sampleEnv 64 0 false)
      (TrickSpeed (presentingVideo (sampleEnv 64 0 false)) 1) [100, 200, 300, 400]).trick =
      { playbackSpeed := ePlaybackSpeed.eNormal, direction := eDirection.eForward,
        playDirection := 0, trickRequest := 1, audioPts := 0, videoPts := 0 } := by
  decide

/-! ## Calls made by the latency filter and by the submission loop -/

theorem traceExt_refl (P : Call → Prop) (t : List Call) : traceExt P t t :=
  ⟨[], by simp, by simp⟩

theorem traceExt_snoc {P : Call → Prop} {t0 t : List Call} {c : Call}
    (h : traceExt P t0 t) (hc : P c) : traceExt P t0 (t ++ [c]) := by
  obtain ⟨l, e, p⟩ := h
  refine ⟨l ++ [c], by rw [e, List.append_assoc], ?_⟩
  intro d hd
  rcases List.mem_append.mp hd with h | h
  · exact p d h
  · rw [List.mem_singleton.mp h]; exact hc

theorem emitsOnly_refl (P : Call → Prop) (s : Dev) : emitsOnly P s s :=
  ⟨[], by simp, by simp⟩

theorem emitsOnly_of_trace_eq (P : Call → Prop) {s t : Dev} (h : t.trace = s.trace) :
    emitsOnly P s t :=
  ⟨[], by simp [h], by simp⟩

theorem emitsOnly_trans {P : Call → Prop} {s t u : Dev} (h1 : emitsOnly P s t)
    (h2 : emitsOnly P t u) : emitsOnly P s u := by
  obtain ⟨l1, e1, p1⟩ := h1
  obtain ⟨l2, e2, p2⟩ := h2
  refine ⟨l1 ++ l2, by rw [e2, e1, List.append_assoc], ?_⟩
  intro c hc
  rcases List.mem_append.mp hc with h | h
  · exact p1 c h
  · exact p2 c h

theorem emitsOnly_emit (P : Call → Prop) (s : Dev) (c : Call) (h : P c) :
    emitsOnly P s (s.emit c) :=
  ⟨[c], rfl, by simpa using h⟩

theorem emitsOnly_mono {P Q : Call → Prop} {s t : Dev} (h : emitsOnly P s t)
    (hPQ : ∀ c, P c → Q c) : emitsOnly Q s t := by
  obtain ⟨l, e, p⟩ := h
  exact ⟨l, e, fun c hc => hPQ c (p c hc)⟩

theorem filterMap_emitsOnly {β : Type} (f : Call → Option β) {P : Call → Prop} {s t : Dev}
    (h : emitsOnly P s t) (hf : ∀ c, P c → f c = none) :
    t.trace.filterMap f = s.trace.filterMap f := by
  obtain ⟨l, e, p⟩ := h
  rw [e, List.filterMap_append]
  have : l.filterMap f = [] := by
    rw [List.filterMap_eq_nil_iff]
    exact fun c hc => hf c (p c hc)
  rw [this, List.append_nil]

theorem clockRef_of_isData (c : Call) (h : c.isData = true) : c.clockRef = none := by
  cases c <;> first | rfl | simp [Call.isData] at h

theorem startClock_of_isData (c : Call) (h : c.isData = true) : c.startClock = none := by
  cases c <;> first | rfl | simp [Call.isData] at h

theorem clockScale_of_isData (c : Call) (h : c.isData = true) : c.clockScale = none := by
  cases c <;> first | rfl | simp [Call.isData] at h

/-- The evaluation of a full window only sets the clock scale. -/
theorem latencyEvaluate_emits (env : Env) (s : Dev) :
    emitsOnly (fun c => c.isLatency = true) s (latencyEvaluate env s) := by
  unfold latencyEvaluate
  simp only
  refine emitsOnly_trans (emitsOnly_of_trace_eq _ ?_)
    (emitsOnly_emit _ _ (Call.SetClockScale _) rfl)
  rw [updateLiveSpeed_trace]
  split_ifs <;> rfl

/-- The latency filter only asks for the clock and sets the clock scale. -/
theorem UpdateLatency_emits (env : Env) (s : Dev) (pts : Int) :
    emitsOnly (fun c => c.isLatency = true) s (UpdateLatency env s pts) := by
  have e1 := emitsOnly_emit (fun c => c.isLatency = true) s
    (Call.IsClockRunning (env.IsClockRunning s.trace)) rfl
  have e2 := emitsOnly_trans e1 (emitsOnly_emit (fun c => c.isLatency = true) _
    (Call.GetSTC (env.GetSTC
      (s.emit (Call.IsClockRunning (env.IsClockRunning s.trace))).trace)) rfl)
  unfold UpdateLatency
  simp only
  split_ifs
  · exact emitsOnly_refl _ _
  · exact e1
  · exact e2
  · refine emitsOnly_trans e2 ?_
    unfold latencyPush
    simp only
    split_ifs
    · exact emitsOnly_of_trace_eq _ rfl
    · exact emitsOnly_trans (emitsOnly_of_trace_eq _ rfl) (latencyEvaluate_emits env _)

/-- While the window is not full, a sample is counted and no call is made. -/
theorem latencyPush_trace_early (env : Env) (s : Dev) (sample : Int)
    (h : s.m_latencySamples < (env.LATENCY_FILTER_SIZE : Int) - 1) :
    (latencyPush env s sample).trace = s.trace := by
  unfold latencyPush
  simp only
  rw [if_pos h]

/-- While the window is not full, the latency filter only asks for the clock. -/
theorem UpdateLatency_emits_early (env : Env) (s : Dev) (pts : Int)
    (h : s.m_latencySamples < (env.LATENCY_FILTER_SIZE : Int) - 1) :
    emitsOnly (fun c => c.isData = true) s (UpdateLatency env s pts) := by
  have e1 := emitsOnly_emit (fun c => c.isData = true) s
    (Call.IsClockRunning (env.IsClockRunning s.trace)) rfl
  have e2 := emitsOnly_trans e1 (emitsOnly_emit (fun c => c.isData = true) _
    (Call.GetSTC (env.GetSTC
      (s.emit (Call.IsClockRunning (env.IsClockRunning s.trace))).trace)) rfl)
  unfold UpdateLatency
  simp only
  split_ifs
  · exact emitsOnly_refl _ _
  · exact e1
  · exact e2
  · exact emitsOnly_trans e2 (emitsOnly_of_trace_eq _ (latencyPush_trace_early env _ _ h))

/-- One iteration of the submission loop, unfolded. -/
theorem playVideoSubmit_succ (env : Env) (fuel : Nat) (s : Dev) (Data : List Nat)
    (Length pts : Int) (EndOfFrame : Bool) (ret : Int) :
    playVideoSubmit env (fuel + 1) s Data Length pts EndOfFrame ret =
      if Length > 0 then
        match env.GetVideoBuffer s.trace pts with
        | some nAllocLen =>
          if !submitRes env s pts nAllocLen Data Length EndOfFrame then
            (submitState env s pts nAllocLen Data Length EndOfFrame, some 0)
          else
            playVideoSubmit env fuel (submitState env s pts nAllocLen Data Length EndOfFrame)
              (Data.drop (fillVideoBuffer nAllocLen Data Length EndOfFrame).nFilledLen)
              (Length - ((fillVideoBuffer nAllocLen Data Length EndOfFrame).nFilledLen : Int))
              0 EndOfFrame ret
        | none => (s.emit (Call.GetVideoBuffer pts none), some 0)
      else (s, some ret) := by
  rw [playVideoSubmit]
  rfl

theorem submitState_emits (env : Env) (s : Dev) (pts : Int) (nAllocLen : Nat)
    (Data : List Nat) (Length : Int) (EndOfFrame : Bool) :
    emitsOnly (fun c => c.isData = true) s
      (submitState env s pts nAllocLen Data Length EndOfFrame) :=
  emitsOnly_trans (emitsOnly_emit _ s (Call.GetVideoBuffer pts (some nAllocLen)) rfl)
    (emitsOnly_emit _ _ (Call.EmptyVideoBuffer _ _) rfl)

/-- The submission loop only acquires and submits buffers. -/
theorem playVideoSubmit_emits (env : Env) (fuel : Nat) :
    ∀ (s : Dev) (Data : List Nat) (Length pts : Int) (EndOfFrame : Bool) (ret : Int),
      emitsOnly (fun c => c.isData = true) s
        (playVideoSubmit env fuel s Data Length pts EndOfFrame ret).1 := by
  induction fuel with
  | zero =>
    intro s Data Length pts EndOfFrame ret
    unfold playVideoSubmit
    split_ifs <;> exact emitsOnly_refl _ _
  | succ n ih =>
    intro s Data Length pts EndOfFrame ret
    rw [playVideoSubmit_succ]
    by_cases hL : Length > 0
    · rw [if_pos hL]
      split
      · split
        · exact submitState_emits _ _ _ _ _ _ _
        · exact emitsOnly_trans (submitState_emits _ _ _ _ _ _ _) (ih _ _ _ _ _ _)
      · exact emitsOnly_emit _ _ (Call.GetVideoBuffer pts none) rfl
    · rw [if_neg hL]
      exact emitsOnly_refl _ _

/-! ## Theorems: the first audio packet -/

theorem playAudioWrite_emits (env : Env) (s : Dev) (Data : List Nat) (Length : Int) (Id : Nat)
    (pts : Int) :
    emitsOnly (fun c => c.isData = true) s (playAudioWrite env s Data Length Id pts).1 := by
  unfold playAudioWrite
  simp only
  by_cases h : Length - (PesPayloadOffset Data : Int) > 0
  · rw [if_pos h]
    exact emitsOnly_emit _ _ (Call.AudioWriteData _ _ _ _) rfl
  · rw [if_neg h]
    exact emitsOnly_refl _ _

theorem playAudioWrite_playback (env : Env) (s : Dev) (Data : List Nat) (Length : Int)
    (Id : Nat) (pts : Int) :
    (playAudioWrite env s Data Length Id pts).1.playback = s.playback := by
  unfold playAudioWrite
  simp only
  by_cases h : Length - (PesPayloadOffset Data : Int) > 0
  · rw [if_pos h]; rfl
  · rw [if_neg h]

theorem playAudioLatency_playback (env : Env) (s : Dev) (pts : Int) (Id : Nat) :
    (playAudioLatency env s pts Id).playback =
      { s.playback with audioId := (playAudioLatency env s pts Id).m_audioId } := by
  have h : ∀ t : Dev, t.playback = { t.playback with audioId := t.m_audioId } := fun _ => rfl
  rw [h (playAudioLatency env s pts Id)]
  unfold playAudioLatency
  simp only
  split_ifs <;> first | rfl | (simp only [UpdateLatency_playback]; rfl)

/-- While the window cannot be full yet, the latency block of `PlayAudio` only
makes queries. -/
theorem playAudioLatency_emits_early (env : Env) (s : Dev) (pts : Int) (Id : Nat)
    (hsize : 2 ≤ env.LATENCY_FILTER_SIZE) (hpre : 0 ≤ env.LATENCY_FILTER_PREROLL)
    (h : s.m_latencySamples < (env.LATENCY_FILTER_SIZE : Int) - 1) :
    emitsOnly (fun c => c.isData = true) s (playAudioLatency env s pts Id) := by
  have e1 := emitsOnly_emit (fun c => c.isData = true) s
    (Call.Transferring (env.Transferring s.trace)) rfl
  unfold playAudioLatency
  simp only
  split_ifs
  · refine emitsOnly_trans e1 (emitsOnly_trans (emitsOnly_of_trace_eq _ rfl)
      (UpdateLatency_emits_early env _ pts ?_))
    show -env.LATENCY_FILTER_PREROLL < (env.LATENCY_FILTER_SIZE : Int) - 1
    omega
  · exact emitsOnly_trans e1 (UpdateLatency_emits_early env _ pts h)
  · exact e1

/-- The first block of `PlayAudio` on a device without audio and video: the
calls it makes and the state it leaves. -/
theorem playAudioStart_first (env : Env) (s : Dev) (Id : Nat)
    (ha : s.m_hasAudio = false) (hv : s.m_hasVideo = false) :
    (playAudioStart env s Id).trace = s.trace ++
      [Call.SetClockReference eClockReference.eClockRefAudio,
        Call.SetClockScale (s_playbackSpeeds s.m_direction s.m_playbackSpeed),
        Call.StartClock false true,
        Call.Transferring (env.Transferring (s.trace ++
          [Call.SetClockReference eClockReference.eClockRefAudio,
            Call.SetClockScale (s_playbackSpeeds s.m_direction s.m_playbackSpeed),
            Call.StartClock false true]))] ∧
    (playAudioStart env s Id).playback = { s.playback with hasAudio := true, audioId := Id } ∧
    ((playAudioStart env s Id).m_latencySamples = s.m_latencySamples ∨
      (playAudioStart env s Id).m_latencySamples = -env.LATENCY_FILTER_PREROLL) := by
  unfold playAudioStart
  simp only [ha, hv, Bool.not_false, if_true, Dev.emit, List.append_assoc, List.singleton_append,
    List.cons_append, List.nil_append]
  split_ifs
  · exact ⟨rfl, by simp [Dev.playback, ResetLatency, hv], Or.inr rfl⟩
  · exact ⟨rfl, by simp [Dev.playback, hv], Or.inl rfl⟩

/-- The first audio packet on a device without audio and video and without a
pending trick request, while the filter window cannot be full yet: the device
selects the audio clock reference, sets the clock scale of the playback state
and starts the clock; all other calls are queries and data transfer; of the
playback part of the state only `m_hasAudio` and `m_audioId` change. -/
theorem PlayAudio_first (env : Env) (s : Dev) (Data : List Nat) (Length : Int) (Id : Nat)
    (hsize : 2 ≤ env.LATENCY_FILTER_SIZE) (hpre : 0 ≤ env.LATENCY_FILTER_PREROLL)
    (ha : s.m_hasAudio = false) (hv : s.m_hasVideo = false) (hreq : s.m_trickRequest = 0)
    (hlat : s.m_latencySamples < (env.LATENCY_FILTER_SIZE : Int) - 1) :
    (∃ l : List Call, (PlayAudio env s Data Length Id).1.trace = s.trace ++
        [Call.SetClockReference eClockReference.eClockRefAudio,
          Call.SetClockScale (s_playbackSpeeds s.m_direction s.m_playbackSpeed),
          Call.StartClock false true] ++ l ∧ ∀ c ∈ l, c.isData = true) ∧
    (PlayAudio env s Data Length Id).1.playback =
      { s.playback with hasAudio := true, audioId := Id } := by
  obtain ⟨hat, hap, hal⟩ := playAudioStart_first env s Id ha hv
  have hfin : (PlayAudio env s Data Length Id).1 =
      (playAudioWrite env (playAudioLatency env (playAudioTrack (playAudioStart env s Id)
        (packetPts Data)) (packetPts Data) Id) Data Length Id (packetPts Data)).1 := rfl
  rw [hfin]
  generalize playAudioStart env s Id = a at hat hap hal
  have hal' : a.m_latencySamples < (env.LATENCY_FILTER_SIZE : Int) - 1 := by
    rcases hal with h | h
    · rw [h]; exact hlat
    · rw [h]; omega
  have hreq' : a.m_trickRequest = 0 := by
    have := congrArg Playback.trickRequest hap
    exact this.trans hreq
  have haid : a.m_audioId = Id := congrArg Playback.audioId hap
  -- the tracker does nothing: no request is pending
  have hb : playAudioTrack a (packetPts Data) = a := by
    unfold playAudioTrack
    rw [if_neg (by rw [hreq']; simp)]
  rw [hb]
  -- the latency block and the write only make queries and pass data
  have hc := playAudioLatency_emits_early env a (packetPts Data) Id hsize hpre hal'
  have hd := playAudioWrite_emits env (playAudioLatency env a (packetPts Data) Id) Data Length Id
    (packetPts Data)
  obtain ⟨l, hl, hlP⟩ := emitsOnly_trans hc hd
  have hid : (playAudioLatency env a (packetPts Data) Id).m_audioId = Id := by
    unfold playAudioLatency
    simp only
    have hne : ¬ (s.emit (Call.Transferring (env.Transferring a.trace))).m_audioId ≠ Id → True :=
      fun _ => trivial
    split_ifs with h1 h2
    · have := congrArg Playback.audioId (UpdateLatency_playback env
        { (ResetLatency env (a.emit (Call.Transferring (env.Transferring a.trace)))) with
          m_audioId := Id } (packetPts Data))
      exact this
    · have := congrArg Playback.audioId (UpdateLatency_playback env
        (a.emit (Call.Transferring (env.Transferring a.trace))) (packetPts Data))
      exact this.trans haid
    · exact haid
  refine ⟨⟨(Call.Transferring (env.Transferring (s.trace ++
      [Call.SetClockReference eClockReference.eClockRefAudio,
        Call.SetClockScale (s_playbackSpeeds s.m_direction s.m_playbackSpeed),
        Call.StartClock false true]))) :: l, ?_, ?_⟩, ?_⟩
  · rw [hl, hat]
    simp
  · intro c hc
    rcases List.mem_cons.mp hc with h | h
    · rw [h]; rfl
    · exact hlP c h
  · rw [playAudioWrite_playback, playAudioLatency_playback, hid, hap]

/-- C5: on a freshly constructed device, `SetPlayMode(pmAudioVideo)` followed by
one `PlayAudio` call with any packet (so also one whose PTS is 90000) selects
the clock reference Audio (the only `SetClockReference` call), starts the clock
exactly once with `(hasVideo, hasAudio) = (false, true)`, sets the clock scale
to the Normal-forward entry of `s_playbackSpeeds` (the only `SetClockScale`
call) and leaves the playback state at (Forward, Normal). The filter window
of `omxdevice.h` holds at least two samples and its pre-roll is not negative. -/
theorem C5_first_audio_packet (env : Env) (garbage : Nat → Int) (Data : List Nat)
    (Length : Int) (Id : Nat)
    (hsize : 2 ≤ env.LATENCY_FILTER_SIZE) (hpre : 0 ≤ env.LATENCY_FILTER_PREROLL) :
    clockRefs (PlayAudio env (SetPlayMode (cOmxDevice env garbage) ePlayMode.pmAudioVideo)
        Data Length Id).1.trace = [eClockReference.eClockRefAudio] ∧
    startClocks (PlayAudio env (SetPlayMode (cOmxDevice env garbage) ePlayMode.pmAudioVideo)
        Data Length Id).1.trace = [(false, true)] ∧
    clockScales (PlayAudio env (SetPlayMode (cOmxDevice env garbage) ePlayMode.pmAudioVideo)
        Data Length Id).1.trace =
      [s_playbackSpeeds eDirection.eForward ePlaybackSpeed.eNormal] ∧
    (PlayAudio env (SetPlayMode (cOmxDevice env garbage) ePlayMode.pmAudioVideo)
        Data Length Id).1.m_direction = eDirection.eForward ∧
    (PlayAudio env (SetPlayMode (cOmxDevice env garbage) ePlayMode.pmAudioVideo)
        Data Length Id).1.m_playbackSpeed = ePlaybackSpeed.eNormal ∧
    (PlayAudio env (SetPlayMode (cOmxDevice env garbage) ePlayMode.pmAudioVideo)
        Data Length Id).1.m_hasAudio = true ∧
    (PlayAudio env (SetPlayMode (cOmxDevice env garbage) ePlayMode.pmAudioVideo)
        Data Length Id).1.m_hasVideo = false := by
  have hs0 : (SetPlayMode (cOmxDevice env garbage) ePlayMode.pmAudioVideo).m_latencySamples
      < (env.LATENCY_FILTER_SIZE : Int) - 1 := by
    show (0 : Int) < _
    omega
  obtain ⟨⟨l, hl, hlP⟩, hpb⟩ := PlayAudio_first env
    (SetPlayMode (cOmxDevice env garbage) ePlayMode.pmAudioVideo) Data Length Id hsize hpre
    rfl rfl rfl hs0
  have htr : (PlayAudio env (SetPlayMode (cOmxDevice env garbage) ePlayMode.pmAudioVideo)
      Data Length Id).1.trace =
      [Call.SetClockReference eClockReference.eClockRefAudio,
        Call.SetClockScale (s_playbackSpeeds eDirection.eForward ePlaybackSpeed.eNormal),
        Call.StartClock false true] ++ l := hl
  have hnone : ∀ {β : Type} (f : Call → Option β), (∀ c, c.isData = true → f c = none) →
      l.filterMap f = [] := by
    intro β f hf
    rw [List.filterMap_eq_nil_iff]
    exact fun c hc => hf c (hlP c hc)
  refine ⟨?_, ?_, ?_, ?_, ?_, ?_, ?_⟩
  · rw [htr, clockRefs, List.filterMap_append, hnone _ clockRef_of_isData]
    rfl
  · rw [htr, startClocks, List.filterMap_append, hnone _ startClock_of_isData]
    rfl
  · rw [htr, clockScales, List.filterMap_append, hnone _ clockScale_of_isData]
    rfl
  · exact congrArg Playback.direction hpb
  · exact congrArg Playback.playbackSpeed hpb
  · exact congrArg Playback.hasAudio hpb
  · exact congrArg Playback.hasVideo hpb

/-- C5 witness: a packet with PTS 90000 in live transfer mode, with a filter
of 8 samples and a pre-roll of 64. -/
theorem C5_first_audio_packet_witness :
    2 ≤ (sampleEnv 64 1000 true).LATENCY_FILTER_SIZE ∧
    0 ≤ (sampleEnv 64 1000 true).LATENCY_FILTER_PREROLL ∧
    packetPts (audioPes 90000 [1, 2, 3]) = 90000 ∧
    clockRefs (PlayAudio (sampleEnv 64 1000 true)
      (SetPlayMode (cOmxDevice (sampleEnv 64 1000 true) (fun _ => 7)) ePlayMode.pmAudioVideo)
      (audioPes 90000 [1, 2, 3]) 17 0xc0).1.trace = [eClockReference.eClockRefAudio] ∧
    startClocks (PlayAudio (sampleEnv 64 1000 true)
      (SetPlayMode (cOmxDevice (sampleEnv 64 1000 true) (fun _ => 7)) ePlayMode.pmAudioVideo)
      (audioPes 90000 [1, 2, 3]) 17 0xc0).1.trace = [(false, true)] :=
  ⟨by decide, by decide, by decide,
    (C5_first_audio_packet (sampleEnv 64 1000 true) (fun _ => 7) (audioPes 90000 [1, 2, 3])
      17 0xc0 (by decide) (by decide)).1,
    (C5_first_audio_packet (sampleEnv 64 1000 true) (fun _ => 7) (audioPes 90000 [1, 2, 3])
      17 0xc0 (by decide) (by decide)).2.1⟩

/-! ## Theorems: the submission loop of `PlayVideo` -/

theorem loopOutcome_prepend {l : List Call} {res : Option Int} {ret : Int} (l0 : List Call)
    (h0 : ∀ c ∈ l0, c.isFailure = false) (h : loopOutcome l res ret) :
    loopOutcome (l0 ++ l) res ret := by
  have hall : (∀ c ∈ l, c.isFailure = false) → ∀ c ∈ l0 ++ l, c.isFailure = false := by
    intro hl c hc
    rcases List.mem_append.mp hc with h1 | h1
    · exact h0 c h1
    · exact hl c h1
  rcases h with ⟨h1, h2⟩ | ⟨h1, pre, c, h2, h3, h4⟩ | ⟨h1, h2⟩
  · exact Or.inl ⟨h1, hall h2⟩
  · refine Or.inr (Or.inl ⟨h1, l0 ++ pre, c, by rw [h2, List.append_assoc], h3, ?_⟩)
    intro d hd
    rcases List.mem_append.mp hd with h5 | h5
    · exact h0 d h5
    · exact h4 d h5
  · exact Or.inr (Or.inr ⟨h1, hall h2⟩)

/-- The submission loop ends in one of the three ways of `loopOutcome`. -/
theorem playVideoSubmit_outcome (env : Env) (fuel : Nat) :
    ∀ (s : Dev) (Data : List Nat) (Length pts : Int) (EndOfFrame : Bool) (ret : Int),
      ∃ l : List Call,
        (playVideoSubmit env fuel s Data Length pts EndOfFrame ret).1.trace = s.trace ++ l ∧
        loopOutcome l (playVideoSubmit env fuel s Data Length pts EndOfFrame ret).2 ret := by
  induction fuel with
  | zero =>
    intro s Data Length pts EndOfFrame ret
    unfold playVideoSubmit
    by_cases hL : Length > 0
    · rw [if_pos hL]
      exact ⟨[], by simp, Or.inr (Or.inr ⟨rfl, by simp⟩)⟩
    · rw [if_neg hL]
      exact ⟨[], by simp, Or.inl ⟨rfl, by simp⟩⟩
  | succ n ih =>
    intro s Data Length pts EndOfFrame ret
    rw [playVideoSubmit_succ]
    by_cases hL : Length > 0
    · rw [if_pos hL]
      split
      · rename_i nAllocLen hbuf
        by_cases hres : submitRes env s pts nAllocLen Data Length EndOfFrame = true
        · -- the buffer has been accepted: the loop goes on
          have hif : (!submitRes env s pts nAllocLen Data Length EndOfFrame) = false := by
            rw [hres]; rfl
          rw [hif]
          simp only [Bool.false_eq_true, if_false]
          obtain ⟨l, hl, ho⟩ := ih (submitState env s pts nAllocLen Data Length EndOfFrame)
            (Data.drop (fillVideoBuffer nAllocLen Data Length EndOfFrame).nFilledLen)
            (Length - ((fillVideoBuffer nAllocLen Data Length EndOfFrame).nFilledLen : Int))
            0 EndOfFrame ret
          refine ⟨[Call.GetVideoBuffer pts (some nAllocLen),
            Call.EmptyVideoBuffer (some (fillVideoBuffer nAllocLen Data Length EndOfFrame))
              (submitRes env s pts nAllocLen Data Length EndOfFrame)] ++ l, ?_, ?_⟩
          · rw [hl]
            simp [submitState, Dev.emit]
          · refine loopOutcome_prepend _ ?_ ho
            intro c hc
            simp only [List.mem_cons, List.mem_singleton, List.not_mem_nil, or_false] at hc
            rcases hc with h | h
            · rw [h]; rfl
            · rw [h, hres]; rfl
        · -- the submission has failed
          have hres' : submitRes env s pts nAllocLen Data Length EndOfFrame = false := by
            simpa using hres
          have hif : (!submitRes env s pts nAllocLen Data Length EndOfFrame) = true := by
            rw [hres']; rfl
          rw [hif]
          simp only [if_true]
          refine ⟨[Call.GetVideoBuffer pts (some nAllocLen),
            Call.EmptyVideoBuffer (some (fillVideoBuffer nAllocLen Data Length EndOfFrame))
              (submitRes env s pts nAllocLen Data Length EndOfFrame)], ?_, ?_⟩
          · simp [submitState, Dev.emit]
          · refine Or.inr (Or.inl ⟨rfl, [Call.GetVideoBuffer pts (some nAllocLen)], _, rfl, ?_, ?_⟩)
            · rw [hres']; rfl
            · intro d hd
              simp only [List.mem_singleton] at hd
              rw [hd]; rfl
      · -- no buffer
        refine ⟨[Call.GetVideoBuffer pts none], rfl, ?_⟩
        exact Or.inr (Or.inl ⟨rfl, [], _, rfl, rfl, by simp⟩)
    · rw [if_neg hL]
      exact ⟨[], by simp, Or.inl ⟨rfl, by simp⟩⟩

/-- A buffer of positive capacity takes at least one byte of a positive
remaining length, and not more than is left. -/
theorem fillVideoBuffer_nFilledLen (nAllocLen : Nat) (Data : List Nat) (Length : Int)
    (EndOfFrame : Bool) (hcap : 0 < nAllocLen) (hL : Length > 0) :
    1 ≤ ((fillVideoBuffer nAllocLen Data Length EndOfFrame).nFilledLen : Int) ∧
    ((fillVideoBuffer nAllocLen Data Length EndOfFrame).nFilledLen : Int) ≤ Length := by
  unfold fillVideoBuffer
  simp only
  split_ifs with h
  · omega
  · omega

/-- When every buffer has a positive capacity, the submission loop ends within
as many iterations as bytes are left. -/
theorem playVideoSubmit_terminates (env : Env)
    (hcap : ∀ t pts nAllocLen, env.GetVideoBuffer t pts = some nAllocLen → 0 < nAllocLen)
    (fuel : Nat) :
    ∀ (s : Dev) (Data : List Nat) (Length pts : Int) (EndOfFrame : Bool) (ret : Int),
      Length ≤ fuel →
      (playVideoSubmit env fuel s Data Length pts EndOfFrame ret).2 ≠ none := by
  induction fuel with
  | zero =>
    intro s Data Length pts EndOfFrame ret hf
    unfold playVideoSubmit
    rw [if_neg (by omega)]
    simp
  | succ n ih =>
    intro s Data Length pts EndOfFrame ret hf
    rw [playVideoSubmit_succ]
    by_cases hL : Length > 0
    · rw [if_pos hL]
      split
      · rename_i nAllocLen hbuf
        have hn := fillVideoBuffer_nFilledLen nAllocLen Data Length EndOfFrame
          (hcap _ _ _ hbuf) hL
        split
        · simp
        · apply ih
          push_cast at hf
          omega
      · simp
    · rw [if_neg hL]
      simp

theorem ApplyTrickSpeed_emits (s : Dev) (trickSpeed : Int) (forward : Bool) :
    emitsOnly (fun c => c.isLatency = true) s (ApplyTrickSpeed s trickSpeed forward) :=
  ⟨[Call.SetClockScale _], rfl, by intro c hc; rw [List.mem_singleton.mp hc]; rfl⟩

theorem PtsTracker_emits (s : Dev) (ptsDiff : Int) :
    emitsOnly (fun c => c.isLatency = true) s (PtsTracker s ptsDiff) := by
  unfold PtsTracker
  simp only
  split_ifs <;>
    first
    | exact emitsOnly_refl _ _
    | exact emitsOnly_of_trace_eq _ rfl
    | exact emitsOnly_trans (emitsOnly_of_trace_eq _ rfl)
        (emitsOnly_trans (ApplyTrickSpeed_emits _ _ _) (emitsOnly_of_trace_eq _ rfl))

theorem playVideoCodecChange_emits (env : Env) (s : Dev) (codec : eCodec) :
    emitsOnly (fun c => c.isCodecSetup = true) s (playVideoCodecChange env s codec).1 := by
  unfold playVideoCodecChange emitsOnly
  simp only
  split_ifs <;> (try simp only [Dev.emit]) <;>
    repeat (first | exact traceExt_refl _ _ | refine traceExt_snoc ?_ rfl)

theorem playVideoRestart_emits (env : Env) (s : Dev) (videoRestart : Bool) :
    emitsOnly (fun c => c.isRestart = true) s (playVideoRestart env s videoRestart) := by
  unfold playVideoRestart emitsOnly
  simp only
  split_ifs <;> (try simp only [Dev.emit, ResetLatency]) <;>
    repeat (first | exact traceExt_refl _ _ | refine traceExt_snoc ?_ rfl)

theorem playVideoTrack_emits (env : Env) (s : Dev) (pts : Int) :
    emitsOnly (fun c => c.isLatency = true) s (playVideoTrack env s pts) := by
  unfold playVideoTrack
  simp only
  have e1 : ∀ t : Dev, emitsOnly (fun c => c.isLatency = true) t
      (t.emit (Call.Transferring (env.Transferring t.trace))) := fun t =>
    emitsOnly_emit _ _ (Call.Transferring _) rfl
  split_ifs
  · exact emitsOnly_trans (PtsTracker_emits _ _)
      (emitsOnly_trans (e1 _) (UpdateLatency_emits _ _ _))
  · exact emitsOnly_trans (PtsTracker_emits _ _) (e1 _)
  · exact PtsTracker_emits _ _
  · exact emitsOnly_trans (e1 _) (UpdateLatency_emits _ _ _)
  · exact e1 _
  · exact emitsOnly_refl _ _

/-- Before its loop `PlayVideo` neither acquires nor submits a buffer. -/
theorem playVideoHead_track_emits (env : Env) (s : Dev) (Data : List Nat) (Length : Int) :
    emitsOnly (fun c => c.isVideoBuffer = false) s (playVideoHead env s Data Length) ∧
    emitsOnly (fun c => c.isVideoBuffer = false) s
      (playVideoTrack env (playVideoHead env s Data Length) (packetPts Data)) := by
  have h1 : emitsOnly (fun c => c.isVideoBuffer = false) s
      (playVideoCodecChange env s (playVideoCodec Data Length)).1 :=
    emitsOnly_mono (playVideoCodecChange_emits env s (playVideoCodec Data Length))
      (by intro c; cases c <;> simp [Call.isCodecSetup, Call.isVideoBuffer])
  have h2 : emitsOnly (fun c => c.isVideoBuffer = false)
      (playVideoCodecChange env s (playVideoCodec Data Length)).1
      (playVideoHead env s Data Length) :=
    emitsOnly_mono (playVideoRestart_emits env
      (playVideoCodecChange env s (playVideoCodec Data Length)).1
      (playVideoCodecChange env s (playVideoCodec Data Length)).2)
      (by intro c; cases c <;> simp [Call.isRestart, Call.isVideoBuffer])
  have h3 : emitsOnly (fun c => c.isVideoBuffer = false) (playVideoHead env s Data Length)
      (playVideoTrack env (playVideoHead env s Data Length) (packetPts Data)) :=
    emitsOnly_mono (playVideoTrack_emits env (playVideoHead env s Data Length)
      (packetPts Data))
      (by intro c; cases c <;> simp [Call.isLatency, Call.isQuery, Call.isVideoBuffer])
  exact ⟨emitsOnly_trans h1 h2, emitsOnly_trans (emitsOnly_trans h1 h2) h3⟩

/-- `PlayVideo` in terms of its parts. -/
theorem PlayVideo_eq (env : Env) (fuel : Nat) (s : Dev) (Data : List Nat) (Length : Int)
    (EndOfFrame : Bool) :
    PlayVideo env fuel s Data Length EndOfFrame =
      if (playVideoHead env s Data Length).m_hasVideo then
        playVideoSubmit env fuel
          (playVideoTrack env (playVideoHead env s Data Length) (packetPts Data))
          (Data.drop (PesPayloadOffset Data)) (Length - PesPayloadOffset Data)
          (packetPts Data) EndOfFrame Length
      else (playVideoHead env s Data Length, some Length) := rfl

/-- C6: for every video packet, if a buffer acquisition returns null or a
submission fails, `PlayVideo` returns 0 and that failure is the last call it
makes for the packet (it acquires and submits no further buffer); if every
buffer was acquired and every submission succeeded, the value it returns is
the packet's full `Length`; and it does return, within `fuel` iterations of
its loop, when every buffer that the decoder hands out has a positive capacity
and `fuel` covers the payload. -/
theorem C6_PlayVideo_result (env : Env) (fuel : Nat) (s : Dev) (Data : List Nat)
    (Length : Int) (EndOfFrame : Bool) :
    ∃ l : List Call,
      (PlayVideo env fuel s Data Length EndOfFrame).1.trace = s.trace ++ l ∧
      (∀ c ∈ l, c.isFailure = true →
        (PlayVideo env fuel s Data Length EndOfFrame).2 = some 0 ∧
        ∃ pre, l = pre ++ [c] ∧ ∀ d ∈ pre, d.isFailure = false) ∧
      ((∀ c ∈ l, c.isFailure = false) →
        (PlayVideo env fuel s Data Length EndOfFrame).2 = some Length ∨
        (PlayVideo env fuel s Data Length EndOfFrame).2 = none) ∧
      ((∀ t pts nAllocLen, env.GetVideoBuffer t pts = some nAllocLen → 0 < nAllocLen) →
        Length - PesPayloadOffset Data ≤ fuel →
        (PlayVideo env fuel s Data Length EndOfFrame).2 ≠ none) := by
  have hnf : ∀ c : Call, c.isVideoBuffer = false → c.isFailure = false := by
    intro c hc
    cases c <;> first | rfl | simp [Call.isVideoBuffer] at hc
  obtain ⟨⟨l0, hl0, hP0⟩, ⟨l1, hl1, hP1⟩⟩ := playVideoHead_track_emits env s Data Length
  rw [PlayVideo_eq]
  by_cases hv : (playVideoHead env s Data Length).m_hasVideo = true
  · rw [if_pos hv]
    obtain ⟨l, hl, ho⟩ := playVideoSubmit_outcome env fuel
      (playVideoTrack env (playVideoHead env s Data Length) (packetPts Data))
      (Data.drop (PesPayloadOffset Data)) (Length - PesPayloadOffset Data)
      (packetPts Data) EndOfFrame Length
    have ho' := loopOutcome_prepend l1 (fun c hc => hnf c (hP1 c hc)) ho
    refine ⟨l1 ++ l, by rw [hl, hl1, List.append_assoc], ?_, ?_, ?_⟩
    · intro c hc hfail
      rcases ho' with ⟨-, h2⟩ | ⟨h1, pre, c0, h2, h3, h4⟩ | ⟨-, h2⟩
      · have := h2 c hc
        rw [hfail] at this
        exact absurd this (by decide)
      · refine ⟨h1, pre, ?_, h4⟩
        rw [h2] at hc
        rcases List.mem_append.mp hc with h5 | h5
        · have := h4 c h5
          rw [hfail] at this
          exact absurd this (by decide)
        · rw [List.mem_singleton.mp h5, h2]
      · have := h2 c hc
        rw [hfail] at this
        exact absurd this (by decide)
    · intro hall
      rcases ho' with ⟨h1, -⟩ | ⟨-, pre, c, h2, h3, -⟩ | ⟨h1, -⟩
      · exact Or.inl h1
      · have := hall c (by rw [h2]; simp)
        rw [h3] at this
        exact absurd this (by decide)
      · exact Or.inr h1
    · intro hcap hfuel
      exact playVideoSubmit_terminates env hcap fuel _ _ _ _ _ _ hfuel
  · rw [if_neg hv]
    refine ⟨l0, hl0, ?_, fun _ => Or.inl rfl, fun _ _ => by simp⟩
    intro c hc hfail
    have := hnf c (hP0 c hc)
    rw [hfail] at this
    exact absurd this (by decide)

/-- C6 witness: a packet with a payload of six bytes for a decoder with
buffers of four bytes that accepts the first submission only: the second
submission fails, `PlayVideo` returns 0 and has acquired two buffers. -/
theorem C6_PlayVideo_result_witness :
    (∀ (t : List Call) (pts : Int) (nAllocLen : Nat),
      (rejectingEnv 4 1).GetVideoBuffer t pts = some nAllocLen → 0 < nAllocLen) ∧
    (20 : Int) - PesPayloadOffset (videoPes 100 mpeg2Payload) ≤ ((8 : Nat) : Int) ∧
    (PlayVideo (rejectingEnv 4 1) 8 (freshDev (rejectingEnv 4 1))
      (videoPes 100 mpeg2Payload) 20 false).2 = some 0 ∧
    submissions (PlayVideo (rejectingEnv 4 1) 8 (freshDev (rejectingEnv 4 1))
      (videoPes 100 mpeg2Payload) 20 false).1.trace =
      [some { pBuffer := [0, 0, 1, 0xb3], nFilledLen := 4, endOfFrame := false, eos := false },
        some { pBuffer := [0x2d, 0x02], nFilledLen := 2, endOfFrame := false, eos := false }] ∧
    (PlayVideo (sampleEnv 4 0 false) 8 (freshDev (sampleEnv 4 0 false))
      (videoPes 100 mpeg2Payload) 20 false).2 = some 20 ∧
    ∃ l : List Call,
      (PlayVideo (rejectingEnv 4 1) 8 (freshDev (rejectingEnv 4 1))
        (videoPes 100 mpeg2Payload) 20 false).1.trace =
        (freshDev (rejectingEnv 4 1)).trace ++ l ∧
      (∀ c ∈ l, c.isFailure = true →
        (PlayVideo (rejectingEnv 4 1) 8 (freshDev (rejectingEnv 4 1))
          (videoPes 100 mpeg2Payload) 20 false).2 = some 0 ∧
        ∃ pre, l = pre ++ [c] ∧ ∀ d ∈ pre, d.isFailure = false) ∧
      ((∀ c ∈ l, c.isFailure = false) →
        (PlayVideo (rejectingEnv 4 1) 8 (freshDev (rejectingEnv 4 1))
          (videoPes 100 mpeg2Payload) 20 false).2 = some 20 ∨
        (PlayVideo (rejectingEnv 4 1) 8 (freshDev (rejectingEnv 4 1))
          (videoPes 100 mpeg2Payload) 20 false).2 = none) ∧
      ((∀ t pts nAllocLen,
          (rejectingEnv 4 1).GetVideoBuffer t pts = some nAllocLen → 0 < nAllocLen) →
        (20 : Int) - PesPayloadOffset (videoPes 100 mpeg2Payload) ≤ ((8 : Nat) : Int) →
        (PlayVideo (rejectingEnv 4 1) 8 (freshDev (rejectingEnv 4 1))
          (videoPes 100 mpeg2Payload) 20 false).2 ≠ none) :=
  ⟨fun _ _ _ h => by cases h; decide, by decide, by decide, by decide, by decide,
    C6_PlayVideo_result (rejectingEnv 4 1) 8 (freshDev (rejectingEnv 4 1))
      (videoPes 100 mpeg2Payload) 20 false⟩

/-! ## Theorems: still picture of a raw frame -/

/-- C7 (as stated, refuted): a raw MPEG2 frame of six bytes, shown after
`Clear()` on a decoder that accepts every buffer but whose buffers hold four
bytes, takes two buffers per pass: eight submissions (every second one flagged
end of frame) before the end of stream buffer, not four. -/
theorem C7_counterexample :
    byteAt mpeg2Payload 0 ≠ 0x47 ∧
    ParseVideoCodec mpeg2Payload 6 = eCodec.eMPEG2 ∧
    (sampleEnv 4 0 false).IsVideoCodecSupported eCodec.eMPEG2 = true ∧
    (StillPicture (sampleEnv 4 0 false) 8 (Clear (freshDev (sampleEnv 4 0 false)))
      mpeg2Payload 6).2 = true ∧
    submissions (StillPicture (sampleEnv 4 0 false) 8 (Clear (freshDev (sampleEnv 4 0 false)))
      mpeg2Payload 6).1.trace =
      [some { pBuffer := [0, 0, 1, 0xb3], nFilledLen := 4, endOfFrame := false, eos := false },
        some { pBuffer := [0x2d, 0x02], nFilledLen := 2, endOfFrame := true, eos := false },
        some { pBuffer := [0, 0, 1, 0xb3], nFilledLen := 4, endOfFrame := false, eos := false },
        some { pBuffer := [0x2d, 0x02], nFilledLen := 2, endOfFrame := true, eos := false },
        some { pBuffer := [0, 0, 1, 0xb3], nFilledLen := 4, endOfFrame := false, eos := false },
        some { pBuffer := [0x2d, 0x02], nFilledLen := 2, endOfFrame := true, eos := false },
        some { pBuffer := [0, 0, 1, 0xb3], nFilledLen := 4, endOfFrame := false, eos := false },
        some { pBuffer := [0x2d, 0x02], nFilledLen := 2, endOfFrame := true, eos := false },
        some eosBuffer] := by
  decide

theorem byteAt_take (p : List Nat) (n j : Nat) (h : j < n) :
    byteAt (p.take n) j = byteAt p j := by
  simp [byteAt, List.getD_eq_getElem?_getD, List.getElem?_take, h]

/-- The sniffer only reads bytes below `length`. -/
theorem parseVideoCodecLoop_take (p : List Nat) (length : Int) (n : Nat) (hn : length ≤ n) :
    ∀ k i, parseVideoCodecLoop (p.take n) length i k = parseVideoCodecLoop p length i k := by
  intro k
  induction k with
  | zero => intro i; rfl
  | succ k ih =>
    intro i
    unfold parseVideoCodecLoop
    by_cases hc : i < 5 ∧ (i : Int) + 4 < length
    · rw [if_pos hc, if_pos hc]
      rw [byteAt_take p n i (by omega), byteAt_take p n (i + 1) (by omega),
        byteAt_take p n (i + 2) (by omega), byteAt_take p n (i + 3) (by omega),
        byteAt_take p n (i + 4) (by omega), ih]
    · rw [if_neg hc, if_neg hc]

theorem ParseVideoCodec_take (p : List Nat) (length : Int) :
    ParseVideoCodec (p.take length.toNat) length = ParseVideoCodec p length :=
  parseVideoCodecLoop_take p length length.toNat (Int.self_le_toNat length) 5 0

/-- The sniffer recognises no codec in fewer than five bytes. -/
theorem parseVideoCodecLoop_length (p : List Nat) (length : Int) :
    ∀ k i, parseVideoCodecLoop p length i k ≠ eCodec.eInvalid → 4 < length := by
  intro k
  induction k with
  | zero => intro i h; exact absurd rfl h
  | succ k ih =>
    intro i h
    unfold parseVideoCodecLoop at h
    by_cases hc : i < 5 ∧ (i : Int) + 4 < length
    · omega
    · rw [if_neg hc] at h
      exact absurd rfl h

theorem ParseVideoCodec_length (p : List Nat) (length : Int)
    (h : ParseVideoCodec p length ≠ eCodec.eInvalid) : 4 < length :=
  parseVideoCodecLoop_length p length 5 0 h

theorem byteAt_PesVideoHeader (X : List Nat) (k : Nat) (h : k < 14) :
    byteAt (PesVideoHeader ++ X) k = byteAt PesVideoHeader k := by
  have hl : k < PesVideoHeader.length := h
  simp only [byteAt, List.getD_eq_getElem?_getD, List.getElem?_append_left hl]

/-- The header that `StillPicture` puts before a raw frame: it has a PTS
field, whose value is 0, no length, the stream id of a video stream, and the
payload starts after its 14 bytes. -/
theorem PesVideoHeader_parse (X : List Nat) :
    PesHasPts (PesVideoHeader ++ X) = true ∧
    PesGetPts (PesVideoHeader ++ X) = 0 ∧
    packetPts (PesVideoHeader ++ X) = 0 ∧
    PesPayloadOffset (PesVideoHeader ++ X) = 14 ∧
    PesHasLength (PesVideoHeader ++ X) = false ∧
    byteAt (PesVideoHeader ++ X) 3 &&& 0xf0 = 0xe0 ∧
    (PesVideoHeader ++ X).drop 14 = X := by
  have h1 : PesHasPts (PesVideoHeader ++ X) = true := by
    unfold PesHasPts
    rw [byteAt_PesVideoHeader X 7 (by decide)]
    decide
  have h2 : PesGetPts (PesVideoHeader ++ X) = 0 := by
    unfold PesGetPts
    rw [byteAt_PesVideoHeader X 9 (by decide), byteAt_PesVideoHeader X 10 (by decide),
      byteAt_PesVideoHeader X 11 (by decide), byteAt_PesVideoHeader X 12 (by decide),
      byteAt_PesVideoHeader X 13 (by decide)]
    decide
  refine ⟨h1, h2, ?_, ?_, ?_, ?_, rfl⟩
  · rw [packetPts, if_pos h1, h2]
  · unfold PesPayloadOffset
    rw [byteAt_PesVideoHeader X 8 (by decide)]
    decide
  · unfold PesHasLength
    rw [byteAt_PesVideoHeader X 4 (by decide), byteAt_PesVideoHeader X 5 (by decide)]
    decide
  · rw [byteAt_PesVideoHeader X 3 (by decide)]
    decide

/-- A buffer that is not smaller than what is left takes all of it and is
flagged end of frame. -/
theorem fillVideoBuffer_whole (nAllocLen : Nat) (X : List Nat) (Length : Int)
    (hL : Length > 0) (hcap : Length ≤ nAllocLen) :
    fillVideoBuffer nAllocLen X Length true = frameBuffer X Length := by
  unfold fillVideoBuffer frameBuffer
  simp only
  rw [if_neg (by omega)]
  have h : Length - ((Length.toNat : Nat) : Int) = 0 := by omega
  rw [h]
  rfl

/-- The submission loop passes a frame that fits into one buffer in one
iteration, when the decoder has a buffer and accepts it. -/
theorem playVideoSubmit_whole (env : Env) (fuel : Nat) (s : Dev) (X : List Nat)
    (Length pts ret : Int) (nAllocLen : Nat) (hL : Length > 0)
    (hbuf : env.GetVideoBuffer s.trace pts = some nAllocLen) (hcap : Length ≤ nAllocLen)
    (hacc : ∀ t b, env.EmptyVideoBuffer t b = true) :
    playVideoSubmit env (fuel + 1) s X Length pts true ret =
      ((s.emit (Call.GetVideoBuffer pts (some nAllocLen))).emit
        (Call.EmptyVideoBuffer (some (frameBuffer X Length)) true), some ret) := by
  rw [playVideoSubmit_succ, if_pos hL, hbuf]
  simp only
  have hres : submitRes env s pts nAllocLen X Length true = true := hacc _ _
  rw [hres]
  simp only [Bool.not_true, Bool.false_eq_true, if_false]
  have hst : submitState env s pts nAllocLen X Length true =
      (s.emit (Call.GetVideoBuffer pts (some nAllocLen))).emit
        (Call.EmptyVideoBuffer (some (frameBuffer X Length)) true) := by
    unfold submitState
    rw [hres, fillVideoBuffer_whole nAllocLen X Length hL hcap]
  rw [hst, fillVideoBuffer_whole nAllocLen X Length hL hcap]
  have h0 : Length - ((frameBuffer X Length).nFilledLen : Int) = 0 := by
    show Length - ((Length.toNat : Nat) : Int) = 0
    omega
  rw [h0]
  cases fuel with
  | zero => rfl
  | succ n => rw [playVideoSubmit_succ, if_neg (by omega)]

theorem submission_of_not_isVideoBuffer (c : Call) (h : c.isVideoBuffer = false) :
    c.submission = none := by
  cases c <;> first | rfl | simp [Call.isVideoBuffer] at h

theorem submissions_of_not_isVideoBuffer (l : List Call)
    (h : ∀ c ∈ l, c.isVideoBuffer = false) : submissions l = [] := by
  unfold submissions
  rw [List.filterMap_eq_nil_iff]
  exact fun c hc => submission_of_not_isVideoBuffer c (h c hc)

theorem frameBuffer_take (Data : List Nat) (Length : Int) :
    frameBuffer (Data.take Length.toNat) Length = frameBuffer Data Length := by
  unfold frameBuffer
  rw [List.take_take, min_self]

/-- The restart block of `PlayVideo` sets `m_hasVideo` if `videoRestart` holds
and leaves the rest of the playback part alone. -/
theorem playVideoRestart_playback (env : Env) (s : Dev) (videoRestart : Bool) :
    (playVideoRestart env s videoRestart).playback =
      { s.playback with hasVideo := s.m_hasVideo || videoRestart } := by
  unfold playVideoRestart
  cases videoRestart
  · simp [Dev.playback]
  · simp only [if_true]
    split_ifs <;> simp [Dev.playback, Dev.emit, ResetLatency]

/-- The codec change block of `PlayVideo` without a change of codec. -/
theorem playVideoCodecChange_same (env : Env) (s : Dev) (codec : eCodec)
    (h : codec = eCodec.eInvalid ∨ codec = s.m_videoCodec) :
    playVideoCodecChange env s codec =
      (s, !s.m_hasVideo && decide (codec = s.m_videoCodec) && env.IsVideoCodecSupported codec)
      := by
  unfold playVideoCodecChange
  simp only
  rw [if_neg (by tauto)]

/-- The codec change block of `PlayVideo` with a change of codec. -/
theorem playVideoCodecChange_change (env : Env) (s : Dev) (codec : eCodec)
    (h1 : codec ≠ eCodec.eInvalid) (h2 : codec ≠ s.m_videoCodec) :
    (playVideoCodecChange env s codec).1.playback =
      { s.playback with videoCodec := codec, hasVideo := false } ∧
    (playVideoCodecChange env s codec).2 = env.IsVideoCodecSupported codec := by
  unfold playVideoCodecChange
  simp only
  rw [if_pos ⟨h1, h2⟩]
  by_cases hv : s.m_hasVideo = true <;> by_cases hsup : env.IsVideoCodecSupported codec = true
    <;> simp [hv, hsup, Dev.playback, Dev.emit]

/-- The codec change and restart blocks of `PlayVideo` on an MPEG2 packet, when
MPEG2 is supported: afterwards the device presents MPEG2 video. -/
theorem playVideoHead_mpeg2 (env : Env) (s : Dev) (Data : List Nat) (Length : Int)
    (hcodec : playVideoCodec Data Length = eCodec.eMPEG2)
    (hsup : env.IsVideoCodecSupported eCodec.eMPEG2 = true) :
    (playVideoHead env s Data Length).m_hasVideo = true ∧
    (playVideoHead env s Data Length).m_videoCodec = eCodec.eMPEG2 := by
  unfold playVideoHead
  rw [hcodec]
  have hr := playVideoRestart_playback env (playVideoCodecChange env s eCodec.eMPEG2).1
    (playVideoCodecChange env s eCodec.eMPEG2).2
  by_cases hc : eCodec.eMPEG2 = s.m_videoCodec
  · rw [playVideoCodecChange_same env s _ (Or.inr hc)] at hr ⊢
    simp only [Dev.playback, Playback.mk.injEq] at hr
    refine ⟨?_, hr.1.trans hc.symm⟩
    rw [hr.2.2.2.1, hsup]
    cases hv : s.m_hasVideo <;> simp [hc]
  · obtain ⟨h1, h2⟩ := playVideoCodecChange_change env s eCodec.eMPEG2 (by decide) hc
    simp only [Dev.playback, Playback.mk.injEq] at hr h1
    refine ⟨?_, hr.1.trans h1.1⟩
    rw [hr.2.2.2.1, h2, hsup]
    simp

/-- One `PlayVideo` call of `StillPicture` for a raw MPEG2 frame that fits into
one buffer: the call returns, the device presents MPEG2 video afterwards, and
the only buffer submitted is the whole frame, flagged end of frame. -/
theorem PlayVideo_raw_frame (env : Env) (fuel : Nat) (s : Dev) (X : List Nat) (Length : Int)
    (hcodec : ParseVideoCodec X Length = eCodec.eMPEG2)
    (hsup : env.IsVideoCodecSupported eCodec.eMPEG2 = true)
    (hacc : ∀ t b, env.EmptyVideoBuffer t b = true)
    (hbuf : ∀ t pts, ∃ nAllocLen, env.GetVideoBuffer t pts = some nAllocLen ∧
      Length ≤ nAllocLen) :
    (PlayVideo env (fuel + 1) s (PesVideoHeader ++ X) (Length + 14) true).2 =
      some (Length + 14) ∧
    (PlayVideo env (fuel + 1) s (PesVideoHeader ++ X) (Length + 14) true).1.m_hasVideo = true ∧
    (PlayVideo env (fuel + 1) s (PesVideoHeader ++ X) (Length + 14) true).1.m_videoCodec =
      eCodec.eMPEG2 ∧
    ∃ l : List Call,
      (PlayVideo env (fuel + 1) s (PesVideoHeader ++ X) (Length + 14) true).1.trace =
        s.trace ++ l ∧
      submissions l = [some (frameBuffer X Length)] := by
  obtain ⟨hpts, -, hp0, hoff, -, -, hdrop⟩ := PesVideoHeader_parse X
  have hL : Length > 0 := by
    have := ParseVideoCodec_length X Length (by rw [hcodec]; decide)
    omega
  have hlen : Length + 14 - ((PesPayloadOffset (PesVideoHeader ++ X) : Nat) : Int) = Length := by
    rw [hoff]; push_cast; omega
  have hpc : playVideoCodec (PesVideoHeader ++ X) (Length + 14) = eCodec.eMPEG2 := by
    unfold playVideoCodec
    rw [if_pos hpts, hlen, hoff, hdrop, hcodec]
  obtain ⟨hhv, hhc⟩ := playVideoHead_mpeg2 env s (PesVideoHeader ++ X) (Length + 14) hpc hsup
  obtain ⟨-, ⟨l1, hl1, hP1⟩⟩ := playVideoHead_track_emits env s (PesVideoHeader ++ X)
    (Length + 14)
  have htp := playVideoTrack_playback env (playVideoHead env s (PesVideoHeader ++ X)
    (Length + 14)) (packetPts (PesVideoHeader ++ X)) (Or.inr (Or.inl hp0))
  obtain ⟨nAllocLen, hb, hcap⟩ := hbuf (playVideoTrack env
    (playVideoHead env s (PesVideoHeader ++ X) (Length + 14))
    (packetPts (PesVideoHeader ++ X))).trace (packetPts (PesVideoHeader ++ X))
  rw [PlayVideo_eq, if_pos hhv, hlen, hoff, hdrop,
    playVideoSubmit_whole env fuel _ X Length _ _ nAllocLen hL hb hcap hacc]
  refine ⟨rfl, ?_, ?_, l1 ++ [Call.GetVideoBuffer (packetPts (PesVideoHeader ++ X))
    (some nAllocLen), Call.EmptyVideoBuffer (some (frameBuffer X Length)) true], ?_, ?_⟩
  · exact (congrArg Playback.hasVideo htp).trans hhv
  · exact (congrArg Playback.videoCodec htp).trans hhc
  · show ((playVideoTrack env (playVideoHead env s (PesVideoHeader ++ X) (Length + 14))
      (packetPts (PesVideoHeader ++ X))).trace ++ [_]) ++ [_] = _
    rw [hl1]
    simp
  · unfold submissions
    rw [List.filterMap_append]
    have := submissions_of_not_isVideoBuffer l1 hP1
    unfold submissions at this
    rw [this]
    rfl

/-- The packet loop of `StillPicture` for a raw MPEG2 frame with its
synthesized header: the frame is one packet, played by one `PlayVideo` call. -/
theorem stillPicturePackets_raw_frame (env : Env) (fuel n : Nat) (s : Dev) (X : List Nat)
    (Length : Int)
    (hcodec : ParseVideoCodec X Length = eCodec.eMPEG2)
    (hsup : env.IsVideoCodecSupported eCodec.eMPEG2 = true)
    (hacc : ∀ t b, env.EmptyVideoBuffer t b = true)
    (hbuf : ∀ t pts, ∃ nAllocLen, env.GetVideoBuffer t pts = some nAllocLen ∧
      Length ≤ nAllocLen) :
    stillPicturePackets env (fuel + 1) (n + 1) s (PesVideoHeader ++ X) (Length + 14) =
      ((PlayVideo env (fuel + 1) s (PesVideoHeader ++ X) (Length + 14) true).1, true) := by
  obtain ⟨-, -, -, -, hnl, hvid, -⟩ := PesVideoHeader_parse X
  obtain ⟨hret, -⟩ := PlayVideo_raw_frame env fuel s X Length hcodec hsup hacc hbuf
  have hL : Length > 0 := by
    have := ParseVideoCodec_length X Length (by rw [hcodec]; decide)
    omega
  have hle : PesLongEnough (Length + 14) = true := by
    unfold PesLongEnough
    rw [decide_eq_true_eq]
    omega
  have h0 : PesLongEnough (Length + 14 - (Length + 14)) = false := by
    unfold PesLongEnough
    rw [decide_eq_false_iff_not]
    omega
  have hpl : pesPacketLength (PesVideoHeader ++ X) (Length + 14) = Length + 14 := by
    rw [pesPacketLength, hnl]; rfl
  have hpp : playVideoPacket env (fuel + 1) s (PesVideoHeader ++ X) (Length + 14) =
      PlayVideo env (fuel + 1) s (PesVideoHeader ++ X) (Length + 14) true := by
    rw [playVideoPacket, if_pos hvid, hpl]
    simp
  rw [stillPicturePackets, hle, hpp, hpl]
  simp only [if_true, hret]
  cases n with
  | zero => rw [stillPicturePackets, h0]; rfl
  | succ m => rw [stillPicturePackets, h0]; rfl

/-- The repeat loop of `StillPicture` for a raw MPEG2 frame that fits into one
buffer: every pass submits the whole frame once, flagged end of frame. -/
theorem stillPictureRepeat_raw_frame (env : Env) (fuel : Nat) (X : List Nat) (Length : Int)
    (hcodec : ParseVideoCodec X Length = eCodec.eMPEG2)
    (hsup : env.IsVideoCodecSupported eCodec.eMPEG2 = true)
    (hacc : ∀ t b, env.EmptyVideoBuffer t b = true)
    (hbuf : ∀ t pts, ∃ nAllocLen, env.GetVideoBuffer t pts = some nAllocLen ∧
      Length ≤ nAllocLen) :
    ∀ (k : Nat) (s : Dev),
      (stillPictureRepeat env (fuel + 1) k s (PesVideoHeader ++ X) (Length + 14)).2 = true ∧
      ∃ l : List Call,
        (stillPictureRepeat env (fuel + 1) k s (PesVideoHeader ++ X) (Length + 14)).1.trace =
          s.trace ++ l ∧
        submissions l = List.replicate k (some (frameBuffer X Length)) := by
  intro k
  induction k with
  | zero =>
    intro s
    exact ⟨rfl, [], by simp [stillPictureRepeat], rfl⟩
  | succ k ih =>
    intro s
    obtain ⟨-, -, -, l1, hl1, hs1⟩ := PlayVideo_raw_frame env fuel s X Length hcodec hsup hacc hbuf
    rw [stillPictureRepeat, stillPicturePackets_raw_frame env fuel fuel s X Length hcodec hsup
      hacc hbuf]
    simp only [if_true]
    obtain ⟨hr, l2, hl2, hs2⟩ := ih
      (PlayVideo env (fuel + 1) s (PesVideoHeader ++ X) (Length + 14) true).1
    refine ⟨hr, l1 ++ l2, by rw [hl2, hl1, List.append_assoc], ?_⟩
    unfold submissions at hs1 hs2 ⊢
    rw [List.filterMap_append, hs1, hs2]
    rfl

/-- `SubmitEOS` when the decoder has a buffer: it submits the end of stream
buffer. -/
theorem SubmitEOS_trace (env : Env) (s : Dev) (nAllocLen : Nat)
    (hbuf : env.GetVideoBuffer s.trace 0 = some nAllocLen) :
    ∃ res, (SubmitEOS env s).1.trace = s.trace ++
      [Call.GetVideoBuffer 0 (some nAllocLen), Call.EmptyVideoBuffer (some eosBuffer) res] := by
  unfold SubmitEOS
  simp only [hbuf, Option.map_some', Dev.emit, List.append_assoc, List.singleton_append]
  exact ⟨_, rfl⟩

/-- C7 (amended): for every raw MPEG2 elementary frame (a buffer not starting
with `0x47` that sniffs as MPEG2) that fits into one decoder buffer, with MPEG2
supported, the allocation of the PES copy succeeding and the decoder handing
out and accepting every buffer, `Clear()` followed by `StillPicture` on that
frame returns and submits exactly four buffers, each of them the whole frame
flagged end of frame, followed by exactly one end of stream buffer. -/
theorem C7_StillPicture_raw_frame (env : Env) (fuel : Nat) (s : Dev) (Data : List Nat)
    (Length : Int)
    (h47 : byteAt Data 0 ≠ 0x47)
    (hcodec : ParseVideoCodec Data Length = eCodec.eMPEG2)
    (hsup : env.IsVideoCodecSupported eCodec.eMPEG2 = true)
    (hmalloc : ∀ t size, env.Malloc t size = true)
    (hacc : ∀ t b, env.EmptyVideoBuffer t b = true)
    (hbuf : ∀ t pts, ∃ nAllocLen, env.GetVideoBuffer t pts = some nAllocLen ∧
      Length ≤ nAllocLen)
    (hfuel : 0 < fuel) :
    (StillPicture env fuel (Clear s) Data Length).2 = true ∧
    ∃ l : List Call,
      (StillPicture env fuel (Clear s) Data Length).1.trace = (Clear s).trace ++ l ∧
      submissions l =
        [some (frameBuffer Data Length), some (frameBuffer Data Length),
          some (frameBuffer Data Length), some (frameBuffer Data Length), some eosBuffer] := by
  obtain ⟨f, rfl⟩ : ∃ f, fuel = f + 1 := ⟨fuel - 1, by omega⟩
  have hcodec' : ParseVideoCodec (Data.take Length.toNat) Length = eCodec.eMPEG2 := by
    rw [ParseVideoCodec_take, hcodec]
  have hne : ParseVideoCodec Data Length ≠ eCodec.eInvalid := by rw [hcodec]; decide
  have hlen : Length + ((PesVideoHeader.length : Nat) : Int) = Length + 14 := rfl
  generalize Clear s = s0
  unfold StillPicture
  rw [if_neg h47]
  simp only
  rw [if_pos hne, hmalloc, hlen, hcodec]
  simp only [Bool.not_true, Bool.false_eq_true, if_false]
  unfold stillPictureShow
  simp only [if_true]
  obtain ⟨hr, l1, hl1, hs1⟩ := stillPictureRepeat_raw_frame env f (Data.take Length.toNat) Length
    hcodec' hsup hacc hbuf 4
    ({ (s0.emit (Call.Malloc (Length + 14) true)) with
        m_playbackSpeed := ePlaybackSpeed.eNormal, m_direction := eDirection.eForward }.emit
      Call.StopClock)
  rw [hr]
  simp only [if_true]
  obtain ⟨nAllocLen, hb, -⟩ := hbuf (stillPictureRepeat env (f + 1) 4
    ({ (s0.emit (Call.Malloc (Length + 14) true)) with
        m_playbackSpeed := ePlaybackSpeed.eNormal, m_direction := eDirection.eForward }.emit
      Call.StopClock) (PesVideoHeader ++ Data.take Length.toNat) (Length + 14)).1.trace 0
  obtain ⟨res, he⟩ := SubmitEOS_trace env _ nAllocLen hb
  refine ⟨trivial, [Call.Malloc (Length + 14) true, Call.StopClock] ++ l1 ++
    [Call.GetVideoBuffer 0 (some nAllocLen), Call.EmptyVideoBuffer (some eosBuffer) res], ?_, ?_⟩
  · rw [he, hl1]
    simp [Dev.emit]
  · unfold submissions at hs1 ⊢
    rw [List.filterMap_append, List.filterMap_append, hs1, frameBuffer_take]
    rfl

/-- C7 witness: the frame of six bytes on a decoder with buffers of 64
bytes. -/
theorem C7_StillPicture_raw_frame_witness :
    byteAt mpeg2Payload 0 ≠ 0x47 ∧
    ParseVideoCodec mpeg2Payload 6 = eCodec.eMPEG2 ∧
    (sampleEnv 64 0 false).IsVideoCodecSupported eCodec.eMPEG2 = true ∧
    (∀ (t : List Call) (pts : Int), ∃ nAllocLen,
      (sampleEnv 64 0 false).GetVideoBuffer t pts = some nAllocLen ∧ (6 : Int) ≤ nAllocLen) ∧
    (StillPicture (sampleEnv 64 0 false) 8 (Clear (freshDev (sampleEnv 64 0 false)))
      mpeg2Payload 6).2 = true ∧
    ∃ l : List Call,
      (StillPicture (sampleEnv 64 0 false) 8 (Clear (freshDev (sampleEnv 64 0 false)))
        mpeg2Payload 6).1.trace = (Clear (freshDev (sampleEnv 64 0 false))).trace ++ l ∧
      submissions l =
        [some (frameBuffer mpeg2Payload 6), some (frameBuffer mpeg2Payload 6),
          some (frameBuffer mpeg2Payload 6), some (frameBuffer mpeg2Payload 6),
          some eosBuffer] :=
  ⟨by decide, by decide, rfl, fun _ _ => ⟨64, rfl, by decide⟩,
    C7_StillPicture_raw_frame (sampleEnv 64 0 false) 8 (freshDev (sampleEnv 64 0 false))
      mpeg2Payload 6 (by decide) (by decide) rfl (fun _ _ => rfl) (fun _ _ => rfl)
      (fun _ _ => ⟨64, rfl, by decide⟩) (by decide)⟩

/-! ## Theorems: the clock protocol -/

/-- C8 (as stated, refuted): on a fresh device, an MPEG2 video packet followed
by an H264 video packet (a codec change while video is present) starts the
clock twice without a `StopClock` call between the two; and a buffer stall on a
device without streams followed by the first audio packet starts the clock
twice without a `StopClock` or `StopVideo` call between the two. -/
theorem C8_counterexample :
    ¬ noDoubleStart (run (sampleEnv 64 0 false) (freshDev (sampleEnv 64 0 false))
      [Op.PlayVideo 8 (videoPes 100 mpeg2Payload) 20 false,
        Op.PlayVideo 8 (videoPes 200 h264Payload) 20 false]).trace ∧
    ¬ noDoubleStartV (run (sampleEnv 64 0 false) (freshDev (sampleEnv 64 0 false))
      [Op.HandleBufferStall, Op.PlayAudio (audioPes 100 [1, 2, 3]) 17 0xc0]).trace := by
  unfold noDoubleStart noDoubleStartV
  decide

theorem clockCheck_snoc (videoStops : Bool) (t : List Call) (c : Call) :
    clockCheck videoStops (t ++ [c]) = clockStep videoStops (clockCheck videoStops t) c := by
  simp [clockCheck, List.foldl_append]

theorem clockStep_neutral (st : Option Bool) (c : Call) (h : c.isClockNeutral = true) :
    clockStep true st c = st := by
  cases st <;> cases c <;> first | rfl | simp [Call.isClockNeutral] at h

theorem clockInv_of_stopped {t : List Call} (h : clockCheck true t = some false)
    (hasAudio hasVideo : Bool) : clockInv t hasAudio hasVideo :=
  ⟨false, h, by simp⟩

theorem clockInv_snoc_neutral {t : List Call} {hasAudio hasVideo : Bool} {c : Call}
    (h : clockInv t hasAudio hasVideo) (hc : c.isClockNeutral = true) :
    clockInv (t ++ [c]) hasAudio hasVideo := by
  obtain ⟨st, h1, h2⟩ := h
  exact ⟨st, by rw [clockCheck_snoc, h1, clockStep_neutral _ _ hc], h2⟩

theorem clockInv_append_neutral {t : List Call} {hasAudio hasVideo : Bool} (l : List Call)
    (h : clockInv t hasAudio hasVideo) (hl : ∀ c ∈ l, c.isClockNeutral = true) :
    clockInv (t ++ l) hasAudio hasVideo := by
  induction l generalizing t with
  | nil => simpa using h
  | cons c l ih =>
    have := ih (clockInv_snoc_neutral h (hl c (by simp))) (fun d hd => hl d (by simp [hd]))
    simpa using this

theorem clockStopped_snoc_stopClock {t : List Call} (h : clockCheck true t ≠ none) :
    clockCheck true (t ++ [Call.StopClock]) = some false := by
  rw [clockCheck_snoc]
  cases hc : clockCheck true t with
  | none => exact absurd hc h
  | some st => rfl

theorem clockStopped_snoc_stopVideo {t : List Call} (h : clockCheck true t ≠ none) :
    clockCheck true (t ++ [Call.StopVideo]) = some false := by
  rw [clockCheck_snoc]
  cases hc : clockCheck true t with
  | none => exact absurd hc h
  | some st => rfl

theorem clockStopped_snoc_neutral {t : List Call} {c : Call}
    (h : clockCheck true t = some false) (hc : c.isClockNeutral = true) :
    clockCheck true (t ++ [c]) = some false := by
  rw [clockCheck_snoc, h, clockStep_neutral _ _ hc]

theorem clockInv_ne_none {t : List Call} {hasAudio hasVideo : Bool}
    (h : clockInv t hasAudio hasVideo) : clockCheck true t ≠ none := by
  obtain ⟨st, h1, -⟩ := h
  rw [h1]
  simp

/-- Without a stream the clock is not started. -/
theorem clockInv_no_stream {t : List Call} (h : clockInv t false false) :
    clockCheck true t = some false := by
  obtain ⟨st, h1, h2⟩ := h
  cases st with
  | false => exact h1
  | true => simpa using h2 rfl

theorem clockInv_snoc_startClock {t : List Call} (h : clockCheck true t = some false)
    (a b hasAudio hasVideo : Bool) (hf : hasAudio = true ∨ hasVideo = true) :
    clockInv (t ++ [Call.StartClock a b]) hasAudio hasVideo :=
  ⟨true, by rw [clockCheck_snoc, h]; rfl, fun _ => hf⟩

theorem clockInv_flags {t : List Call} {hasAudio hasVideo hasAudio' hasVideo' : Bool}
    (h : clockInv t hasAudio hasVideo)
    (hf : hasAudio = true ∨ hasVideo = true → hasAudio' = true ∨ hasVideo' = true) :
    clockInv t hasAudio' hasVideo' := by
  obtain ⟨st, h1, h2⟩ := h
  exact ⟨st, h1, fun hs => hf (h2 hs)⟩

/-- Calls that are neutral for the clock protocol, made without a change of
the stream flags, keep the invariant. -/
theorem clockInv_of_emitsOnly {s t : Dev} {P : Call → Prop} (he : emitsOnly P s t)
    (hP : ∀ c, P c → c.isClockNeutral = true)
    (ha : t.m_hasAudio = s.m_hasAudio) (hv : t.m_hasVideo = s.m_hasVideo)
    (h : s.clockInv) : t.clockInv := by
  obtain ⟨l, hl, hlP⟩ := he
  unfold Dev.clockInv at h ⊢
  rw [hl, ha, hv]
  exact clockInv_append_neutral l h (fun c hc => hP c (hlP c hc))

theorem isClockNeutral_of_isLatency (c : Call) (h : c.isLatency = true) :
    c.isClockNeutral = true := by
  cases c <;> first | rfl | simp [Call.isLatency, Call.isQuery] at h

theorem isClockNeutral_of_isData (c : Call) (h : c.isData = true) :
    c.isClockNeutral = true := by
  cases c <;> first | rfl | simp [Call.isData] at h

/-- `FlushStreams` stops the clock. -/
theorem FlushStreams_stopped (s : Dev) (flushVideoRender : Bool)
    (h : clockCheck true s.trace ≠ none) :
    clockCheck true (FlushStreams s flushVideoRender).trace = some false ∧
    (FlushStreams s flushVideoRender).playback = s.playback := by
  have h1 := clockStopped_snoc_neutral (clockStopped_snoc_stopClock h)
    (c := Call.SetClockScale 0) rfl
  unfold FlushStreams
  simp only [Dev.emit]
  split_ifs <;> refine ⟨?_, ?_⟩ <;> (first | rfl | skip) <;>
    repeat (first | exact h1 | refine clockStopped_snoc_neutral ?_ rfl)

theorem SetPlayMode_clockInv (s : Dev) (PlayMode : ePlayMode) (h : s.clockInv) :
    (SetPlayMode s PlayMode).clockInv := by
  cases PlayMode
  case pmNone =>
    obtain ⟨h1, -⟩ := FlushStreams_stopped s true (clockInv_ne_none h)
    unfold SetPlayMode Dev.clockInv
    simp only [Dev.emit]
    split_ifs
    · exact clockInv_of_stopped (clockStopped_snoc_stopVideo (by rw [h1]; simp)) _ _
    · exact clockInv_of_stopped h1 _ _
  all_goals exact h

theorem Clear_clockInv (s : Dev) (h : s.clockInv) : (Clear s).clockInv := by
  obtain ⟨h1, -⟩ := FlushStreams_stopped s false (clockInv_ne_none h)
  unfold Clear Dev.clockInv
  simp only [Dev.emit]
  exact clockInv_of_stopped (clockStopped_snoc_neutral h1 (by rfl)) _ _

theorem HandleBufferStall_clockInv (s : Dev) (h : s.clockInv)
    (hf : s.m_hasAudio = true ∨ s.m_hasVideo = true) : (HandleBufferStall s).clockInv := by
  obtain ⟨h1, h2⟩ := FlushStreams_stopped s false (clockInv_ne_none h)
  have ha : (FlushStreams s false).m_hasAudio = s.m_hasAudio := congrArg Playback.hasAudio h2
  have hv : (FlushStreams s false).m_hasVideo = s.m_hasVideo := congrArg Playback.hasVideo h2
  unfold HandleBufferStall Dev.clockInv
  simp only [Dev.emit]
  exact clockInv_snoc_startClock (clockStopped_snoc_neutral h1 (by rfl)) _ _ _ _
    (by rw [ha, hv]; exact hf)

theorem HandleEndOfStream_clockInv (s : Dev) (h : s.clockInv)
    (hf : s.m_hasAudio = true ∨ s.m_hasVideo = true) : (HandleEndOfStream s).clockInv :=
  HandleBufferStall_clockInv s h hf

theorem Play_clockInv (s : Dev) (h : s.clockInv) : (Play s).clockInv := by
  unfold Play Dev.clockInv
  simp only [Dev.emit]
  exact clockInv_snoc_neutral (clockInv_snoc_neutral h (by rfl)) (by rfl)

theorem Freeze_clockInv (s : Dev) (h : s.clockInv) : (Freeze s).clockInv := by
  unfold Freeze Dev.clockInv
  simp only [Dev.emit]
  exact clockInv_snoc_neutral (clockInv_snoc_neutral h (by rfl)) (by rfl)

theorem ApplyTrickSpeed_clockInv (s : Dev) (trickSpeed : Int) (forward : Bool)
    (h : s.clockInv) : (ApplyTrickSpeed s trickSpeed forward).clockInv :=
  clockInv_of_emitsOnly (ApplyTrickSpeed_emits s trickSpeed forward)
    isClockNeutral_of_isLatency rfl rfl h

theorem TrickSpeed_clockInv (s : Dev) (Speed : Int) (h : s.clockInv) :
    (TrickSpeed s Speed).clockInv := by
  unfold TrickSpeed
  simp only
  split_ifs
  · exact h
  · exact ApplyTrickSpeed_clockInv _ _ _ h

theorem PtsTracker_flags (s : Dev) (ptsDiff : Int) :
    (PtsTracker s ptsDiff).m_hasAudio = s.m_hasAudio ∧
    (PtsTracker s ptsDiff).m_hasVideo = s.m_hasVideo := by
  unfold PtsTracker
  simp only
  split_ifs <;> exact ⟨rfl, rfl⟩

theorem PtsTracker_clockInv (s : Dev) (ptsDiff : Int) (h : s.clockInv) :
    (PtsTracker s ptsDiff).clockInv :=
  clockInv_of_emitsOnly (PtsTracker_emits s ptsDiff) isClockNeutral_of_isLatency
    (PtsTracker_flags s ptsDiff).1 (PtsTracker_flags s ptsDiff).2 h

theorem playAudioStart_clockInv (env : Env) (s : Dev) (Id : Nat) (h : s.clockInv) :
    (playAudioStart env s Id).clockInv ∧ (playAudioStart env s Id).m_hasAudio = true := by
  by_cases ha : s.m_hasAudio = true
  · have : playAudioStart env s Id = s := by
      unfold playAudioStart
      simp [ha]
    rw [this]
    exact ⟨h, ha⟩
  · have ha' : s.m_hasAudio = false := by simpa using ha
    unfold Dev.clockInv at h
    rw [ha'] at h
    by_cases hv : s.m_hasVideo = true
    · rw [hv] at h
      unfold playAudioStart Dev.clockInv
      simp only [ha', hv, Dev.emit, ResetLatency, Bool.not_false, Bool.not_true, if_true,
        Bool.false_eq_true, if_false]
      have h2 : clockInv ((s.trace ++ [Call.SetClockReference eClockReference.eClockRefAudio]) ++
          [Call.Transferring (env.Transferring
            (s.trace ++ [Call.SetClockReference eClockReference.eClockRefAudio]))])
          true true :=
        clockInv_snoc_neutral (clockInv_snoc_neutral (clockInv_flags h (by simp)) (by rfl))
          (by rfl)
      split_ifs <;> exact ⟨h2, rfl⟩
    · have hv' : s.m_hasVideo = false := by simpa using hv
      rw [hv'] at h
      have hs := clockInv_no_stream h
      unfold playAudioStart Dev.clockInv
      simp only [ha', hv', Dev.emit, ResetLatency, Bool.not_false, if_true]
      have h2 : clockInv ((((s.trace ++ [Call.SetClockReference eClockReference.eClockRefAudio])
          ++ [Call.SetClockScale (s_playbackSpeeds s.m_direction s.m_playbackSpeed)])
          ++ [Call.StartClock false true]) ++
          [Call.Transferring (env.Transferring
            (((s.trace ++ [Call.SetClockReference eClockReference.eClockRefAudio])
          ++ [Call.SetClockScale (s_playbackSpeeds s.m_direction s.m_playbackSpeed)])
          ++ [Call.StartClock false true]))]) true false :=
        clockInv_snoc_neutral (clockInv_snoc_startClock
          (clockStopped_snoc_neutral (clockStopped_snoc_neutral hs (by rfl)) (by rfl))
          _ _ _ _ (Or.inl rfl)) (by rfl)
      split_ifs <;> exact ⟨h2, rfl⟩

theorem playAudioTrack_clockInv (s : Dev) (pts : Int) (h : s.clockInv) :
    (playAudioTrack s pts).clockInv ∧ (playAudioTrack s pts).m_hasAudio = s.m_hasAudio := by
  unfold playAudioTrack
  simp only
  split_ifs
  · exact ⟨PtsTracker_clockInv s _ h, (PtsTracker_flags s _).1⟩
  · exact ⟨h, rfl⟩
  · exact ⟨h, rfl⟩

theorem playAudioLatency_emits (env : Env) (s : Dev) (pts : Int) (Id : Nat) :
    emitsOnly (fun c => c.isLatency = true) s (playAudioLatency env s pts Id) := by
  have e1 := emitsOnly_emit (fun c => c.isLatency = true) s
    (Call.Transferring (env.Transferring s.trace)) rfl
  unfold playAudioLatency
  simp only
  split_ifs
  · exact emitsOnly_trans e1 (emitsOnly_trans (emitsOnly_of_trace_eq _ rfl)
      (UpdateLatency_emits env _ pts))
  · exact emitsOnly_trans e1 (UpdateLatency_emits env _ pts)
  · exact e1

theorem PlayAudio_clockInv (env : Env) (s : Dev) (Data : List Nat) (Length : Int) (Id : Nat)
    (h : s.clockInv) : (PlayAudio env s Data Length Id).1.clockInv := by
  unfold PlayAudio
  simp only
  obtain ⟨h1, -⟩ := playAudioStart_clockInv env s Id h
  obtain ⟨h2, -⟩ := playAudioTrack_clockInv (playAudioStart env s Id) (packetPts Data) h1
  have hp3 := playAudioLatency_playback env
    (playAudioTrack (playAudioStart env s Id) (packetPts Data)) (packetPts Data) Id
  have h3 := clockInv_of_emitsOnly (playAudioLatency_emits env
    (playAudioTrack (playAudioStart env s Id) (packetPts Data)) (packetPts Data) Id)
    isClockNeutral_of_isLatency (congrArg Playback.hasAudio hp3)
    (congrArg Playback.hasVideo hp3) h2
  have hp4 := playAudioWrite_playback env (playAudioLatency env
    (playAudioTrack (playAudioStart env s Id) (packetPts Data)) (packetPts Data) Id)
    Data Length Id (packetPts Data)
  exact clockInv_of_emitsOnly (playAudioWrite_emits env _ Data Length Id (packetPts Data))
    isClockNeutral_of_isData (congrArg Playback.hasAudio hp4)
    (congrArg Playback.hasVideo hp4) h3

/-- The codec change block asks for a restart only when it leaves the device
without video. -/
theorem playVideoCodecChange_clockInv_restart (env : Env) (s : Dev) (codec : eCodec) :
    (playVideoCodecChange env s codec).2 = true →
      (playVideoCodecChange env s codec).1.m_hasVideo = false := by
  by_cases hc : codec = eCodec.eInvalid ∨ codec = s.m_videoCodec
  · rw [playVideoCodecChange_same env s codec hc]
    intro hr
    cases hv : s.m_hasVideo
    · rfl
    · rw [hv] at hr
      simp at hr
  · have h1 : codec ≠ eCodec.eInvalid := fun e => hc (Or.inl e)
    have h2 : codec ≠ s.m_videoCodec := fun e => hc (Or.inr e)
    obtain ⟨hp, -⟩ := playVideoCodecChange_change env s codec h1 h2
    exact fun _ => congrArg Playback.hasVideo hp

theorem playVideoCodecChange_clockInv (env : Env) (s : Dev) (codec : eCodec)
    (h : s.clockInv) :
    (playVideoCodecChange env s codec).1.clockInv ∧
    ((playVideoCodecChange env s codec).2 = true →
      (playVideoCodecChange env s codec).1.m_hasVideo = false) := by
  by_cases hc : codec = eCodec.eInvalid ∨ codec = s.m_videoCodec
  · rw [playVideoCodecChange_same env s codec hc]
    refine ⟨h, ?_⟩
    intro hr
    cases hv : s.m_hasVideo
    · rfl
    · rw [hv] at hr
      simp at hr
  · have h1 : codec ≠ eCodec.eInvalid := fun e => hc (Or.inl e)
    have h2 : codec ≠ s.m_videoCodec := fun e => hc (Or.inr e)
    obtain ⟨hp, -⟩ := playVideoCodecChange_change env s codec h1 h2
    refine ⟨?_, fun _ => congrArg Playback.hasVideo hp⟩
    unfold playVideoCodecChange Dev.clockInv
    simp only
    rw [if_pos ⟨h1, h2⟩]
    unfold Dev.clockInv at h
    by_cases hv : s.m_hasVideo = true
    · have hst := clockStopped_snoc_stopVideo (clockInv_ne_none h)
      simp only [hv, if_true, Dev.emit]
      split_ifs
      · exact clockInv_of_stopped (clockStopped_snoc_neutral hst (by rfl)) _ _
      · exact clockInv_of_stopped (clockStopped_snoc_neutral hst (by rfl)) _ _
    · have hv' : s.m_hasVideo = false := by simpa using hv
      rw [hv'] at h
      simp only [hv', Bool.false_eq_true, if_false, Dev.emit]
      split_ifs
      · exact clockInv_snoc_neutral h (by rfl)
      · exact clockInv_snoc_neutral h (by rfl)

theorem playVideoRestart_clockInv (env : Env) (s : Dev) (videoRestart : Bool)
    (h : s.clockInv) (hr : videoRestart = true → s.m_hasVideo = false) :
    (playVideoRestart env s videoRestart).clockInv := by
  cases videoRestart with
  | false => exact h
  | true =>
    have hv := hr rfl
    unfold Dev.clockInv at h
    rw [hv] at h
    unfold playVideoRestart Dev.clockInv
    by_cases ha : s.m_hasAudio = true
    · rw [ha] at h
      simp only [ha, Dev.emit, ResetLatency, if_true, Bool.not_true, Bool.false_eq_true, if_false]
      have h2 : clockInv (s.trace ++ [Call.Transferring (env.Transferring s.trace)])
          true true := clockInv_snoc_neutral (clockInv_flags h (by simp)) (by rfl)
      split_ifs <;> exact h2
    · have ha' : s.m_hasAudio = false := by simpa using ha
      rw [ha'] at h
      have hs := clockInv_no_stream h
      simp only [ha', Dev.emit, ResetLatency, if_true, Bool.not_false]
      have h2 : clockInv ((((s.trace ++ [Call.SetClockReference eClockReference.eClockRefVideo])
          ++ [Call.SetClockScale (s_playbackSpeeds s.m_direction s.m_playbackSpeed)])
          ++ [Call.StartClock true false]) ++
          [Call.Transferring (env.Transferring
            (((s.trace ++ [Call.SetClockReference eClockReference.eClockRefVideo])
          ++ [Call.SetClockScale (s_playbackSpeeds s.m_direction s.m_playbackSpeed)])
          ++ [Call.StartClock true false]))]) false true :=
        clockInv_snoc_neutral (clockInv_snoc_startClock
          (clockStopped_snoc_neutral (clockStopped_snoc_neutral hs (by rfl)) (by rfl))
          _ _ _ _ (Or.inr rfl)) (by rfl)
      split_ifs <;> exact h2

theorem playVideoTrack_flags (env : Env) (s : Dev) (pts : Int) :
    (playVideoTrack env s pts).m_hasAudio = s.m_hasAudio ∧
    (playVideoTrack env s pts).m_hasVideo = s.m_hasVideo := by
  have hu : ∀ t : Dev, (UpdateLatency env t pts).m_hasAudio = t.m_hasAudio ∧
      (UpdateLatency env t pts).m_hasVideo = t.m_hasVideo := fun t =>
    ⟨congrArg Playback.hasAudio (UpdateLatency_playback env t pts),
      congrArg Playback.hasVideo (UpdateLatency_playback env t pts)⟩
  obtain ⟨p1, p2⟩ := PtsTracker_flags s (PtsDiff s.m_videoPts pts)
  unfold playVideoTrack
  simp only
  split_ifs
  · exact ⟨(hu _).1.trans p1, (hu _).2.trans p2⟩
  · exact ⟨p1, p2⟩
  · exact ⟨p1, p2⟩
  · exact ⟨(hu _).1, (hu _).2⟩
  · exact ⟨rfl, rfl⟩
  · exact ⟨rfl, rfl⟩

theorem playVideoHead_clockInv (env : Env) (s : Dev) (Data : List Nat) (Length : Int)
    (h : s.clockInv) : (playVideoHead env s Data Length).clockInv := by
  obtain ⟨h1, h2⟩ := playVideoCodecChange_clockInv env s (playVideoCodec Data Length) h
  exact playVideoRestart_clockInv env _ _ h1 h2

theorem PlayVideo_clockInv (env : Env) (fuel : Nat) (s : Dev) (Data : List Nat) (Length : Int)
    (EndOfFrame : Bool) (h : s.clockInv) :
    (PlayVideo env fuel s Data Length EndOfFrame).1.clockInv := by
  have h1 := playVideoHead_clockInv env s Data Length h
  rw [PlayVideo_eq]
  split_ifs
  · have h2 := clockInv_of_emitsOnly (playVideoTrack_emits env
      (playVideoHead env s Data Length) (packetPts Data)) isClockNeutral_of_isLatency
      (playVideoTrack_flags env _ _).1 (playVideoTrack_flags env _ _).2 h1
    have hp := playVideoSubmit_playback env fuel
      (playVideoTrack env (playVideoHead env s Data Length) (packetPts Data))
      (Data.drop (PesPayloadOffset Data)) (Length - PesPayloadOffset Data)
      (packetPts Data) EndOfFrame Length
    exact clockInv_of_emitsOnly (playVideoSubmit_emits env fuel _ _ _ _ _ _)
      isClockNeutral_of_isData (congrArg Playback.hasAudio hp)
      (congrArg Playback.hasVideo hp) h2
  · exact h1

theorem playVideoPacket_clockInv (env : Env) (fuel : Nat) (s : Dev) (data : List Nat)
    (length : Int) (h : s.clockInv) : (playVideoPacket env fuel s data length).1.clockInv := by
  unfold playVideoPacket
  split_ifs
  · exact PlayVideo_clockInv env fuel s data _ _ h
  · exact h

theorem stillPicturePackets_clockInv (env : Env) (fuel : Nat) :
    ∀ (n : Nat) (s : Dev) (data : List Nat) (length : Int), s.clockInv →
      (stillPicturePackets env fuel n s data length).1.clockInv := by
  intro n
  induction n with
  | zero => intro s data length h; exact h
  | succ n ih =>
    intro s data length h
    have hp := playVideoPacket_clockInv env fuel s data length h
    rw [stillPicturePackets]
    by_cases h1 : PesLongEnough length = true
    · rw [if_pos h1]
      split
      · exact hp
      · exact ih _ _ _ hp
    · rw [if_neg h1]
      exact h

theorem stillPictureRepeat_clockInv (env : Env) (fuel : Nat) :
    ∀ (k : Nat) (s : Dev) (data : List Nat) (length : Int), s.clockInv →
      (stillPictureRepeat env fuel k s data length).1.clockInv := by
  intro k
  induction k with
  | zero => intro s data length h; exact h
  | succ k ih =>
    intro s data length h
    rw [stillPictureRepeat]
    have hp := stillPicturePackets_clockInv env fuel fuel s data length h
    by_cases h1 : (stillPicturePackets env fuel fuel s data length).2 = true
    · simp only [h1, if_true]
      exact ih _ _ _ hp
    · simp only [h1, Bool.false_eq_true, if_false]
      exact hp

theorem SubmitEOS_clockInv (env : Env) (s : Dev) (h : s.clockInv) :
    (SubmitEOS env s).1.clockInv := by
  unfold SubmitEOS Dev.clockInv
  simp only [Dev.emit]
  exact clockInv_snoc_neutral (clockInv_snoc_neutral h (by rfl)) (by rfl)

theorem stillPictureShow_clockInv (env : Env) (fuel : Nat) (s : Dev) (codec : eCodec)
    (data : List Nat) (length : Int) (h : s.clockInv) :
    (stillPictureShow env fuel s codec data length).1.clockInv := by
  have h1 : ∀ t : Dev, t.trace = s.trace → (t.emit Call.StopClock).clockInv := fun t ht =>
    clockInv_of_stopped (by
      show clockCheck true (t.trace ++ [Call.StopClock]) = some false
      rw [ht]
      exact clockStopped_snoc_stopClock (clockInv_ne_none h)) _ _
  unfold stillPictureShow
  simp only
  have h2 := stillPictureRepeat_clockInv env fuel (if codec = eCodec.eMPEG2 then 4 else 10)
    ({ s with m_playbackSpeed := ePlaybackSpeed.eNormal,
              m_direction := eDirection.eForward }.emit Call.StopClock) data length (h1 _ rfl)
  by_cases hr : (stillPictureRepeat env fuel (if codec = eCodec.eMPEG2 then 4 else 10)
      ({ s with m_playbackSpeed := ePlaybackSpeed.eNormal,
                m_direction := eDirection.eForward }.emit Call.StopClock) data length).2 = true
  · rw [if_pos hr]
    exact SubmitEOS_clockInv env _ h2
  · rw [if_neg hr]
    exact h2

theorem StillPicture_clockInv (env : Env) (fuel : Nat) (s : Dev) (Data : List Nat)
    (Length : Int) (h : s.clockInv) : (StillPicture env fuel s Data Length).1.clockInv := by
  have hm : ∀ c : Call, c.isClockNeutral = true → (s.emit c).clockInv := fun c hc =>
    clockInv_snoc_neutral h hc
  unfold StillPicture
  simp only
  split_ifs
  · exact hm _ rfl
  · exact hm _ rfl
  · exact stillPictureShow_clockInv env fuel _ _ _ _ (hm _ rfl)
  · exact h
  · exact stillPictureShow_clockInv env fuel _ _ _ _ h

/-- Every operation keeps the invariant of the clock protocol. -/
theorem step_clockInv (env : Env) (s : Dev) (op : Op) (h : s.clockInv) (hr : op.ready s) :
    (step env s op).clockInv := by
  cases op with
  | SetPlayMode PlayMode => exact SetPlayMode_clockInv s PlayMode h
  | PlayAudio Data Length Id => exact PlayAudio_clockInv env s Data Length Id h
  | PlayVideo fuel Data Length EndOfFrame =>
    exact PlayVideo_clockInv env fuel s Data Length EndOfFrame h
  | Clear => exact Clear_clockInv s h
  | StillPicture fuel Data Length => exact StillPicture_clockInv env fuel s Data Length h
  | HandleBufferStall => exact HandleBufferStall_clockInv s h hr
  | HandleEndOfStream => exact HandleEndOfStream_clockInv s h hr
  | Play => exact Play_clockInv s h
  | Freeze => exact Freeze_clockInv s h
  | TrickSpeed Speed => exact TrickSpeed_clockInv s Speed h
  | TrickSpeed_20103 Speed Forward => exact ApplyTrickSpeed_clockInv s Speed Forward h

theorem run_clockInv (env : Env) (ops : List Op) :
    ∀ s : Dev, s.clockInv → runReady env s ops → (run env s ops).clockInv := by
  induction ops with
  | nil => intro s h _; exact h
  | cons op ops ih =>
    intro s h hr
    exact ih (step env s op) (step_clockInv env s op h hr.1) hr.2

/-- C8 (amended): in every sequence of device operations (`SetPlayMode`,
`PlayAudio`, `PlayVideo`, `Clear`, `StillPicture`, `Play`, `Freeze`,
`TrickSpeed`, and the buffer stall and end of stream handlers run while a
stream is present) on a freshly constructed device, the device never issues
two `StartClock` calls without a `StopClock` call or a `StopVideo` call (the
stop of the decoder on a codec change) between them. -/
theorem C8_no_double_start (env : Env) (garbage : Nat → Int) (ops : List Op)
    (hr : runReady env (cOmxDevice env garbage) ops) :
    noDoubleStartV (run env (cOmxDevice env garbage) ops).trace :=
  clockInv_ne_none (run_clockInv env ops (cOmxDevice env garbage)
    ⟨false, rfl, by simp⟩ hr)

/-- C8 witness: video, a codec change, a buffer stall, audio, `Clear()`, a
still picture and the end of stream event after it. -/
theorem C8_no_double_start_witness :
    runReady (sampleEnv 64 0 false) (cOmxDevice (sampleEnv 64 0 false) (fun _ => 0))
      [Op.SetPlayMode ePlayMode.pmAudioVideo,
        Op.PlayVideo 8 (videoPes 100 mpeg2Payload) 20 false,
        Op.PlayVideo 8 (videoPes 200 h264Payload) 20 false,
        Op.HandleBufferStall,
        Op.PlayAudio (audioPes 100 [1, 2, 3]) 17 0xc0,
        Op.Clear,
        Op.StillPicture 8 mpeg2Payload 6,
        Op.HandleEndOfStream] ∧
    noDoubleStartV (run (sampleEnv 64 0 false) (cOmxDevice (sampleEnv 64 0 false) (fun _ => 0))
      [Op.SetPlayMode ePlayMode.pmAudioVideo,
        Op.PlayVideo 8 (videoPes 100 mpeg2Payload) 20 false,
        Op.PlayVideo 8 (videoPes 200 h264Payload) 20 false,
        Op.HandleBufferStall,
        Op.PlayAudio (audioPes 100 [1, 2, 3]) 17 0xc0,
        Op.Clear,
        Op.StillPicture 8 mpeg2Payload 6,
        Op.HandleEndOfStream]).trace :=
  ⟨by decide, C8_no_double_start (sampleEnv 64 0 false) (fun _ => 0) _ (by decide)⟩

/-! ## Theorems: the clock reference -/

/-- C9 (as stated, refuted): on a fresh device, a video packet followed by an
audio packet (no `Clear`, no `SetPlayMode(pmNone)`, no codec change) makes two
`SetClockReference` calls: audio arrives second and changes the clock
reference from Video to Audio. -/
theorem C9_counterexample :
    (freshDev (sampleEnv 64 0 false)).m_hasAudio = false ∧
    (freshDev (sampleEnv 64 0 false)).m_hasVideo = false ∧
    Call.StopVideo ∉ (run (sampleEnv 64 0 false) (freshDev (sampleEnv 64 0 false))
      [Op.PlayVideo 8 (videoPes 100 mpeg2Payload) 20 false,
        Op.PlayAudio (audioPes 100 [1, 2, 3]) 17 0xc0]).trace ∧
    clockRefs (run (sampleEnv 64 0 false) (freshDev (sampleEnv 64 0 false))
      [Op.PlayVideo 8 (videoPes 100 mpeg2Payload) 20 false,
        Op.PlayAudio (audioPes 100 [1, 2, 3]) 17 0xc0]).trace =
      [eClockReference.eClockRefVideo, eClockReference.eClockRefAudio] := by
  decide

theorem clockRefs_snoc (t : List Call) (c : Call) :
    clockRefs (t ++ [c]) = clockRefs t ++ (c.clockRef).toList := by
  unfold clockRefs
  rw [List.filterMap_append]
  cases h : c.clockRef <;> simp [List.filterMap, h]

theorem clockRefInv_snoc_neutral {t : List Call} {hasAudio hasVideo : Bool} {c : Call}
    (h : clockRefInv t hasAudio hasVideo) (hc : c.clockRef = none) :
    clockRefInv (t ++ [c]) hasAudio hasVideo := by
  rcases h with h | h
  · exact Or.inl (List.mem_append_left _ h)
  · refine Or.inr ?_
    rw [clockRefs_snoc, hc]
    simpa using h

theorem clockRefInv_append_neutral {t : List Call} {hasAudio hasVideo : Bool} (l : List Call)
    (h : clockRefInv t hasAudio hasVideo) (hl : ∀ c ∈ l, c.clockRef = none) :
    clockRefInv (t ++ l) hasAudio hasVideo := by
  induction l generalizing t with
  | nil => simpa using h
  | cons c l ih =>
    have := ih (clockRefInv_snoc_neutral h (hl c (by simp))) (fun d hd => hl d (by simp [hd]))
    simpa using this

theorem clockRefInv_snoc_stopVideo (t : List Call) (hasAudio hasVideo : Bool) :
    clockRefInv (t ++ [Call.StopVideo]) hasAudio hasVideo :=
  Or.inl (by simp)

/-- Audio arrives: `PlayAudio` selects the audio reference, whether video is
present or not. -/
theorem clockRefInv_snoc_audio {t : List Call} {hasVideo : Bool}
    (h : clockRefInv t false hasVideo) :
    clockRefInv (t ++ [Call.SetClockReference eClockReference.eClockRefAudio]) true hasVideo
    := by
  rcases h with h | h
  · exact Or.inl (List.mem_append_left _ h)
  · refine Or.inr ?_
    rw [clockRefs_snoc]
    cases hasVideo
    · have h' : clockRefs t = [] := h
      rw [h']
      rfl
    · have h' : clockRefs t = [eClockReference.eClockRefVideo] := h
      rw [h']
      exact Or.inr rfl

/-- Video arrives first: `PlayVideo` selects the video reference. -/
theorem clockRefInv_snoc_video {t : List Call} (h : clockRefInv t false false) :
    clockRefInv (t ++ [Call.SetClockReference eClockReference.eClockRefVideo]) false true := by
  rcases h with h | h
  · exact Or.inl (List.mem_append_left _ h)
  · refine Or.inr ?_
    rw [clockRefs_snoc]
    have h' : clockRefs t = [] := h
    rw [h']
    rfl

/-- Video arrives second: the reference stays Audio. -/
theorem clockRefInv_video_second {t : List Call} (h : clockRefInv t true false) :
    clockRefInv t true true := by
  rcases h with h | h
  · exact Or.inl h
  · exact Or.inr (Or.inl h)

theorem clockRefInv_of_emitsOnly {s t : Dev} {P : Call → Prop} (he : emitsOnly P s t)
    (hP : ∀ c, P c → c.clockRef = none)
    (ha : t.m_hasAudio = s.m_hasAudio) (hv : t.m_hasVideo = s.m_hasVideo)
    (h : s.clockRefInv) : t.clockRefInv := by
  obtain ⟨l, hl, hlP⟩ := he
  unfold Dev.clockRefInv at h ⊢
  rw [hl, ha, hv]
  exact clockRefInv_append_neutral l h (fun c hc => hP c (hlP c hc))

theorem clockRef_of_isLatency (c : Call) (h : c.isLatency = true) : c.clockRef = none := by
  cases c <;> first | rfl | simp [Call.isLatency, Call.isQuery] at h

theorem playAudioStart_clockRefInv (env : Env) (s : Dev) (Id : Nat) (h : s.clockRefInv) :
    (playAudioStart env s Id).clockRefInv := by
  by_cases ha : s.m_hasAudio = true
  · have : playAudioStart env s Id = s := by
      unfold playAudioStart
      simp [ha]
    rw [this]
    exact h
  · have ha' : s.m_hasAudio = false := by simpa using ha
    unfold Dev.clockRefInv at h
    rw [ha'] at h
    have h1 := clockRefInv_snoc_audio h
    unfold playAudioStart Dev.clockRefInv
    simp only [ha', Dev.emit, ResetLatency, Bool.not_false, if_true]
    split_ifs <;>
      repeat (first | exact h1 | refine clockRefInv_snoc_neutral ?_ rfl)

theorem playAudioTrack_clockRefInv (s : Dev) (pts : Int) (h : s.clockRefInv) :
    (playAudioTrack s pts).clockRefInv := by
  have hp := clockRefInv_of_emitsOnly (PtsTracker_emits s (PtsDiff s.m_audioPts pts))
    clockRef_of_isLatency (PtsTracker_flags s _).1 (PtsTracker_flags s _).2 h
  unfold playAudioTrack
  simp only
  split_ifs
  · exact hp
  · exact h
  · exact h

theorem PlayAudio_clockRefInv (env : Env) (s : Dev) (Data : List Nat) (Length : Int) (Id : Nat)
    (h : s.clockRefInv) : (PlayAudio env s Data Length Id).1.clockRefInv := by
  unfold PlayAudio
  simp only
  have h1 := playAudioStart_clockRefInv env s Id h
  have h2 := playAudioTrack_clockRefInv (playAudioStart env s Id) (packetPts Data) h1
  have hp3 := playAudioLatency_playback env
    (playAudioTrack (playAudioStart env s Id) (packetPts Data)) (packetPts Data) Id
  have h3 := clockRefInv_of_emitsOnly (playAudioLatency_emits env
    (playAudioTrack (playAudioStart env s Id) (packetPts Data)) (packetPts Data) Id)
    clockRef_of_isLatency (congrArg Playback.hasAudio hp3)
    (congrArg Playback.hasVideo hp3) h2
  have hp4 := playAudioWrite_playback env (playAudioLatency env
    (playAudioTrack (playAudioStart env s Id) (packetPts Data)) (packetPts Data) Id)
    Data Length Id (packetPts Data)
  exact clockRefInv_of_emitsOnly (playAudioWrite_emits env _ Data Length Id (packetPts Data))
    clockRef_of_isData (congrArg Playback.hasAudio hp4)
    (congrArg Playback.hasVideo hp4) h3

theorem playVideoCodecChange_clockRefInv (env : Env) (s : Dev) (codec : eCodec)
    (h : s.clockRefInv) : (playVideoCodecChange env s codec).1.clockRefInv := by
  by_cases hc : codec = eCodec.eInvalid ∨ codec = s.m_videoCodec
  · rw [playVideoCodecChange_same env s codec hc]
    exact h
  · have h1 : codec ≠ eCodec.eInvalid := fun e => hc (Or.inl e)
    have h2 : codec ≠ s.m_videoCodec := fun e => hc (Or.inr e)
    unfold playVideoCodecChange Dev.clockRefInv
    simp only
    rw [if_pos ⟨h1, h2⟩]
    unfold Dev.clockRefInv at h
    by_cases hv : s.m_hasVideo = true
    · simp only [hv, if_true, Dev.emit]
      split_ifs <;>
        exact clockRefInv_snoc_neutral (clockRefInv_snoc_stopVideo _ _ _) (by rfl)
    · have hv' : s.m_hasVideo = false := by simpa using hv
      rw [hv'] at h
      simp only [hv', Bool.false_eq_true, if_false, Dev.emit]
      split_ifs <;> exact clockRefInv_snoc_neutral h (by rfl)

theorem playVideoRestart_clockRefInv (env : Env) (s : Dev) (videoRestart : Bool)
    (h : s.clockRefInv) (hr : videoRestart = true → s.m_hasVideo = false) :
    (playVideoRestart env s videoRestart).clockRefInv := by
  cases videoRestart with
  | false => exact h
  | true =>
    have hv := hr rfl
    unfold Dev.clockRefInv at h
    rw [hv] at h
    unfold playVideoRestart Dev.clockRefInv
    by_cases ha : s.m_hasAudio = true
    · rw [ha] at h
      simp only [ha, Dev.emit, ResetLatency, if_true, Bool.not_true, Bool.false_eq_true, if_false]
      have h2 : clockRefInv (s.trace ++ [Call.Transferring (env.Transferring s.trace)])
          true true := clockRefInv_snoc_neutral (clockRefInv_video_second h) (by rfl)
      split_ifs <;> exact h2
    · have ha' : s.m_hasAudio = false := by simpa using ha
      rw [ha'] at h
      have h1 := clockRefInv_snoc_video h
      simp only [ha', Dev.emit, ResetLatency, if_true, Bool.not_false]
      split_ifs <;>
        repeat (first | exact h1 | refine clockRefInv_snoc_neutral ?_ rfl)

theorem PlayVideo_clockRefInv (env : Env) (fuel : Nat) (s : Dev) (Data : List Nat)
    (Length : Int) (EndOfFrame : Bool) (h : s.clockRefInv) :
    (PlayVideo env fuel s Data Length EndOfFrame).1.clockRefInv := by
  have h1 : (playVideoHead env s Data Length).clockRefInv :=
    playVideoRestart_clockRefInv env _ _
      (playVideoCodecChange_clockRefInv env s (playVideoCodec Data Length) h)
      (playVideoCodecChange_clockInv_restart env s (playVideoCodec Data Length))
  rw [PlayVideo_eq]
  split_ifs
  · have h2 := clockRefInv_of_emitsOnly (playVideoTrack_emits env
      (playVideoHead env s Data Length) (packetPts Data)) clockRef_of_isLatency
      (playVideoTrack_flags env _ _).1 (playVideoTrack_flags env _ _).2 h1
    have hp := playVideoSubmit_playback env fuel
      (playVideoTrack env (playVideoHead env s Data Length) (packetPts Data))
      (Data.drop (PesPayloadOffset Data)) (Length - PesPayloadOffset Data)
      (packetPts Data) EndOfFrame Length
    exact clockRefInv_of_emitsOnly (playVideoSubmit_emits env fuel _ _ _ _ _ _)
      clockRef_of_isData (congrArg Playback.hasAudio hp)
      (congrArg Playback.hasVideo hp) h2
  · exact h1

theorem run_clockRefInv (env : Env) (ops : List Op) :
    ∀ s : Dev, s.clockRefInv → (∀ op ∈ ops, op.isPlay = true) →
      (run env s ops).clockRefInv := by
  induction ops with
  | nil => intro s h _; exact h
  | cons op ops ih =>
    intro s h hp
    refine ih (step env s op) ?_ (fun o ho => hp o (by simp [ho]))
    have hop := hp op (by simp)
    cases op with
    | PlayAudio Data Length Id => exact PlayAudio_clockRefInv env s Data Length Id h
    | PlayVideo fuel Data Length EndOfFrame =>
      exact PlayVideo_clockRefInv env fuel s Data Length EndOfFrame h
    | _ => simp [Op.isPlay] at hop

/-- C9 (amended): in every sequence of `PlayAudio` and `PlayVideo` calls that
starts with both `m_hasAudio` and `m_hasVideo` false and contains no codec
change while video is present (no `StopVideo` call), the first stream to
arrive selects the clock reference, a video stream that arrives second does
not change it, and an audio stream that arrives second selects Audio again:
the `SetClockReference` calls are none while no stream is present, `[Audio]`
with audio only, `[Video]` with video only, and `[Audio]` or `[Video, Audio]`
with both. -/
theorem C9_clock_reference (env : Env) (s : Dev) (ops : List Op)
    (ht : s.trace = []) (ha : s.m_hasAudio = false) (hv : s.m_hasVideo = false)
    (hp : ∀ op ∈ ops, op.isPlay = true)
    (hc : Call.StopVideo ∉ (run env s ops).trace) :
    clockRefOK (clockRefs (run env s ops).trace) (run env s ops).m_hasAudio
      (run env s ops).m_hasVideo := by
  have h0 : s.clockRefInv := by
    unfold Dev.clockRefInv
    rw [ht, ha, hv]
    exact Or.inr rfl
  rcases run_clockRefInv env ops s h0 hp with h | h
  · exact absurd h hc
  · exact h

/-- C9 witness: audio arrives first, video second: the only
`SetClockReference` call selects Audio. -/
theorem C9_clock_reference_witness :
    (freshDev (sampleEnv 64 0 false)).trace = [] ∧
    (freshDev (sampleEnv 64 0 false)).m_hasAudio = false ∧
    (freshDev (sampleEnv 64 0 false)).m_hasVideo = false ∧
    Call.StopVideo ∉ (run (sampleEnv 64 0 false) (freshDev (sampleEnv 64 0 false))
      [Op.PlayAudio (audioPes 100 [1, 2, 3]) 17 0xc0,
        Op.PlayVideo 8 (videoPes 100 mpeg2Payload) 20 false,
        Op.PlayAudio (audioPes 200 [1, 2, 3]) 17 0xc0,
        Op.PlayVideo 8 (videoPes 200 mpeg2Payload) 20 false]).trace ∧
    clockRefOK (clockRefs (run (sampleEnv 64 0 false) (freshDev (sampleEnv 64 0 false))
      [Op.PlayAudio (audioPes 100 [1, 2, 3]) 17 0xc0,
        Op.PlayVideo 8 (videoPes 100 mpeg2Payload) 20 false,
        Op.PlayAudio (audioPes 200 [1, 2, 3]) 17 0xc0,
        Op.PlayVideo 8 (videoPes 200 mpeg2Payload) 20 false]).trace)
      (run (sampleEnv 64 0 false) (freshDev (sampleEnv 64 0 false))
      [Op.PlayAudio (audioPes 100 [1, 2, 3]) 17 0xc0,
        Op.PlayVideo 8 (videoPes 100 mpeg2Payload) 20 false,
        Op.PlayAudio (audioPes 200 [1, 2, 3]) 17 0xc0,
        Op.PlayVideo 8 (videoPes 200 mpeg2Payload) 20 false]).m_hasAudio
      (run (sampleEnv 64 0 false) (freshDev (sampleEnv 64 0 false))
      [Op.PlayAudio (audioPes 100 [1, 2, 3]) 17 0xc0,
        Op.PlayVideo 8 (videoPes 100 mpeg2Payload) 20 false,
        Op.PlayAudio (audioPes 200 [1, 2, 3]) 17 0xc0,
        Op.PlayVideo 8 (videoPes 200 mpeg2Payload) 20 false]).m_hasVideo :=
  ⟨rfl, rfl, rfl, by decide,
    C9_clock_reference (sampleEnv 64 0 false) (freshDev (sampleEnv 64 0 false)) _
      rfl rfl rfl (by decide) (by decide)⟩

/-! ## Theorems: the reset of the playback state -/

/-- C10 (as stated, refuted): `SetPlayMode(pmNone)` on a device that plays
backward at the fastest speed leaves the playback state at (Backward,
Fastest); so does the unsupported play mode. -/
theorem C10_counterexample :
    (SetPlayMode (TrickSpeed_20103 (freshDev (sampleEnv 64 0 false)) 1 false)
      ePlayMode.pmNone).m_direction = eDirection.eBackward ∧
    (SetPlayMode (TrickSpeed_20103 (freshDev (sampleEnv 64 0 false)) 1 false)
      ePlayMode.pmNone).m_playbackSpeed = ePlaybackSpeed.eFastest ∧
    (SetPlayMode (TrickSpeed_20103 (freshDev (sampleEnv 64 0 false)) 1 false)
      ePlayMode.pmExtern_THIS_SHOULD_BE_AVOIDED).m_direction = eDirection.eBackward := by
  decide

theorem playVideoPacket_trick (env : Env) (fuel : Nat) (s : Dev) (data : List Nat)
    (length : Int) (h : s.m_videoPts = 0) :
    (playVideoPacket env fuel s data length).1.trick = s.trick := by
  unfold playVideoPacket
  split_ifs
  · exact PlayVideo_trick env fuel s data _ _ (Or.inr (Or.inr h))
  · rfl

theorem stillPicturePackets_trick (env : Env) (fuel : Nat) :
    ∀ (n : Nat) (s : Dev) (data : List Nat) (length : Int), s.m_videoPts = 0 →
      (stillPicturePackets env fuel n s data length).1.trick = s.trick := by
  intro n
  induction n with
  | zero => intro s data length _; rfl
  | succ n ih =>
    intro s data length h
    have hp := playVideoPacket_trick env fuel s data length h
    have hv : (playVideoPacket env fuel s data length).1.m_videoPts = 0 :=
      (congrArg TrickState.videoPts hp).trans h
    rw [stillPicturePackets]
    by_cases h1 : PesLongEnough length = true
    · rw [if_pos h1]
      split
      · exact hp
      · exact (ih _ _ _ hv).trans hp
    · rw [if_neg h1]

theorem stillPictureRepeat_trick (env : Env) (fuel : Nat) :
    ∀ (k : Nat) (s : Dev) (data : List Nat) (length : Int), s.m_videoPts = 0 →
      (stillPictureRepeat env fuel k s data length).1.trick = s.trick := by
  intro k
  induction k with
  | zero => intro s data length _; rfl
  | succ k ih =>
    intro s data length h
    have hp := stillPicturePackets_trick env fuel fuel s data length h
    have hv : (stillPicturePackets env fuel fuel s data length).1.m_videoPts = 0 :=
      (congrArg TrickState.videoPts hp).trans h
    rw [stillPictureRepeat]
    by_cases h1 : (stillPicturePackets env fuel fuel s data length).2 = true
    · simp only [h1, if_true]
      exact (ih _ _ _ hv).trans hp
    · simp only [h1, Bool.false_eq_true, if_false]
      exact hp

/-- The part of `StillPicture` under the mutex leaves the playback state at
(Forward, Normal). -/
theorem stillPictureShow_normal (env : Env) (fuel : Nat) (s : Dev) (codec : eCodec)
    (data : List Nat) (length : Int) (h : s.m_videoPts = 0) :
    (stillPictureShow env fuel s codec data length).1.isNormalForward := by
  have h2 := stillPictureRepeat_trick env fuel (if codec = eCodec.eMPEG2 then 4 else 10)
    ({ s with m_playbackSpeed := ePlaybackSpeed.eNormal,
              m_direction := eDirection.eForward }.emit Call.StopClock) data length h
  have hd := congrArg TrickState.direction h2
  have hs := congrArg TrickState.playbackSpeed h2
  unfold stillPictureShow
  simp only
  by_cases hr : (stillPictureRepeat env fuel (if codec = eCodec.eMPEG2 then 4 else 10)
      ({ s with m_playbackSpeed := ePlaybackSpeed.eNormal,
                m_direction := eDirection.eForward }.emit Call.StopClock) data length).2 = true
  · rw [if_pos hr]
    exact ⟨hd, hs⟩
  · rw [if_neg hr]
    exact ⟨hd, hs⟩

/-- C10 (amended): from every device state, after `SetPlayMode(m)` for every
play mode `m` other than `pmNone` and the unsupported mode, after `Play()`,
and after a `StillPicture` call that displays a picture (from a state with
`m_videoPts = 0`, which is every state the device can reach), the playback
state is (direction = Forward, speedIndex = Normal, index 4). -/
theorem C10_reset_to_normal (env : Env) (fuel : Nat) (s : Dev) (PlayMode : ePlayMode)
    (Data : List Nat) (Length : Int) :
    ePlaybackSpeed.eNormal.toNat = 4 ∧
    (PlayMode ≠ ePlayMode.pmNone → PlayMode ≠ ePlayMode.pmExtern_THIS_SHOULD_BE_AVOIDED →
      (SetPlayMode s PlayMode).isNormalForward) ∧
    (Play s).isNormalForward ∧
    (s.m_videoPts = 0 → stillPictureShown env s Data Length →
      (StillPicture env fuel s Data Length).1.isNormalForward) := by
  refine ⟨rfl, ?_, ⟨rfl, rfl⟩, ?_⟩
  · intro h1 h2
    cases PlayMode
    case pmNone => exact absurd rfl h1
    case pmExtern_THIS_SHOULD_BE_AVOIDED => exact absurd rfl h2
    all_goals exact ⟨rfl, rfl⟩
  · intro hv hshown
    obtain ⟨h47, hcase⟩ := hshown
    unfold StillPicture
    rw [if_neg h47]
    simp only
    by_cases hc : ParseVideoCodec Data Length ≠ eCodec.eInvalid
    · rw [if_pos hc] at hcase ⊢
      rw [hcase]
      simp only [Bool.not_true, Bool.false_eq_true, if_false]
      exact stillPictureShow_normal env fuel _ _ _ _ hv
    · rw [if_neg hc] at hcase ⊢
      rw [if_neg hcase]
      exact stillPictureShow_normal env fuel _ _ _ _ hv

/-- C10 witness: a device that plays backward at the fastest speed, the play
mode `pmAudioVideo` and a raw MPEG2 frame. -/
theorem C10_reset_to_normal_witness :
    (TrickSpeed_20103 (freshDev (sampleEnv 64 0 false)) 1 false).m_direction =
      eDirection.eBackward ∧
    (TrickSpeed_20103 (freshDev (sampleEnv 64 0 false)) 1 false).m_videoPts = 0 ∧
    stillPictureShown (sampleEnv 64 0 false)
      (TrickSpeed_20103 (freshDev (sampleEnv 64 0 false)) 1 false) mpeg2Payload 6 ∧
    (SetPlayMode (TrickSpeed_20103 (freshDev (sampleEnv 64 0 false)) 1 false)
      ePlayMode.pmAudioVideo).isNormalForward ∧
    (StillPicture (sampleEnv 64 0 false) 8
      (TrickSpeed_20103 (freshDev (sampleEnv 64 0 false)) 1 false)
      mpeg2Payload 6).1.isNormalForward :=
  ⟨by decide, by decide, ⟨by decide, by decide⟩,
    (C10_reset_to_normal (sampleEnv 64 0 false) 8
      (TrickSpeed_20103 (freshDev (sampleEnv 64 0 false)) 1 false) ePlayMode.pmAudioVideo
      mpeg2Payload 6).2.1 (by decide) (by decide),
    (C10_reset_to_normal (sampleEnv 64 0 false) 8
      (TrickSpeed_20103 (freshDev (sampleEnv 64 0 false)) 1 false) ePlayMode.pmAudioVideo
      mpeg2Payload 6).2.2.2 (by decide) ⟨by decide, by decide⟩⟩

/-! ## The states the device can reach -/

theorem PtsTracker_videoPts (s : Dev) (ptsDiff : Int) :
    (PtsTracker s ptsDiff).m_videoPts = s.m_videoPts := by
  unfold PtsTracker
  simp only
  split_ifs <;> rfl

theorem PlayAudio_videoPts (env : Env) (s : Dev) (Data : List Nat) (Length : Int) (Id : Nat) :
    (PlayAudio env s Data Length Id).1.m_videoPts = s.m_videoPts := by
  have h1 : (playAudioStart env s Id).m_videoPts = s.m_videoPts := by
    unfold playAudioStart
    simp only
    split_ifs <;> rfl
  have h2 : ∀ t : Dev, (playAudioTrack t (packetPts Data)).m_videoPts = t.m_videoPts := by
    intro t
    unfold playAudioTrack
    simp only
    split_ifs
    · exact PtsTracker_videoPts t _
    · rfl
    · rfl
  have h3 := congrArg Playback.videoPts (playAudioLatency_playback env
    (playAudioTrack (playAudioStart env s Id) (packetPts Data)) (packetPts Data) Id)
  have h4 := congrArg Playback.videoPts (playAudioWrite_playback env (playAudioLatency env
    (playAudioTrack (playAudioStart env s Id) (packetPts Data)) (packetPts Data) Id)
    Data Length Id (packetPts Data))
  unfold PlayAudio
  simp only
  exact h4.trans (h3.trans ((h2 _).trans h1))

theorem StillPicture_videoPts (env : Env) (fuel : Nat) (s : Dev) (Data : List Nat)
    (Length : Int) (h : s.m_videoPts = 0) :
    (StillPicture env fuel s Data Length).1.m_videoPts = 0 := by
  have hshow : ∀ (t : Dev) (codec : eCodec) (data : List Nat) (length : Int),
      t.m_videoPts = 0 → (stillPictureShow env fuel t codec data length).1.m_videoPts = 0 := by
    intro t codec data length ht
    have h2 := congrArg TrickState.videoPts (stillPictureRepeat_trick env fuel
      (if codec = eCodec.eMPEG2 then 4 else 10)
      ({ t with m_playbackSpeed := ePlaybackSpeed.eNormal,
                m_direction := eDirection.eForward }.emit Call.StopClock) data length ht)
    unfold stillPictureShow
    simp only
    by_cases hr : (stillPictureRepeat env fuel (if codec = eCodec.eMPEG2 then 4 else 10)
        ({ t with m_playbackSpeed := ePlaybackSpeed.eNormal,
                  m_direction := eDirection.eForward }.emit Call.StopClock) data length).2 = true
    · rw [if_pos hr]
      exact h2.trans ht
    · rw [if_neg hr]
      exact h2.trans ht
  unfold StillPicture
  simp only
  split_ifs
  · exact h
  · exact h
  · exact hshow _ _ _ _ h
  · exact h
  · exact hshow _ _ _ _ h

theorem FlushStreams_videoPts (s : Dev) (flushVideoRender : Bool) :
    (FlushStreams s flushVideoRender).m_videoPts = s.m_videoPts := by
  unfold FlushStreams
  simp only [Dev.emit]
  split_ifs <;> rfl

/-- No operation assigns `m_videoPts` a value other than 0: in every state that
the device can reach from a state with `m_videoPts = 0`, it is 0. -/
theorem run_videoPts (env : Env) (ops : List Op) :
    ∀ s : Dev, s.m_videoPts = 0 → (run env s ops).m_videoPts = 0 := by
  induction ops with
  | nil => intro s h; exact h
  | cons op ops ih =>
    intro s h
    refine ih (step env s op) ?_
    cases op with
    | SetPlayMode PlayMode =>
      cases PlayMode
      case pmNone =>
        simp only [step, SetPlayMode]
        split_ifs <;> exact (FlushStreams_videoPts s true).trans h
      all_goals exact h
    | PlayAudio Data Length Id => exact (PlayAudio_videoPts env s Data Length Id).trans h
    | PlayVideo fuel Data Length EndOfFrame =>
      exact (congrArg TrickState.videoPts
        (PlayVideo_trick env fuel s Data Length EndOfFrame (Or.inr (Or.inr h)))).trans h
    | Clear => exact (FlushStreams_videoPts s false).trans h
    | StillPicture fuel Data Length => exact StillPicture_videoPts env fuel s Data Length h
    | HandleBufferStall => exact (FlushStreams_videoPts s false).trans h
    | HandleEndOfStream => exact (FlushStreams_videoPts s false).trans h
    | Play => exact h
    | Freeze => exact h
    | TrickSpeed Speed =>
      simp only [step, TrickSpeed]
      split_ifs <;> rfl
    | TrickSpeed_20103 Speed Forward => exact h

/-! ## Theorems: the direction tracker and the trick speed table -/

/-- C11 (counterexample): with a fast request pending and the accumulator at 2,
each of `Clear()`, `Play()`, `Freeze()` and `SetPlayMode(pmAudioVideo)` leaves
the request pending and the accumulator at 2; and after `Play()` the next audio
packet with a later timestamp applies the request: the speed is Fastest. -/
theorem C11_counterexample :
    ((pendingFast (sampleEnv 64 0 false)).m_trickRequest,
      (pendingFast (sampleEnv 64 0 false)).m_playDirection) = (1, 2) ∧
    ((Clear (pendingFast (sampleEnv 64 0 false))).m_trickRequest,
      (Clear (pendingFast (sampleEnv 64 0 false))).m_playDirection) = (1, 2) ∧
    ((Play (pendingFast (sampleEnv 64 0 false))).m_trickRequest,
      (Play (pendingFast (sampleEnv 64 0 false))).m_playDirection) = (1, 2) ∧
    ((Freeze (pendingFast (sampleEnv 64 0 false))).m_trickRequest,
      (Freeze (pendingFast (sampleEnv 64 0 false))).m_playDirection) = (1, 2) ∧
    ((SetPlayMode (pendingFast (sampleEnv 64 0 false)) ePlayMode.pmAudioVideo).m_trickRequest,
      (SetPlayMode (pendingFast (sampleEnv 64 0 false)) ePlayMode.pmAudioVideo).m_playDirection)
        = (1, 2) ∧
    (Play (pendingFast (sampleEnv 64 0 false))).m_playbackSpeed = ePlaybackSpeed.eNormal ∧
    (PlayAudio (sampleEnv 64 0 false) (Play (pendingFast (sampleEnv 64 0 false)))
      (audioPes 3000 [1, 2]) 16 0xc0).1.m_playbackSpeed = ePlaybackSpeed.eFastest := by
  decide

/-- The calls of a device do not touch the tracker. -/
theorem FlushStreams_tracker (s : Dev) (flushVideoRender : Bool) :
    (FlushStreams s flushVideoRender).m_trickRequest = s.m_trickRequest ∧
    (FlushStreams s flushVideoRender).m_playDirection = s.m_playDirection := by
  unfold FlushStreams
  simp only [Dev.emit]
  split_ifs <;> exact ⟨rfl, rfl⟩

/-- C11 (amended): from every device state, each of `Clear()`, `Play()`,
`Freeze()` and `SetPlayMode(m)` leaves the direction tracker as it is: the
pending trick request `m_trickRequest` and the accumulator `m_playDirection`
keep the values they had before the call. -/
theorem C11_tracker_unchanged (s : Dev) (m : ePlayMode) :
    ((Clear s).m_trickRequest = s.m_trickRequest ∧
      (Clear s).m_playDirection = s.m_playDirection) ∧
    ((Play s).m_trickRequest = s.m_trickRequest ∧
      (Play s).m_playDirection = s.m_playDirection) ∧
    ((Freeze s).m_trickRequest = s.m_trickRequest ∧
      (Freeze s).m_playDirection = s.m_playDirection) ∧
    ((SetPlayMode s m).m_trickRequest = s.m_trickRequest ∧
      (SetPlayMode s m).m_playDirection = s.m_playDirection) := by
  refine ⟨FlushStreams_tracker s false, ⟨rfl, rfl⟩, ⟨rfl, rfl⟩, ?_⟩
  cases m
  case pmNone =>
    simp only [SetPlayMode]
    split_ifs <;> exact FlushStreams_tracker s true
  all_goals exact ⟨rfl, rfl⟩

/-- The speed that `ApplyTrickSpeed` selects is the entry of the table. -/
theorem ApplyTrickSpeed_speed (s : Dev) (trickSpeed : Int) (forward : Bool) :
    (ApplyTrickSpeed s trickSpeed forward).m_playbackSpeed = lookupTrickSpeed trickSpeed := by
  simp only [ApplyTrickSpeed, Dev.emit]
  split_ifs with h8 h4 h2 h6 h3 h1 h63 h48 h24
  case neg =>
    simp only [lookupTrickSpeed, trickSpeedTable, List.lookup, beq_false_of_ne h8,
      beq_false_of_ne h4, beq_false_of_ne h2, beq_false_of_ne h6, beq_false_of_ne h3,
      beq_false_of_ne h1, beq_false_of_ne h63, beq_false_of_ne h48, beq_false_of_ne h24]
    rfl
  all_goals (subst_vars; rfl)

/-- The direction that `ApplyTrickSpeed` selects is the one of the flag. -/
theorem ApplyTrickSpeed_direction (s : Dev) (trickSpeed : Int) (forward : Bool) :
    (ApplyTrickSpeed s trickSpeed forward).m_direction = directionOf forward := rfl

/-- The one call of `ApplyTrickSpeed` sets the clock scale of the new state. -/
theorem ApplyTrickSpeed_trace (s : Dev) (trickSpeed : Int) (forward : Bool) :
    (ApplyTrickSpeed s trickSpeed forward).trace = s.trace ++
      [Call.SetClockScale (s_playbackSpeeds (ApplyTrickSpeed s trickSpeed forward).m_direction
        (ApplyTrickSpeed s trickSpeed forward).m_playbackSpeed)] := rfl

/-- C12: the trick speed lookup. `ApplyTrickSpeed(code, forward)` takes the
direction from the flag and the speed from the table (6, 3, 1 are Fast, Faster,
Fastest; a code outside the table is Normal) and sets the clock scale to the
entry of `s_playbackSpeeds` for that direction and speed; and the
single-argument `TrickSpeed` with a non-ambiguous code (not 1, 3 or 6) gives
that state with direction Forward for 2, 4, 8 and Backward otherwise: 2, 4, 8
are (Forward, Slow / Slower / Slowest) and 24, 48, 63 are (Backward, Slow /
Slower / Slowest). -/
theorem C12_trick_speed_lookup (s : Dev) :
    (∀ (code : Int) (forward : Bool),
      (ApplyTrickSpeed s code forward).m_direction = directionOf forward ∧
      (ApplyTrickSpeed s code forward).m_playbackSpeed = lookupTrickSpeed code ∧
      (ApplyTrickSpeed s code forward).trace = s.trace ++
        [Call.SetClockScale (s_playbackSpeeds (directionOf forward) (lookupTrickSpeed code))]) ∧
    (∀ Speed : Int, Speed ≠ 1 → Speed ≠ 3 → Speed ≠ 6 →
      (TrickSpeed s Speed).m_direction =
        directionOf (decide (Speed = 8 ∨ Speed = 4 ∨ Speed = 2)) ∧
      (TrickSpeed s Speed).m_playbackSpeed = lookupTrickSpeed Speed ∧
      (TrickSpeed s Speed).trace = s.trace ++
        [Call.SetClockScale (s_playbackSpeeds (TrickSpeed s Speed).m_direction
          (TrickSpeed s Speed).m_playbackSpeed)]) ∧
    (lookupTrickSpeed 6 = ePlaybackSpeed.eFast ∧ lookupTrickSpeed 3 = ePlaybackSpeed.eFaster ∧
      lookupTrickSpeed 1 = ePlaybackSpeed.eFastest) ∧
    (∀ code : Int, code ∉ [2, 4, 8, 24, 48, 63, 6, 3, 1] →
      lookupTrickSpeed code = ePlaybackSpeed.eNormal) ∧
    ((TrickSpeed s 2).m_direction, (TrickSpeed s 2).m_playbackSpeed) =
      (eDirection.eForward, ePlaybackSpeed.eSlow) ∧
    ((TrickSpeed s 4).m_direction, (TrickSpeed s 4).m_playbackSpeed) =
      (eDirection.eForward, ePlaybackSpeed.eSlower) ∧
    ((TrickSpeed s 8).m_direction, (TrickSpeed s 8).m_playbackSpeed) =
      (eDirection.eForward, ePlaybackSpeed.eSlowest) ∧
    ((TrickSpeed s 24).m_direction, (TrickSpeed s 24).m_playbackSpeed) =
      (eDirection.eBackward, ePlaybackSpeed.eSlow) ∧
    ((TrickSpeed s 48).m_direction, (TrickSpeed s 48).m_playbackSpeed) =
      (eDirection.eBackward, ePlaybackSpeed.eSlower) ∧
    ((TrickSpeed s 63).m_direction, (TrickSpeed s 63).m_playbackSpeed) =
      (eDirection.eBackward, ePlaybackSpeed.eSlowest) := by
  have hT : ∀ Speed : Int, Speed ≠ 1 → Speed ≠ 3 → Speed ≠ 6 →
      TrickSpeed s Speed = ApplyTrickSpeed
        { s with m_audioPts := 0, m_videoPts := 0, m_playDirection := 0 } Speed
        (decide (Speed = 8 ∨ Speed = 4 ∨ Speed = 2)) := by
    intro Speed h1 h3 h6
    unfold TrickSpeed
    rw [if_neg (by simp [h1, h3, h6])]
  refine ⟨fun code forward => ⟨rfl, ApplyTrickSpeed_speed s code forward, ?_⟩,
    fun Speed h1 h3 h6 => ?_, by decide, ?_, ?_, ?_, ?_, ?_, ?_, ?_⟩
  · rw [ApplyTrickSpeed_trace, ApplyTrickSpeed_speed, ApplyTrickSpeed_direction]
  · rw [hT Speed h1 h3 h6]
    exact ⟨rfl, ApplyTrickSpeed_speed _ _ _, rfl⟩
  · intro code h
    simp only [List.mem_cons, List.mem_singleton, List.not_mem_nil, or_false, not_or] at h
    obtain ⟨h2, h4, h8, h24, h48, h63, h6, h3, h1⟩ := h
    simp only [lookupTrickSpeed, trickSpeedTable, List.lookup, beq_false_of_ne h8,
      beq_false_of_ne h4, beq_false_of_ne h2, beq_false_of_ne h6, beq_false_of_ne h3,
      beq_false_of_ne h1, beq_false_of_ne h63, beq_false_of_ne h48, beq_false_of_ne h24]
    rfl
  all_goals rfl

/-- C12 (witness): the code 5 is not ambiguous and outside the table. -/
theorem C12_trick_speed_lookup_witness :
    (5 : Int) ≠ 1 ∧ (5 : Int) ∉ [2, 4, 8, 24, 48, 63, 6, 3, 1] ∧
    (TrickSpeed (freshDev (sampleEnv 64 0 false)) 5).m_direction = eDirection.eBackward ∧
    (TrickSpeed (freshDev (sampleEnv 64 0 false)) 5).m_playbackSpeed = ePlaybackSpeed.eNormal ∧
    lookupTrickSpeed 5 = ePlaybackSpeed.eNormal :=
  ⟨by decide, by decide,
    ((C12_trick_speed_lookup (freshDev (sampleEnv 64 0 false))).2.1 5
      (by decide) (by decide) (by decide)).1,
    ((C12_trick_speed_lookup (freshDev (sampleEnv 64 0 false))).2.1 5
      (by decide) (by decide) (by decide)).2.1,
    (C12_trick_speed_lookup (freshDev (sampleEnv 64 0 false))).2.2.2.1 5 (by decide)⟩

/-- C15 (counterexample): with the request 1 pending and the accumulator at 2,
one more forward step makes the accumulator 4; the request is applied forward
and cleared, and the accumulator is 4 after the call, not 0. -/
theorem C15_counterexample :
    ((pendingFast (sampleEnv 64 0 false)).m_trickRequest,
      (pendingFast (sampleEnv 64 0 false)).m_playDirection) = (1, 2) ∧
    (PtsTracker (pendingFast (sampleEnv 64 0 false)) 1000).m_playDirection = 4 ∧
    (PtsTracker (pendingFast (sampleEnv 64 0 false)) 1000).m_trickRequest = 0 ∧
    (PtsTracker (pendingFast (sampleEnv 64 0 false)) 1000).m_direction = eDirection.eForward ∧
    (PtsTracker (pendingFast (sampleEnv 64 0 false)) 1000).m_playbackSpeed =
      ePlaybackSpeed.eFastest ∧
    (PlayAudio (sampleEnv 64 0 false) (pendingFast (sampleEnv 64 0 false))
      (audioPes 3000 [1, 2]) 16 0xc0).1.m_playDirection = 4 := by
  decide

/-- The two steps of `PtsTracker`: the accumulator moves by -1, +2 or 0, and
the request is applied and cleared once the accumulator is outside [-2, 3]. -/
theorem PtsTracker_eq (s : Dev) (ptsDiff : Int) :
    PtsTracker s ptsDiff =
      if s.m_playDirection + (if ptsDiff < 0 then -1 else if 0 < ptsDiff then 2 else 0) < -2 ∨
          s.m_playDirection + (if ptsDiff < 0 then -1 else if 0 < ptsDiff then 2 else 0) > 3 then
        { (ApplyTrickSpeed
            { s with m_playDirection :=
              s.m_playDirection + (if ptsDiff < 0 then -1 else if 0 < ptsDiff then 2 else 0) }
            s.m_trickRequest
            (decide (s.m_playDirection +
              (if ptsDiff < 0 then -1 else if 0 < ptsDiff then 2 else 0) > 0))) with
          m_trickRequest := 0 }
      else
        { s with m_playDirection :=
          s.m_playDirection + (if ptsDiff < 0 then -1 else if 0 < ptsDiff then 2 else 0) } := by
  unfold PtsTracker
  by_cases hneg : ptsDiff < 0
  · simp only [hneg, if_true, Int.sub_eq_add_neg]
  · by_cases hpos : 0 < ptsDiff
    · simp only [hneg, if_false, gt_iff_lt, hpos, if_true]
    · simp only [hneg, if_false, gt_iff_lt, hpos, add_zero]

/-- The accumulator after a `PtsTracker` call, applied or not. -/
theorem PtsTracker_playDirection (s : Dev) (ptsDiff : Int) :
    (PtsTracker s ptsDiff).m_playDirection =
      s.m_playDirection + (if ptsDiff < 0 then -1 else if 0 < ptsDiff then 2 else 0) := by
  rw [PtsTracker_eq]
  split_ifs <;> rfl

/-- The single-argument `TrickSpeed` resets the accumulator. -/
theorem TrickSpeed_playDirection (s : Dev) (Speed : Int) :
    (TrickSpeed s Speed).m_playDirection = 0 := by
  unfold TrickSpeed
  split_ifs <;> rfl

/-- C15 (amended): whenever a `PtsTracker` call makes the accumulator leave the
inclusive range [-2, 3], the pending request is applied (speed from the table,
clock scale set) with direction Forward if and only if the accumulator is > 0,
and after that call the pending trick request is zero; the accumulator
`m_playDirection` keeps the value it has reached, which is not zero, until the
next single-argument `TrickSpeed` call resets it. -/
theorem C15_PtsTracker_fires (s : Dev) (ptsDiff : Int)
    (h : (PtsTracker s ptsDiff).m_playDirection < -2 ∨
      3 < (PtsTracker s ptsDiff).m_playDirection) :
    ((PtsTracker s ptsDiff).m_direction = eDirection.eForward ↔
      0 < (PtsTracker s ptsDiff).m_playDirection) ∧
    (PtsTracker s ptsDiff).m_playbackSpeed = lookupTrickSpeed s.m_trickRequest ∧
    (PtsTracker s ptsDiff).trace = s.trace ++
      [Call.SetClockScale (s_playbackSpeeds (PtsTracker s ptsDiff).m_direction
        (PtsTracker s ptsDiff).m_playbackSpeed)] ∧
    (PtsTracker s ptsDiff).m_trickRequest = 0 ∧
    (PtsTracker s ptsDiff).m_playDirection =
      s.m_playDirection + (if ptsDiff < 0 then -1 else if 0 < ptsDiff then 2 else 0) ∧
    (PtsTracker s ptsDiff).m_playDirection ≠ 0 ∧
    ∀ Speed : Int, (TrickSpeed (PtsTracker s ptsDiff) Speed).m_playDirection = 0 := by
  have hacc := PtsTracker_playDirection s ptsDiff
  have hne : (PtsTracker s ptsDiff).m_playDirection ≠ 0 := by omega
  refine ⟨?_, ?_, ?_, ?_, hacc, hne, fun Speed => TrickSpeed_playDirection _ Speed⟩
  all_goals
    rw [hacc] at h
    rw [PtsTracker_eq, if_pos h]
  · by_cases hp :
        0 < s.m_playDirection + (if ptsDiff < 0 then -1 else if 0 < ptsDiff then 2 else 0)
    · simp [ApplyTrickSpeed, Dev.emit, hp]
    · simp [ApplyTrickSpeed, Dev.emit, hp]
  · have hsp := ApplyTrickSpeed_speed s s.m_trickRequest true
    simp only [ApplyTrickSpeed, Dev.emit] at hsp ⊢
    exact hsp
  · rfl

/-- C15 (witness): the device with the request 1 pending and the accumulator at
2 takes one more forward step. -/
theorem C15_PtsTracker_fires_witness :
    ((PtsTracker (pendingFast (sampleEnv 64 0 false)) 1000).m_playDirection < -2 ∨
      3 < (PtsTracker (pendingFast (sampleEnv 64 0 false)) 1000).m_playDirection) ∧
    (PtsTracker (pendingFast (sampleEnv 64 0 false)) 1000).m_trickRequest = 0 ∧
    (PtsTracker (pendingFast (sampleEnv 64 0 false)) 1000).m_playDirection ≠ 0 :=
  ⟨by decide,
    (C15_PtsTracker_fires (pendingFast (sampleEnv 64 0 false)) 1000 (by decide)).2.2.2.1,
    (C15_PtsTracker_fires (pendingFast (sampleEnv 64 0 false)) 1000 (by decide)).2.2.2.2.2.1⟩

/-! ## Theorems: the latency filter -/

/-- The float comparisons of the sample environment are ordered. -/
theorem sampleEnv_floatOrder (cap : Nat) (stc : Int) (transferring : Bool) :
    FloatOrder (sampleEnv cap stc transferring) where
  gt_mono := by
    intro a b c t hab h
    cases c <;> simp only [sampleEnv, FloatLit.ratio, decide_eq_true_eq] at h ⊢ <;> omega
  lt_mono := by
    intro a b c t hab h
    cases c <;> simp only [sampleEnv, FloatLit.ratio, decide_eq_true_eq] at h ⊢ <;> omega
  gt_two := by
    intro a t ht h
    simp only [sampleEnv, FloatLit.ratio, decide_eq_true_eq] at h ⊢
    omega
  lt_half := by
    intro a t ht h
    simp only [sampleEnv, FloatLit.ratio, decide_eq_true_eq] at h ⊢
    omega
  gt_self := by
    intro t ht
    simp only [sampleEnv, FloatLit.ratio, decide_eq_false_iff_not]
    omega
  lt_self := by
    intro t ht
    simp only [sampleEnv, FloatLit.ratio, decide_eq_false_iff_not]
    omega
  gt_of_nonpos := by
    intro a t ht h
    simp only [sampleEnv, FloatLit.ratio, decide_eq_true_eq]
    omega
  lt_of_nonpos := by
    intro a t ht h
    simp only [sampleEnv, FloatLit.ratio, decide_eq_true_eq]
    omega

/-- What the hypotheses of an accepted sample say. -/
theorem sampleAccepted_iff (env : Env) (s : Dev) (pts : Int) :
    sampleAccepted env s pts = true ↔
      pts ≠ 0 ∧ env.IsClockRunning s.trace = true ∧ latencyStc env s ≠ 0 ∧
        latencyStc env s < pts := by
  simp only [sampleAccepted, Bool.and_eq_true, decide_eq_true_eq, and_assoc]

/-- An accepted sample is shifted into the ring buffer after the two queries. -/
theorem UpdateLatency_accepted (env : Env) (s : Dev) (pts : Int)
    (h : sampleAccepted env s pts = true) :
    UpdateLatency env s pts = latencyPush env (afterQueries env s) (latencySample env s pts) := by
  obtain ⟨h0, hr, hz, hlt⟩ := (sampleAccepted_iff env s pts).1 h
  have hc : ¬ (latencyStc env s = 0 ∨ pts ≤ latencyStc env s) := by
    rintro (h1 | h1)
    · exact hz h1
    · exact absurd hlt (not_lt.2 h1)
  unfold UpdateLatency
  rw [if_neg h0]
  simp only [latencyStc, afterQueries, latencySample] at hc ⊢
  simp only [hr, Bool.not_true, Bool.false_eq_true, if_false] at hc ⊢
  rw [if_neg hc]

/-- A call that does not accept its sample makes queries only and leaves the
filter as it is. -/
theorem UpdateLatency_rejected (env : Env) (s : Dev) (pts : Int)
    (h : sampleAccepted env s pts = false) :
    (∃ l : List Call, (UpdateLatency env s pts) = { s with trace := s.trace ++ l } ∧
      ∀ c ∈ l, c.isQuery = true) := by
  unfold UpdateLatency
  by_cases h0 : pts = 0
  · rw [if_pos h0]
    exact ⟨[], by simp, by simp⟩
  rw [if_neg h0]
  by_cases hr : env.IsClockRunning s.trace = true
  · simp only [hr, Bool.not_true, Bool.false_eq_true, if_false]
    have hc : latencyStc env s = 0 ∨ pts ≤ latencyStc env s := by
      by_contra hc
      rw [not_or] at hc
      have := (sampleAccepted_iff env s pts).2 ⟨h0, hr, hc.1, not_le.1 hc.2⟩
      rw [h] at this
      exact Bool.false_ne_true this
    simp only [latencyStc, hr] at hc
    rw [if_pos hc]
    exact ⟨[Call.IsClockRunning true,
      Call.GetSTC (env.GetSTC (s.emit (Call.IsClockRunning true)).trace)],
      by simp [Dev.emit], by simp [Call.isQuery]⟩
  · rw [Bool.not_eq_true] at hr
    simp only [hr, Bool.not_false, if_true]
    exact ⟨[Call.IsClockRunning false], by simp [Dev.emit], by simp [Call.isQuery]⟩

/-- An accepted sample that finds the window full is evaluated. -/
theorem UpdateLatency_evaluated (env : Env) (s : Dev) (pts : Int)
    (h : sampleAccepted env s pts = true) (hf : windowFull env s) :
    UpdateLatency env s pts =
      latencyEvaluate env { (afterQueries env s) with m_latency := pushedWindow env s pts } := by
  rw [UpdateLatency_accepted env s pts h]
  unfold latencyPush
  exact if_neg hf

/-- An accepted sample that finds the window not full is counted. -/
theorem UpdateLatency_counted (env : Env) (s : Dev) (pts : Int)
    (h : sampleAccepted env s pts = true) (hf : ¬ windowFull env s) :
    UpdateLatency env s pts =
      { (afterQueries env s) with
        m_latency := pushedWindow env s pts
        m_latencySamples := s.m_latencySamples + 1 } := by
  rw [UpdateLatency_accepted env s pts h]
  unfold latencyPush
  exact if_pos (not_not.1 hf)

/-- The bands leave the target as it is. -/
theorem updateLiveSpeed_target (env : Env) (s : Dev) (average : Int) :
    (updateLiveSpeed env s average).m_latencyTarget = s.m_latencyTarget := by
  unfold updateLiveSpeed
  split_ifs <;> rfl

/-- The bands leave the ring buffer and the sample counter as they are. -/
theorem updateLiveSpeed_window (env : Env) (s : Dev) (average : Int) :
    (updateLiveSpeed env s average).m_latency = s.m_latency ∧
    (updateLiveSpeed env s average).m_latencySamples = s.m_latencySamples := by
  unfold updateLiveSpeed
  split_ifs <;> exact ⟨rfl, rfl⟩

/-- Inside the four outer bands the level moves towards no correction only:
above the target a negative level is reset, below the target a positive level
is reset, and on the target the level is reset. -/
theorem updateLiveSpeed_dead (env : Env) (s : Dev) (average : Int)
    (h20 : env.floatGt average FloatLit.f2_0 s.m_latencyTarget = false)
    (h05 : env.floatLt average FloatLit.f0_5 s.m_latencyTarget = false)
    (h11 : env.floatGt average FloatLit.f1_1 s.m_latencyTarget = false)
    (h09 : env.floatLt average FloatLit.f0_9 s.m_latencyTarget = false) :
    updateLiveSpeed env s average =
      if average > s.m_latencyTarget then
        if s.m_liveSpeed.toNat < eLiveSpeed.eNoCorrection.toNat then
          { s with m_liveSpeed := eLiveSpeed.eNoCorrection }
        else s
      else if average < s.m_latencyTarget then
        if s.m_liveSpeed.toNat > eLiveSpeed.eNoCorrection.toNat then
          { s with m_liveSpeed := eLiveSpeed.eNoCorrection }
        else s
      else { s with m_liveSpeed := eLiveSpeed.eNoCorrection } := by
  unfold updateLiveSpeed
  simp only [h20, h05, h11, h09, Bool.false_eq_true, if_false]

/-- A positive target is inside the four outer bands of itself. -/
theorem FloatOrder.at_target {env : Env} (hfo : FloatOrder env) (t : Int) (ht : 0 < t) :
    env.floatGt t FloatLit.f2_0 t = false ∧ env.floatLt t FloatLit.f0_5 t = false ∧
    env.floatGt t FloatLit.f1_1 t = false ∧ env.floatLt t FloatLit.f0_9 t = false := by
  refine ⟨?_, ?_, hfo.gt_self t ht, hfo.lt_self t ht⟩
  · rw [← Bool.not_eq_true]
    intro h
    have := hfo.gt_two t t (le_of_lt ht) h
    rw [hfo.gt_self t ht] at this
    exact Bool.false_ne_true this
  · rw [← Bool.not_eq_true]
    intro h
    have := hfo.lt_half t t (le_of_lt ht) h
    rw [hfo.lt_self t ht] at this
    exact Bool.false_ne_true this

/-- A mean above the target and not above 1.1 times the target: the target is
positive and the mean is inside the four outer bands. -/
theorem FloatOrder.above {env : Env} (hfo : FloatOrder env) (a t : Int) (hat : t < a)
    (h11 : env.floatGt a FloatLit.f1_1 t = false) :
    0 < t ∧ env.floatGt a FloatLit.f2_0 t = false ∧ env.floatLt a FloatLit.f0_5 t = false ∧
    env.floatLt a FloatLit.f0_9 t = false := by
  have ht : 0 < t := by
    by_contra hn
    have := hfo.gt_of_nonpos a t (not_lt.1 hn) hat
    rw [h11] at this
    exact Bool.false_ne_true this
  have h09 : env.floatLt a FloatLit.f0_9 t = false := by
    rw [← Bool.not_eq_true]
    intro h
    have := hfo.lt_mono a t FloatLit.f0_9 t (le_of_lt hat) h
    rw [hfo.lt_self t ht] at this
    exact Bool.false_ne_true this
  refine ⟨ht, ?_, ?_, h09⟩
  · rw [← Bool.not_eq_true]
    intro h
    have := hfo.gt_two a t (le_of_lt ht) h
    rw [h11] at this
    exact Bool.false_ne_true this
  · rw [← Bool.not_eq_true]
    intro h
    have := hfo.lt_half a t (le_of_lt ht) h
    rw [h09] at this
    exact Bool.false_ne_true this

/-- A mean below the target and not below 0.9 times the target: the target is
positive and the mean is inside the four outer bands. -/
theorem FloatOrder.below {env : Env} (hfo : FloatOrder env) (a t : Int) (hat : a < t)
    (h09 : env.floatLt a FloatLit.f0_9 t = false) :
    0 < t ∧ env.floatGt a FloatLit.f2_0 t = false ∧ env.floatLt a FloatLit.f0_5 t = false ∧
    env.floatGt a FloatLit.f1_1 t = false := by
  have ht : 0 < t := by
    by_contra hn
    have := hfo.lt_of_nonpos a t (not_lt.1 hn) hat
    rw [h09] at this
    exact Bool.false_ne_true this
  have h11 : env.floatGt a FloatLit.f1_1 t = false := by
    rw [← Bool.not_eq_true]
    intro h
    have := hfo.gt_mono a t FloatLit.f1_1 t (le_of_lt hat) h
    rw [hfo.gt_self t ht] at this
    exact Bool.false_ne_true this
  refine ⟨ht, ?_, ?_, h11⟩
  · rw [← Bool.not_eq_true]
    intro h
    have := hfo.gt_two a t (le_of_lt ht) h
    rw [h11] at this
    exact Bool.false_ne_true this
  · rw [← Bool.not_eq_true]
    intro h
    have := hfo.lt_half a t (le_of_lt ht) h
    rw [h09] at this
    exact Bool.false_ne_true this

/-- The evaluation of a window in terms of the bands: the target is computed
when it is 0, the bands are applied, and the clock scale of the new level is
set. -/
theorem latencyEvaluate_eq (env : Env) (s : Dev) :
    latencyEvaluate env s =
      (updateLiveSpeed env
        (if s.m_latencyTarget = 0 then
          { s with m_latencyTarget :=
            env.floatMulToInt FloatLit.f1_4 (windowMean env s.m_latency) }
        else s) (windowMean env s.m_latency)).emit
        (Call.SetClockScale (s_liveSpeeds (updateLiveSpeed env
          (if s.m_latencyTarget = 0 then
            { s with m_latencyTarget :=
              env.floatMulToInt FloatLit.f1_4 (windowMean env s.m_latency) }
          else s) (windowMean env s.m_latency)).m_liveSpeed)) := rfl

/-- The target after an evaluation: computed from the mean of the window when
it was 0, and the same as before otherwise. -/
theorem latencyEvaluate_target (env : Env) (s : Dev) :
    (latencyEvaluate env s).m_latencyTarget =
      if s.m_latencyTarget = 0 then env.floatMulToInt FloatLit.f1_4 (windowMean env s.m_latency)
      else s.m_latencyTarget := by
  rw [latencyEvaluate_eq]
  show (updateLiveSpeed env _ _).m_latencyTarget = _
  rw [updateLiveSpeed_target]
  split_ifs <;> rfl

/-- An evaluation leaves the sample counter as it is. -/
theorem latencyEvaluate_samples (env : Env) (s : Dev) :
    (latencyEvaluate env s).m_latencySamples = s.m_latencySamples := by
  rw [latencyEvaluate_eq]
  show (updateLiveSpeed env _ _).m_latencySamples = _
  rw [(updateLiveSpeed_window env _ _).2]
  split_ifs <;> rfl

/-- The level after an evaluation is the level that the bands give. -/
theorem latencyEvaluate_liveSpeed (env : Env) (s : Dev) (h : s.m_latencyTarget ≠ 0) :
    (latencyEvaluate env s).m_liveSpeed =
      (updateLiveSpeed env s (windowMean env s.m_latency)).m_liveSpeed := by
  rw [latencyEvaluate_eq, if_neg h]
  rfl

/-- The level after the evaluation of a window whose mean is inside the four
outer bands of the target in force: above the target a negative level is
reset, below the target a positive level is reset, on the target the level is
reset. -/
theorem latencyEvaluate_dead (env : Env) (s : Dev)
    (h20 : env.floatGt (windowMean env s.m_latency) FloatLit.f2_0
      (latencyEvaluate env s).m_latencyTarget = false)
    (h05 : env.floatLt (windowMean env s.m_latency) FloatLit.f0_5
      (latencyEvaluate env s).m_latencyTarget = false)
    (h11 : env.floatGt (windowMean env s.m_latency) FloatLit.f1_1
      (latencyEvaluate env s).m_latencyTarget = false)
    (h09 : env.floatLt (windowMean env s.m_latency) FloatLit.f0_9
      (latencyEvaluate env s).m_latencyTarget = false) :
    (latencyEvaluate env s).m_liveSpeed =
      if windowMean env s.m_latency > (latencyEvaluate env s).m_latencyTarget then
        if s.m_liveSpeed.toNat < eLiveSpeed.eNoCorrection.toNat then eLiveSpeed.eNoCorrection
        else s.m_liveSpeed
      else if windowMean env s.m_latency < (latencyEvaluate env s).m_latencyTarget then
        if s.m_liveSpeed.toNat > eLiveSpeed.eNoCorrection.toNat then eLiveSpeed.eNoCorrection
        else s.m_liveSpeed
      else eLiveSpeed.eNoCorrection := by
  rw [latencyEvaluate_target] at h20 h05 h11 h09 ⊢
  rw [latencyEvaluate_eq]
  by_cases h0 : s.m_latencyTarget = 0
  · rw [if_pos h0] at h20 h05 h11 h09 ⊢
    rw [if_pos h0]
    show (updateLiveSpeed env _ _).m_liveSpeed = _
    rw [updateLiveSpeed_dead env _ _ h20 h05 h11 h09]
    split_ifs <;> rfl
  · rw [if_neg h0] at h20 h05 h11 h09 ⊢
    rw [if_neg h0]
    show (updateLiveSpeed env _ _).m_liveSpeed = _
    rw [updateLiveSpeed_dead env _ _ h20 h05 h11 h09]
    split_ifs <;> rfl

/-- The evaluation of a window whose mean is the positive target: the level is
reset, nothing else changes, and the nominal clock scale is set. -/
theorem latencyEvaluate_on_target (env : Env) (hfo : FloatOrder env) (s : Dev)
    (ht : 0 < s.m_latencyTarget) (hm : windowMean env s.m_latency = s.m_latencyTarget) :
    latencyEvaluate env s =
      ({ s with m_liveSpeed := eLiveSpeed.eNoCorrection }).emit
        (Call.SetClockScale (s_liveSpeeds eLiveSpeed.eNoCorrection)) := by
  obtain ⟨h20, h05, h11, h09⟩ := hfo.at_target s.m_latencyTarget ht
  rw [latencyEvaluate_eq, if_neg (ne_of_gt ht), hm,
    updateLiveSpeed_dead env s s.m_latencyTarget h20 h05 h11 h09]
  simp only [gt_iff_lt, lt_irrefl, if_false]

/-- One call that finds the window full and the mean on the positive target. -/
theorem UpdateLatency_on_target (env : Env) (hfo : FloatOrder env) (s : Dev) (pts : Int)
    (hacc : sampleAccepted env s pts = true) (hfull : windowFull env s)
    (ht : 0 < s.m_latencyTarget) (hmean : pushedMean env s pts = s.m_latencyTarget) :
    UpdateLatency env s pts =
      ({ (afterQueries env s) with
          m_latency := pushedWindow env s pts
          m_liveSpeed := eLiveSpeed.eNoCorrection }).emit
        (Call.SetClockScale (s_liveSpeeds eLiveSpeed.eNoCorrection)) := by
  rw [UpdateLatency_evaluated env s pts hacc hfull]
  exact latencyEvaluate_on_target env hfo
    { (afterQueries env s) with m_latency := pushedWindow env s pts } ht hmean

/-- A sequence of calls that all find the mean on the target keeps the window
full and the target fixed, and leaves the level at no correction. -/
theorem updateAll_on_target (env : Env) (hfo : FloatOrder env) (ptss : List Int) :
    ∀ s : Dev, windowFull env s → 0 < s.m_latencyTarget → onTargetCalls env s ptss →
      windowFull env (updateAll env s ptss) ∧
      (updateAll env s ptss).m_latencyTarget = s.m_latencyTarget ∧
      (ptss ≠ [] → (updateAll env s ptss).m_liveSpeed = eLiveSpeed.eNoCorrection) := by
  induction ptss with
  | nil => intro s hf _ _; exact ⟨hf, rfl, fun h => absurd rfl h⟩
  | cons pts rest ih =>
    intro s hf ht h
    obtain ⟨⟨hacc, hmean⟩, hrest⟩ := h
    have hstep := UpdateLatency_on_target env hfo s pts hacc hf ht hmean
    have hf1 : windowFull env (UpdateLatency env s pts) := by rw [hstep]; exact hf
    have ht1 : (UpdateLatency env s pts).m_latencyTarget = s.m_latencyTarget := by
      rw [hstep]; rfl
    have hl1 : (UpdateLatency env s pts).m_liveSpeed = eLiveSpeed.eNoCorrection := by
      rw [hstep]; rfl
    obtain ⟨hf2, ht2, hl2⟩ := ih (UpdateLatency env s pts) hf1 (by rw [ht1]; exact ht) hrest
    refine ⟨hf2, ht2.trans ht1, fun _ => ?_⟩
    by_cases hr : rest = []
    · subst hr
      exact hl1
    · exact hl2 hr

/-- C13: for every latency-filter state with a full window and a fixed
(positive) target, an `UpdateLatency` call whose window mean equals the target
exactly leaves the correction level at NoCorrection whatever the previous level
was, and any number of further calls whose window mean equals the target again
(identical samples) keep it at NoCorrection, with the target unchanged. The
float comparisons are assumed to be ordered like the numbers they stand for; a
fixed target is a target that is not 0, and it is positive since the target is
never negative in a state that the device reaches (`run_target_nonneg`). -/
theorem C13_on_target_no_correction (env : Env) (hfo : FloatOrder env) (s : Dev) (pts : Int)
    (rest : List Int) (hfull : windowFull env s) (ht : 0 < s.m_latencyTarget)
    (h : onTargetCalls env s (pts :: rest)) :
    (UpdateLatency env s pts).m_liveSpeed = eLiveSpeed.eNoCorrection ∧
    (updateAll env s (pts :: rest)).m_liveSpeed = eLiveSpeed.eNoCorrection ∧
    (updateAll env s (pts :: rest)).m_latencyTarget = s.m_latencyTarget ∧
    (updateAll env (UpdateLatency env s pts) rest).m_liveSpeed =
      (UpdateLatency env s pts).m_liveSpeed := by
  have h1 := updateAll_on_target env hfo [pts] s hfull ht ⟨h.1, trivial⟩
  have h2 := updateAll_on_target env hfo (pts :: rest) s hfull ht h
  have hl : (UpdateLatency env s pts).m_liveSpeed = eLiveSpeed.eNoCorrection :=
    h1.2.2 (List.cons_ne_nil _ _)
  have hall : (updateAll env s (pts :: rest)).m_liveSpeed = eLiveSpeed.eNoCorrection :=
    h2.2.2 (List.cons_ne_nil _ _)
  exact ⟨hl, hall, h2.2.1, hall.trans hl.symm⟩

/-- C13 (witness): a full window of samples of 140 ms, the target 140 ms and
the level at maximal positive correction; three calls with a sample of 140 ms
each. -/
theorem C13_on_target_no_correction_witness :
    windowFull (sampleEnv 64 1000 true) (filterDev 140 eLiveSpeed.ePosMaxCorrection) ∧
    onTargetCalls (sampleEnv 64 1000 true) (filterDev 140 eLiveSpeed.ePosMaxCorrection)
      [13600, 13600, 13600] ∧
    (UpdateLatency (sampleEnv 64 1000 true) (filterDev 140 eLiveSpeed.ePosMaxCorrection)
      13600).m_liveSpeed = eLiveSpeed.eNoCorrection ∧
    (updateAll (sampleEnv 64 1000 true) (filterDev 140 eLiveSpeed.ePosMaxCorrection)
      [13600, 13600, 13600]).m_liveSpeed = eLiveSpeed.eNoCorrection :=
  ⟨by decide, by decide,
    (C13_on_target_no_correction (sampleEnv 64 1000 true) (sampleEnv_floatOrder 64 1000 true)
      (filterDev 140 eLiveSpeed.ePosMaxCorrection) 13600 [13600, 13600]
      (by decide) (by decide) (by decide)).1,
    (C13_on_target_no_correction (sampleEnv 64 1000 true) (sampleEnv_floatOrder 64 1000 true)
      (filterDev 140 eLiveSpeed.ePosMaxCorrection) 13600 [13600, 13600]
      (by decide) (by decide) (by decide)).2.1⟩

/-- C17 (counterexample): a full window of samples of 140 ms and the target
140 ms; a call with a sample of 140 ms finds the mean 140 equal to the target,
and the level, which was mild positive correction (or maximal negative
correction), is NoCorrection after the call: it has changed. -/
theorem C17_counterexample :
    windowFull (sampleEnv 64 1000 true) (filterDev 140 eLiveSpeed.ePosCorrection) ∧
    sampleAccepted (sampleEnv 64 1000 true) (filterDev 140 eLiveSpeed.ePosCorrection) 13600
      = true ∧
    pushedMean (sampleEnv 64 1000 true) (filterDev 140 eLiveSpeed.ePosCorrection) 13600 = 140 ∧
    (filterDev 140 eLiveSpeed.ePosCorrection).m_latencyTarget = 140 ∧
    (filterDev 140 eLiveSpeed.ePosCorrection).m_liveSpeed = eLiveSpeed.ePosCorrection ∧
    (UpdateLatency (sampleEnv 64 1000 true) (filterDev 140 eLiveSpeed.ePosCorrection)
      13600).m_liveSpeed = eLiveSpeed.eNoCorrection ∧
    (UpdateLatency (sampleEnv 64 1000 true) (filterDev 140 eLiveSpeed.eNegMaxCorrection)
      13600).m_liveSpeed = eLiveSpeed.eNoCorrection := by
  decide

/-- C17 (amended): for every latency-filter state with a full window and a
positive target, an `UpdateLatency` call whose window mean is exactly equal to
the target sets the correction level to NoCorrection, whatever the level was
(it is left unchanged only if it was NoCorrection already); the counters of
maximal corrections and the target are left unchanged, and the one call after
the two queries sets the nominal clock scale. The float comparisons are
assumed to be ordered like the numbers they stand for. -/
theorem C17_on_target_resets (env : Env) (hfo : FloatOrder env) (s : Dev) (pts : Int)
    (hacc : sampleAccepted env s pts = true) (hfull : windowFull env s)
    (ht : 0 < s.m_latencyTarget) (hmean : pushedMean env s pts = s.m_latencyTarget) :
    (UpdateLatency env s pts).m_liveSpeed = eLiveSpeed.eNoCorrection ∧
    ((UpdateLatency env s pts).m_liveSpeed = s.m_liveSpeed ↔
      s.m_liveSpeed = eLiveSpeed.eNoCorrection) ∧
    (UpdateLatency env s pts).m_posMaxCorrections = s.m_posMaxCorrections ∧
    (UpdateLatency env s pts).m_negMaxCorrections = s.m_negMaxCorrections ∧
    (UpdateLatency env s pts).m_latencyTarget = s.m_latencyTarget ∧
    (UpdateLatency env s pts).trace =
      (afterQueries env s).trace ++ [Call.SetClockScale (s_liveSpeeds eLiveSpeed.eNoCorrection)] := by
  rw [UpdateLatency_on_target env hfo s pts hacc hfull ht hmean]
  refine ⟨rfl, ⟨fun h => h.symm, fun h => h.symm⟩, rfl, rfl, rfl, rfl⟩

/-- C17 (witness): the device of the counterexample. -/
theorem C17_on_target_resets_witness :
    windowFull (sampleEnv 64 1000 true) (filterDev 140 eLiveSpeed.ePosCorrection) ∧
    pushedMean (sampleEnv 64 1000 true) (filterDev 140 eLiveSpeed.ePosCorrection) 13600 =
      (filterDev 140 eLiveSpeed.ePosCorrection).m_latencyTarget ∧
    (UpdateLatency (sampleEnv 64 1000 true) (filterDev 140 eLiveSpeed.ePosCorrection)
      13600).m_liveSpeed = eLiveSpeed.eNoCorrection :=
  ⟨by decide, by decide,
    (C17_on_target_resets (sampleEnv 64 1000 true) (sampleEnv_floatOrder 64 1000 true)
      (filterDev 140 eLiveSpeed.ePosCorrection) 13600 (by decide) (by decide) (by decide)
      (by decide)).1⟩

/-- The level after the evaluation of a window whose mean is above the target
in force and not above 1.1 times it: a negative level is reset, any other
level stays. -/
theorem latencyEvaluate_above (env : Env) (hfo : FloatOrder env) (s : Dev)
    (hat : (latencyEvaluate env s).m_latencyTarget < windowMean env s.m_latency)
    (h11 : env.floatGt (windowMean env s.m_latency) FloatLit.f1_1
      (latencyEvaluate env s).m_latencyTarget = false) :
    (latencyEvaluate env s).m_liveSpeed =
      if s.m_liveSpeed.toNat < eLiveSpeed.eNoCorrection.toNat then eLiveSpeed.eNoCorrection
      else s.m_liveSpeed := by
  obtain ⟨_, h20, h05, h09⟩ := hfo.above _ _ hat h11
  rw [latencyEvaluate_dead env s h20 h05 h11 h09, if_pos hat]

/-- The level after the evaluation of a window whose mean is below the target
in force and not below 0.9 times it: a positive level is reset, any other
level stays. -/
theorem latencyEvaluate_below (env : Env) (hfo : FloatOrder env) (s : Dev)
    (hat : windowMean env s.m_latency < (latencyEvaluate env s).m_latencyTarget)
    (h09 : env.floatLt (windowMean env s.m_latency) FloatLit.f0_9
      (latencyEvaluate env s).m_latencyTarget = false) :
    (latencyEvaluate env s).m_liveSpeed =
      if s.m_liveSpeed.toNat > eLiveSpeed.eNoCorrection.toNat then eLiveSpeed.eNoCorrection
      else s.m_liveSpeed := by
  obtain ⟨_, h20, h05, h11⟩ := hfo.below _ _ hat h09
  rw [latencyEvaluate_dead env s h20 h05 h11 h09, if_neg (not_lt.2 (le_of_lt hat)), if_pos hat]

/-- C19: dead-band hysteresis of `UpdateLatency`. For an evaluated call (the
sample is accepted and the window is full), with the target in force after the
call: when the window mean lies strictly above the target but not above 1.1
times the target, a positive correction level (mild or maximal) and
NoCorrection are left unchanged and a negative level is reset to NoCorrection;
when the mean lies strictly below the target but not below 0.9 times the
target, a negative level and NoCorrection are left unchanged and a positive
level is reset to NoCorrection. The float comparisons are assumed to be
ordered like the numbers they stand for. -/
theorem C19_dead_band (env : Env) (hfo : FloatOrder env) (s : Dev) (pts : Int)
    (hacc : sampleAccepted env s pts = true) (hfull : windowFull env s) :
    (((UpdateLatency env s pts).m_latencyTarget < pushedMean env s pts ∧
        env.floatGt (pushedMean env s pts) FloatLit.f1_1
          (UpdateLatency env s pts).m_latencyTarget = false) →
      ((s.m_liveSpeed = eLiveSpeed.ePosCorrection ∨ s.m_liveSpeed = eLiveSpeed.ePosMaxCorrection ∨
          s.m_liveSpeed = eLiveSpeed.eNoCorrection) →
        (UpdateLatency env s pts).m_liveSpeed = s.m_liveSpeed) ∧
      ((s.m_liveSpeed = eLiveSpeed.eNegCorrection ∨
          s.m_liveSpeed = eLiveSpeed.eNegMaxCorrection) →
        (UpdateLatency env s pts).m_liveSpeed = eLiveSpeed.eNoCorrection)) ∧
    ((pushedMean env s pts < (UpdateLatency env s pts).m_latencyTarget ∧
        env.floatLt (pushedMean env s pts) FloatLit.f0_9
          (UpdateLatency env s pts).m_latencyTarget = false) →
      ((s.m_liveSpeed = eLiveSpeed.eNegCorrection ∨ s.m_liveSpeed = eLiveSpeed.eNegMaxCorrection ∨
          s.m_liveSpeed = eLiveSpeed.eNoCorrection) →
        (UpdateLatency env s pts).m_liveSpeed = s.m_liveSpeed) ∧
      ((s.m_liveSpeed = eLiveSpeed.ePosCorrection ∨
          s.m_liveSpeed = eLiveSpeed.ePosMaxCorrection) →
        (UpdateLatency env s pts).m_liveSpeed = eLiveSpeed.eNoCorrection)) := by
  rw [UpdateLatency_evaluated env s pts hacc hfull]
  constructor
  · rintro ⟨hat, h11⟩
    have hl : (latencyEvaluate env
        { (afterQueries env s) with m_latency := pushedWindow env s pts }).m_liveSpeed =
        if s.m_liveSpeed.toNat < eLiveSpeed.eNoCorrection.toNat then eLiveSpeed.eNoCorrection
        else s.m_liveSpeed :=
      latencyEvaluate_above env hfo
        { (afterQueries env s) with m_latency := pushedWindow env s pts } hat h11
    rw [hl]
    constructor
    · rintro (h | h | h) <;> (rw [show s.m_liveSpeed = _ from h]; rfl)
    · rintro (h | h) <;> (rw [show s.m_liveSpeed = _ from h]; rfl)
  · rintro ⟨hat, h09⟩
    have hl : (latencyEvaluate env
        { (afterQueries env s) with m_latency := pushedWindow env s pts }).m_liveSpeed =
        if s.m_liveSpeed.toNat > eLiveSpeed.eNoCorrection.toNat then eLiveSpeed.eNoCorrection
        else s.m_liveSpeed :=
      latencyEvaluate_below env hfo
        { (afterQueries env s) with m_latency := pushedWindow env s pts } hat h09
    rw [hl]
    constructor
    · rintro (h | h | h) <;> (rw [show s.m_liveSpeed = _ from h]; rfl)
    · rintro (h | h) <;> (rw [show s.m_liveSpeed = _ from h]; rfl)

/-- C19 (witness): the target is 140 ms. A window mean of 150 ms is above the
target and not above 154 ms: maximal positive correction stays. A window mean
of 130 ms is below the target and not below 126 ms: mild negative correction
stays. -/
theorem C19_dead_band_witness :
    ((UpdateLatency (sampleEnv 64 1000 true) (filterDev 150 eLiveSpeed.ePosMaxCorrection)
        14500).m_latencyTarget <
      pushedMean (sampleEnv 64 1000 true) (filterDev 150 eLiveSpeed.ePosMaxCorrection) 14500 ∧
    (UpdateLatency (sampleEnv 64 1000 true) (filterDev 150 eLiveSpeed.ePosMaxCorrection)
      14500).m_liveSpeed = eLiveSpeed.ePosMaxCorrection) ∧
    (pushedMean (sampleEnv 64 1000 true) (filterDev 130 eLiveSpeed.eNegCorrection) 12700 <
      (UpdateLatency (sampleEnv 64 1000 true) (filterDev 130 eLiveSpeed.eNegCorrection)
        12700).m_latencyTarget ∧
    (UpdateLatency (sampleEnv 64 1000 true) (filterDev 130 eLiveSpeed.eNegCorrection)
      12700).m_liveSpeed = eLiveSpeed.eNegCorrection) :=
  ⟨⟨by decide,
    ((C19_dead_band (sampleEnv 64 1000 true) (sampleEnv_floatOrder 64 1000 true)
      (filterDev 150 eLiveSpeed.ePosMaxCorrection) 14500 (by decide) (by decide)).1
        ⟨by decide, by decide⟩).1 (Or.inr (Or.inl rfl))⟩,
   ⟨by decide,
    ((C19_dead_band (sampleEnv 64 1000 true) (sampleEnv_floatOrder 64 1000 true)
      (filterDev 130 eLiveSpeed.eNegCorrection) 12700 (by decide) (by decide)).2
        ⟨by decide, by decide⟩).1 (Or.inl rfl)⟩⟩

/-- The calls of an evaluation: the clock scale of the new level is set. -/
theorem latencyEvaluate_trace (env : Env) (s : Dev) :
    (latencyEvaluate env s).trace =
      s.trace ++ [Call.SetClockScale (s_liveSpeeds (latencyEvaluate env s).m_liveSpeed)] := by
  rw [latencyEvaluate_eq]
  show (updateLiveSpeed env _ _).trace ++ _ = _
  rw [updateLiveSpeed_trace]
  split_ifs <;> rfl

/-- Queries set no clock scale. -/
theorem clockScales_queries (t l : List Call) (h : ∀ c ∈ l, c.isQuery = true) :
    clockScales (t ++ l) = clockScales t := by
  unfold clockScales
  rw [List.filterMap_append]
  have : l.filterMap Call.clockScale = [] := by
    rw [List.filterMap_eq_nil_iff]
    intro c hc
    have hq := h c hc
    cases c <;> first | rfl | simp [Call.isQuery] at hq
  rw [this, List.append_nil]

/-- The two queries of an `UpdateLatency` call set no clock scale. -/
theorem clockScales_afterQueries (env : Env) (s : Dev) :
    clockScales (afterQueries env s).trace = clockScales s.trace := by
  have : (afterQueries env s).trace = s.trace ++
      [Call.IsClockRunning (env.IsClockRunning s.trace), Call.GetSTC (latencyStc env s)] := by
    simp [afterQueries, Dev.emit]
  rw [this]
  exact clockScales_queries _ _ (by simp [Call.isQuery])

/-- While the sample counter stays below `LATENCY_FILTER_SIZE - 1`, a sequence
of `UpdateLatency` calls counts the accepted samples and does nothing else to
the level, the target and the clock scale. -/
theorem updateAll_counting (env : Env) (ptss : List Int) :
    ∀ s : Dev, s.m_liveSpeed = eLiveSpeed.eNoCorrection → s.m_latencyTarget = 0 →
      s.m_latencySamples + (acceptedCount env s ptss : Int) ≤
        (env.LATENCY_FILTER_SIZE : Int) - 1 →
      (updateAll env s ptss).m_liveSpeed = eLiveSpeed.eNoCorrection ∧
      (updateAll env s ptss).m_latencyTarget = 0 ∧
      (updateAll env s ptss).m_latencySamples =
        s.m_latencySamples + (acceptedCount env s ptss : Int) ∧
      clockScales (updateAll env s ptss).trace = clockScales s.trace := by
  induction ptss with
  | nil =>
    intro s hl ht _
    exact ⟨hl, ht, by simp [updateAll, acceptedCount], rfl⟩
  | cons pts rest ih =>
    intro s hl ht hn
    by_cases hacc : sampleAccepted env s pts = true
    · have hcount : acceptedCount env s (pts :: rest) =
          1 + acceptedCount env (UpdateLatency env s pts) rest := by
        simp [acceptedCount, hacc]
      rw [hcount] at hn ⊢
      have hnf : ¬ windowFull env s := by
        unfold windowFull
        rw [not_not]
        push_cast at hn
        omega
      have hstep := UpdateLatency_counted env s pts hacc hnf
      have h1 : (UpdateLatency env s pts).m_liveSpeed = eLiveSpeed.eNoCorrection := by
        rw [hstep]; exact hl
      have h2 : (UpdateLatency env s pts).m_latencyTarget = 0 := by
        rw [hstep]; exact ht
      have h3 : (UpdateLatency env s pts).m_latencySamples = s.m_latencySamples + 1 := by
        rw [hstep]
      have h4 : clockScales (UpdateLatency env s pts).trace = clockScales s.trace := by
        rw [hstep]; exact clockScales_afterQueries env s
      obtain ⟨r1, r2, r3, r4⟩ := ih (UpdateLatency env s pts) h1 h2
        (by rw [h3]; push_cast at hn ⊢; omega)
      refine ⟨r1, r2, ?_, r4.trans h4⟩
      show (updateAll env (UpdateLatency env s pts) rest).m_latencySamples = _
      rw [r3, h3]
      push_cast
      omega
    · rw [Bool.not_eq_true] at hacc
      have hcount : acceptedCount env s (pts :: rest) =
          acceptedCount env (UpdateLatency env s pts) rest := by
        simp [acceptedCount, hacc]
      rw [hcount] at hn ⊢
      obtain ⟨l, hstep, hq⟩ := UpdateLatency_rejected env s pts hacc
      have h1 : (UpdateLatency env s pts).m_liveSpeed = eLiveSpeed.eNoCorrection := by
        rw [hstep]; exact hl
      have h2 : (UpdateLatency env s pts).m_latencyTarget = 0 := by
        rw [hstep]; exact ht
      have h3 : (UpdateLatency env s pts).m_latencySamples = s.m_latencySamples := by
        rw [hstep]
      have h4 : clockScales (UpdateLatency env s pts).trace = clockScales s.trace := by
        rw [hstep]; exact clockScales_queries _ _ hq
      obtain ⟨r1, r2, r3, r4⟩ := ih (UpdateLatency env s pts) h1 h2 (by rw [h3]; exact hn)
      refine ⟨r1, r2, ?_, r4.trans h4⟩
      show (updateAll env (UpdateLatency env s pts) rest).m_latencySamples = _
      rw [r3, h3]

/-- C18: after `ResetLatency`, `UpdateLatency` takes no corrective action until
the filter window has filled after the pre-roll. As long as a sequence of
calls has accepted at most `LATENCY_FILTER_SIZE - 1 + LATENCY_FILTER_PREROLL`
samples, the correction level is NoCorrection, the target is 0 and no
`SetClockScale` call has been issued; and once exactly that many samples have
been accepted, the next accepted sample is evaluated: the target is computed
from the mean of its window and the clock scale of the resulting level is
set. -/
theorem C18_no_action_before_window (env : Env) (s : Dev) (ptss : List Int)
    (h : (acceptedCount env (ResetLatency env s) ptss : Int) ≤
      (env.LATENCY_FILTER_SIZE : Int) - 1 + env.LATENCY_FILTER_PREROLL) :
    (updateAll env (ResetLatency env s) ptss).m_liveSpeed = eLiveSpeed.eNoCorrection ∧
    (updateAll env (ResetLatency env s) ptss).m_latencyTarget = 0 ∧
    clockScales (updateAll env (ResetLatency env s) ptss).trace = clockScales s.trace ∧
    ((acceptedCount env (ResetLatency env s) ptss : Int) =
        (env.LATENCY_FILTER_SIZE : Int) - 1 + env.LATENCY_FILTER_PREROLL →
      ∀ pts : Int, sampleAccepted env (updateAll env (ResetLatency env s) ptss) pts = true →
        (UpdateLatency env (updateAll env (ResetLatency env s) ptss) pts).m_latencyTarget =
          env.floatMulToInt FloatLit.f1_4
            (pushedMean env (updateAll env (ResetLatency env s) ptss) pts) ∧
        clockScales (UpdateLatency env (updateAll env (ResetLatency env s) ptss) pts).trace =
          clockScales s.trace ++
            [s_liveSpeeds
              (UpdateLatency env (updateAll env (ResetLatency env s) ptss) pts).m_liveSpeed]) := by
  have hn : (ResetLatency env s).m_latencySamples +
      (acceptedCount env (ResetLatency env s) ptss : Int) ≤
        (env.LATENCY_FILTER_SIZE : Int) - 1 := by
    show -env.LATENCY_FILTER_PREROLL + _ ≤ _
    omega
  obtain ⟨r1, r2, r3, r4⟩ := updateAll_counting env ptss (ResetLatency env s) rfl rfl hn
  refine ⟨r1, r2, r4, fun hc pts hacc => ?_⟩
  have hfull : windowFull env (updateAll env (ResetLatency env s) ptss) := by
    unfold windowFull
    rw [r3]
    show ¬ (-env.LATENCY_FILTER_PREROLL + _ < _)
    omega
  rw [UpdateLatency_evaluated env _ pts hacc hfull, latencyEvaluate_target, latencyEvaluate_trace]
  constructor
  · exact if_pos r2
  · unfold clockScales at r4 ⊢
    rw [List.filterMap_append]
    have hq := clockScales_afterQueries env (updateAll env (ResetLatency env s) ptss)
    unfold clockScales at hq
    show List.filterMap Call.clockScale (afterQueries env _).trace ++ _ = _
    rw [hq, r4]
    rfl

set_option maxRecDepth 100000 in
/-- C18 (witness): after `ResetLatency`, 71 calls with accepted samples (8 - 1
+ 64) take no action, and the 72nd is evaluated: it sets the target to 1.4
times the mean 100 of its window. -/
theorem C18_no_action_before_window_witness :
    ((acceptedCount (sampleEnv 64 1000 true)
        (ResetLatency (sampleEnv 64 1000 true) (freshDev (sampleEnv 64 1000 true)))
        (List.replicate 71 10000) : Nat) : Int) =
      (((sampleEnv 64 1000 true).LATENCY_FILTER_SIZE : Nat) : Int) - 1 +
        (sampleEnv 64 1000 true).LATENCY_FILTER_PREROLL ∧
    (updateAll (sampleEnv 64 1000 true)
      (ResetLatency (sampleEnv 64 1000 true) (freshDev (sampleEnv 64 1000 true)))
      (List.replicate 71 10000)).m_latencyTarget = 0 ∧
    clockScales (updateAll (sampleEnv 64 1000 true)
      (ResetLatency (sampleEnv 64 1000 true) (freshDev (sampleEnv 64 1000 true)))
      (List.replicate 71 10000)).trace = [] ∧
    (UpdateLatency (sampleEnv 64 1000 true) (updateAll (sampleEnv 64 1000 true)
      (ResetLatency (sampleEnv 64 1000 true) (freshDev (sampleEnv 64 1000 true)))
      (List.replicate 71 10000)) 10000).m_latencyTarget = 140 :=
  ⟨by decide,
    (C18_no_action_before_window (sampleEnv 64 1000 true) (freshDev (sampleEnv 64 1000 true))
      (List.replicate 71 10000) (by decide)).2.1,
    (C18_no_action_before_window (sampleEnv 64 1000 true) (freshDev (sampleEnv 64 1000 true))
      (List.replicate 71 10000) (by decide)).2.2.1,
    (((C18_no_action_before_window (sampleEnv 64 1000 true)
      (freshDev (sampleEnv 64 1000 true)) (List.replicate 71 10000) (by decide)).2.2.2
        (by decide) 10000 (by decide)).1).trans (by decide)⟩

set_option maxRecDepth 100000 in
/-- C16 (counterexample): after `ResetLatency`, 72 calls with samples of 0 ms
(the clock is 1 tick behind the timestamp). The 72nd call evaluates the first
full window (it sets the clock scale) and computes the target 1.4 * 0 = 0; the
next call, with a sample of 800 ms, finds the target 0 and computes it again,
from the second window: the target changes from 0 to 140. -/
theorem C16_counterexample :
    clockScales (updateAll (sampleEnv 64 1000 true)
      (ResetLatency (sampleEnv 64 1000 true) (freshDev (sampleEnv 64 1000 true)))
      (List.replicate 71 1001)).trace = [] ∧
    clockScales (updateAll (sampleEnv 64 1000 true)
      (ResetLatency (sampleEnv 64 1000 true) (freshDev (sampleEnv 64 1000 true)))
      (List.replicate 72 1001)).trace = [65536] ∧
    (updateAll (sampleEnv 64 1000 true)
      (ResetLatency (sampleEnv 64 1000 true) (freshDev (sampleEnv 64 1000 true)))
      (List.replicate 72 1001)).m_latencyTarget = 0 ∧
    (UpdateLatency (sampleEnv 64 1000 true) (updateAll (sampleEnv 64 1000 true)
      (ResetLatency (sampleEnv 64 1000 true) (freshDev (sampleEnv 64 1000 true)))
      (List.replicate 72 1001)) 73000).m_latencyTarget = 140 := by
  decide

/-- The target after an `UpdateLatency` call: computed from the mean of the
window when the call is evaluated and finds the target 0, and the same as
before otherwise. -/
theorem UpdateLatency_target (env : Env) (s : Dev) (pts : Int) :
    (UpdateLatency env s pts).m_latencyTarget =
      if sampleAccepted env s pts = true ∧ windowFull env s ∧ s.m_latencyTarget = 0 then
        env.floatMulToInt FloatLit.f1_4 (pushedMean env s pts)
      else s.m_latencyTarget := by
  by_cases hacc : sampleAccepted env s pts = true
  · by_cases hf : windowFull env s
    · have e : (latencyEvaluate env
          { (afterQueries env s) with m_latency := pushedWindow env s pts }).m_latencyTarget =
          if s.m_latencyTarget = 0 then env.floatMulToInt FloatLit.f1_4 (pushedMean env s pts)
          else s.m_latencyTarget := latencyEvaluate_target env _
      rw [UpdateLatency_evaluated env s pts hacc hf, e]
      by_cases h0 : s.m_latencyTarget = 0
      · rw [if_pos h0, if_pos ⟨hacc, hf, h0⟩]
      · rw [if_neg h0, if_neg (fun h => h0 h.2.2)]
    · rw [UpdateLatency_counted env s pts hacc hf, if_neg (fun h => hf h.2.1)]
      rfl
  · rw [if_neg (fun h => hacc h.1)]
    rw [Bool.not_eq_true] at hacc
    obtain ⟨l, hstep, _⟩ := UpdateLatency_rejected env s pts hacc
    rw [hstep]

/-- A target that is not 0 survives every sequence of `UpdateLatency` calls. -/
theorem updateAll_target (env : Env) (ptss : List Int) :
    ∀ s : Dev, s.m_latencyTarget ≠ 0 →
      (updateAll env s ptss).m_latencyTarget = s.m_latencyTarget := by
  induction ptss with
  | nil => intro s _; rfl
  | cons pts rest ih =>
    intro s h
    have h1 : (UpdateLatency env s pts).m_latencyTarget = s.m_latencyTarget := by
      rw [UpdateLatency_target, if_neg (fun hc => h hc.2.2)]
    exact (ih (UpdateLatency env s pts) (by rw [h1]; exact h)).trans h1

/-- C16 (amended): `ResetLatency` sets the target to 0; an `UpdateLatency` call
changes the target only when it is evaluated (its sample is accepted and the
window is full) and finds the target 0, and then it sets the target to 1.4
times the mean of its window; and once the target is not 0, every later
`UpdateLatency` call leaves `m_latencyTarget` unchanged, for every sequence of
samples. So the target is fixed by the first evaluated window whose 1.4-fold
mean is not 0. -/
theorem C16_target_fixed_when_nonzero (env : Env) (s : Dev) :
    (ResetLatency env s).m_latencyTarget = 0 ∧
    (∀ pts : Int, sampleAccepted env s pts = true → windowFull env s → s.m_latencyTarget = 0 →
      (UpdateLatency env s pts).m_latencyTarget =
        env.floatMulToInt FloatLit.f1_4 (pushedMean env s pts)) ∧
    (∀ pts : Int, (UpdateLatency env s pts).m_latencyTarget ≠ s.m_latencyTarget →
      sampleAccepted env s pts = true ∧ windowFull env s ∧ s.m_latencyTarget = 0) ∧
    (∀ ptss : List Int, s.m_latencyTarget ≠ 0 →
      (updateAll env s ptss).m_latencyTarget = s.m_latencyTarget) := by
  refine ⟨rfl, fun pts hacc hf h0 => ?_, fun pts hne => ?_, fun ptss h => updateAll_target env ptss s h⟩
  · rw [UpdateLatency_target, if_pos ⟨hacc, hf, h0⟩]
  · by_contra hc
    rw [UpdateLatency_target, if_neg hc] at hne
    exact hne rfl

/-- C16 (witness): a device with a full window of samples of 100 ms and the
target 140 keeps the target over calls with samples of 140, 800 and 0 ms; and
the device of the counterexample, with the target 0 after its first
evaluation, computes the target 140 from the mean 100 of the next window. -/
theorem C16_target_fixed_when_nonzero_witness :
    (filterDev 100 eLiveSpeed.eNoCorrection).m_latencyTarget ≠ 0 ∧
    (updateAll (sampleEnv 64 1000 true) (filterDev 100 eLiveSpeed.eNoCorrection)
      [13600, 73000, 1001]).m_latencyTarget = 140 ∧
    (UpdateLatency (sampleEnv 64 1000 true)
      { (filterDev 0 eLiveSpeed.eNoCorrection) with m_latencyTarget := 0 } 73000).m_latencyTarget =
        140 :=
  ⟨by decide,
    (C16_target_fixed_when_nonzero (sampleEnv 64 1000 true)
      (filterDev 100 eLiveSpeed.eNoCorrection)).2.2.2 [13600, 73000, 1001] (by decide),
    ((C16_target_fixed_when_nonzero (sampleEnv 64 1000 true)
      { (filterDev 0 eLiveSpeed.eNoCorrection) with m_latencyTarget := 0 }).2.1 73000
        (by decide) (by decide) (by decide)).trans (by decide)⟩

/-! ## Theorems: skipped packets and the chunks of a video packet -/

/-- The first block of `PlayAudio` writes no audio data. -/
theorem playAudioStart_emits (env : Env) (s : Dev) (Id : Nat) :
    emitsOnly (fun c => c.isRestart = true) s (playAudioStart env s Id) := by
  unfold playAudioStart emitsOnly
  simp only
  split_ifs <;> (try simp only [Dev.emit, ResetLatency]) <;>
    repeat (first | exact traceExt_refl _ _ | refine traceExt_snoc ?_ rfl)

/-- The second block of `PlayAudio` only sets the clock scale. -/
theorem playAudioTrack_emits (s : Dev) (pts : Int) :
    emitsOnly (fun c => c.isLatency = true) s (playAudioTrack s pts) := by
  unfold playAudioTrack
  split_ifs
  · exact emitsOnly_trans (PtsTracker_emits s _) (emitsOnly_of_trace_eq _ rfl)
  · exact emitsOnly_of_trace_eq _ rfl
  · exact emitsOnly_refl _ _

/-- The calls of the restart block and of the latency filter are no audio
writes and no buffer calls. -/
theorem isAudioWrite_of_isRestart (c : Call) (h : c.isRestart = true) :
    c.isAudioWrite = false := by
  cases c <;> first | rfl | simp [Call.isRestart] at h

theorem isAudioWrite_of_isLatency (c : Call) (h : c.isLatency = true) :
    c.isAudioWrite = false := by
  cases c <;> first | rfl | simp [Call.isLatency, Call.isQuery] at h

/-- The blocks of `PlayAudio` before the write make no `WriteData` call. -/
theorem playAudioLatency_no_write (env : Env) (s : Dev) (Data : List Nat) (Id : Nat) :
    emitsOnly (fun c => c.isAudioWrite = false) s
      (playAudioLatency env (playAudioTrack (playAudioStart env s Id) (packetPts Data))
        (packetPts Data) Id) :=
  emitsOnly_trans
    (emitsOnly_mono (playAudioStart_emits env s Id) isAudioWrite_of_isRestart)
    (emitsOnly_trans
      (emitsOnly_mono (playAudioTrack_emits _ _) isAudioWrite_of_isLatency)
      (emitsOnly_mono (playAudioLatency_emits env _ _ Id) isAudioWrite_of_isLatency))

/-- The submission loop does nothing when no payload is left. -/
theorem playVideoSubmit_nonpos (env : Env) (fuel : Nat) (s : Dev) (Data : List Nat)
    (Length pts : Int) (EndOfFrame : Bool) (ret : Int) (h : Length ≤ 0) :
    playVideoSubmit env fuel s Data Length pts EndOfFrame ret = (s, some ret) := by
  cases fuel with
  | zero =>
    rw [playVideoSubmit]
    exact if_neg (not_lt.2 h)
  | succ n =>
    rw [playVideoSubmit_succ]
    exact if_neg (not_lt.2 h)

/-- C14: for every audio or video packet whose length minus its PES payload
offset is not positive, the packet is silently skipped: `PlayAudio` makes no
`WriteData` call and `PlayVideo` acquires and submits no decoder buffer, and
each returns the packet's full `Length` as consumed (`PlayVideo` returns
whatever the fuel of its loop is). -/
theorem C14_empty_payload_skipped (env : Env) (fuel : Nat) (s : Dev) (Data : List Nat)
    (Length : Int) (Id : Nat) (EndOfFrame : Bool)
    (h : Length - (PesPayloadOffset Data : Int) ≤ 0) :
    (PlayAudio env s Data Length Id).2 = Length ∧
    emitsOnly (fun c => c.isAudioWrite = false) s (PlayAudio env s Data Length Id).1 ∧
    (PlayVideo env fuel s Data Length EndOfFrame).2 = some Length ∧
    emitsOnly (fun c => c.isVideoBuffer = false) s
      (PlayVideo env fuel s Data Length EndOfFrame).1 := by
  have hw : ∀ (t : Dev) (pts : Int), playAudioWrite env t Data Length Id pts = (t, Length) := by
    intro t pts
    unfold playAudioWrite
    exact if_neg (not_lt.2 h)
  have ha : PlayAudio env s Data Length Id =
      (playAudioLatency env (playAudioTrack (playAudioStart env s Id) (packetPts Data))
        (packetPts Data) Id, Length) := by
    unfold PlayAudio
    exact hw _ _
  have hv := PlayVideo_eq env fuel s Data Length EndOfFrame
  rw [playVideoSubmit_nonpos env fuel _ _ _ _ _ _ h] at hv
  refine ⟨by rw [ha], by rw [ha]; exact playAudioLatency_no_write env s Data Id, ?_, ?_⟩
  · rw [hv]
    split_ifs <;> rfl
  · rw [hv]
    split_ifs
    · exact (playVideoHead_track_emits env s Data Length).2
    · exact (playVideoHead_track_emits env s Data Length).1

/-- C14 (witness): a PES packet of 14 bytes, all of them header, in a device
that is presenting video: both calls return 14, `PlayAudio` writes nothing and
`PlayVideo` submits nothing. -/
theorem C14_empty_payload_skipped_witness :
    (14 : Int) - (PesPayloadOffset (videoPes 3000 []) : Int) ≤ 0 ∧
    (PlayAudio (sampleEnv 64 0 false) (presentingVideo (sampleEnv 64 0 false))
      (videoPes 3000 []) 14 0xc0).2 = 14 ∧
    (PlayVideo (sampleEnv 64 0 false) 0 (presentingVideo (sampleEnv 64 0 false))
      (videoPes 3000 []) 14 true).2 = some 14 ∧
    submissions (PlayVideo (sampleEnv 64 0 false) 0 (presentingVideo (sampleEnv 64 0 false))
      (videoPes 3000 []) 14 true).1.trace =
        submissions (presentingVideo (sampleEnv 64 0 false)).trace :=
  ⟨by decide,
    (C14_empty_payload_skipped (sampleEnv 64 0 false) 0 (presentingVideo (sampleEnv 64 0 false))
      (videoPes 3000 []) 14 0xc0 true (by decide)).1,
    (C14_empty_payload_skipped (sampleEnv 64 0 false) 0 (presentingVideo (sampleEnv 64 0 false))
      (videoPes 3000 []) 14 0xc0 true (by decide)).2.2.1,
    by decide⟩

/-- The buffer that one iteration of the loop fills is the chunk of the
specification. -/
theorem fillVideoBuffer_specChunk (nAllocLen : Nat) (Data : List Nat) (Length : Int)
    (EndOfFrame : Bool) (hL : Length > 0) :
    fillVideoBuffer nAllocLen Data Length EndOfFrame =
      specChunk nAllocLen Data Length.toNat EndOfFrame := by
  unfold fillVideoBuffer specChunk
  simp only
  by_cases h : (nAllocLen : Int) < Length
  · have hm : min nAllocLen Length.toNat = nAllocLen := by omega
    have hd : decide (Length - (nAllocLen : Int) = 0) = decide (Length.toNat - nAllocLen = 0) := by
      have h1 : ¬ (Length - (nAllocLen : Int) = 0) := by omega
      have h2 : ¬ (Length.toNat - nAllocLen = 0) := by omega
      rw [decide_eq_false h1, decide_eq_false h2]
    rw [if_pos h, hm, hd]
  · have hm : min nAllocLen Length.toNat = Length.toNat := by omega
    have hd : decide (Length - ((Length.toNat : Nat) : Int) = 0) =
        decide (Length.toNat - Length.toNat = 0) := by
      have h1 : Length - ((Length.toNat : Nat) : Int) = 0 := by omega
      have h2 : Length.toNat - Length.toNat = 0 := by omega
      rw [decide_eq_true h1, decide_eq_true h2]
    rw [if_neg h, hm, hd]

/-- No chunks are made of no payload. -/
theorem specChunks_zero (caps : List Nat) (payload : List Nat) (EndOfFrame : Bool) :
    specChunks caps payload 0 EndOfFrame = [] := by
  cases caps <;> simp [specChunks]

/-- The flags of one more chunk in front of at least one chunk. -/
theorem eofFlags_cons (n : Nat) (EndOfFrame : Bool) (h : 0 < n) :
    false :: eofFlags n EndOfFrame = eofFlags (n + 1) EndOfFrame := by
  cases n with
  | zero => exact absurd h (lt_irrefl 0)
  | succ m => simp [eofFlags, List.replicate_succ]

/-- The buffers that a completed run of the submission loop has submitted are
the chunks of the specification for the capacities it has acquired; their
sizes add up to the length of the payload, their concatenation is the payload,
and the final one carries the end of frame flag of the packet. -/
theorem playVideoSubmit_chunks (env : Env) (fuel : Nat) :
    ∀ (s : Dev) (Data : List Nat) (Length pts : Int) (EndOfFrame : Bool) (ret : Int)
      (l : List Call),
      (playVideoSubmit env fuel s Data Length pts EndOfFrame ret).1.trace = s.trace ++ l →
      (playVideoSubmit env fuel s Data Length pts EndOfFrame ret).2 ≠ none →
      (∀ c ∈ l, c.isFailure = false) →
      submissions l =
        (specChunks (acquisitions l) Data Length.toNat EndOfFrame).map some ∧
      ((specChunks (acquisitions l) Data Length.toNat EndOfFrame).map
        OmxBuffer.nFilledLen).sum = Length.toNat ∧
      ((specChunks (acquisitions l) Data Length.toNat EndOfFrame).map
        OmxBuffer.pBuffer).flatten = Data.take Length.toNat ∧
      (specChunks (acquisitions l) Data Length.toNat EndOfFrame).map OmxBuffer.endOfFrame =
        eofFlags (specChunks (acquisitions l) Data Length.toNat EndOfFrame).length
          EndOfFrame := by
  induction fuel with
  | zero =>
    intro s Data Length pts EndOfFrame ret l htrace hret _
    rw [playVideoSubmit] at htrace hret
    by_cases hL : Length > 0
    · rw [if_pos hL] at hret
      exact absurd rfl hret
    · rw [if_neg hL] at htrace
      have hl : l = [] := List.self_eq_append_right.mp htrace
      have h0 : Length.toNat = 0 := by omega
      subst hl
      rw [h0]
      simp [submissions, acquisitions, specChunks, eofFlags]
  | succ n ih =>
    intro s Data Length pts EndOfFrame ret l htrace hret hok
    rw [playVideoSubmit_succ] at htrace hret
    by_cases hL : Length > 0
    · rw [if_pos hL] at htrace hret
      cases hbuf : env.GetVideoBuffer s.trace pts with
      | none =>
        rw [hbuf] at htrace
        have hl : l = [Call.GetVideoBuffer pts none] :=
          (List.append_cancel_left htrace).symm
        have := hok (Call.GetVideoBuffer pts none) (by rw [hl]; simp)
        simp [Call.isFailure] at this
      | some nAllocLen =>
        rw [hbuf] at htrace hret
        simp only at htrace hret
        have hst : (submitState env s pts nAllocLen Data Length EndOfFrame).trace =
            s.trace ++ [Call.GetVideoBuffer pts (some nAllocLen),
              Call.EmptyVideoBuffer (some (fillVideoBuffer nAllocLen Data Length EndOfFrame))
                (submitRes env s pts nAllocLen Data Length EndOfFrame)] := by
          simp [submitState, Dev.emit]
        by_cases hres : submitRes env s pts nAllocLen Data Length EndOfFrame = true
        · rw [hres] at htrace hret hst
          simp only [Bool.not_true, Bool.false_eq_true, if_false] at htrace hret
          obtain ⟨l', hl', _⟩ := playVideoSubmit_outcome env n
            (submitState env s pts nAllocLen Data Length EndOfFrame)
            (Data.drop (fillVideoBuffer nAllocLen Data Length EndOfFrame).nFilledLen)
            (Length - ((fillVideoBuffer nAllocLen Data Length EndOfFrame).nFilledLen : Int))
            0 EndOfFrame ret
          have hl : l = [Call.GetVideoBuffer pts (some nAllocLen),
              Call.EmptyVideoBuffer (some (fillVideoBuffer nAllocLen Data Length EndOfFrame))
                true] ++ l' := by
            have e := htrace.symm.trans hl'
            rw [hst, List.append_assoc] at e
            exact List.append_cancel_left e
          have hok' : ∀ c ∈ l', c.isFailure = false := fun c hc =>
            hok c (by rw [hl]; exact List.mem_append_right _ hc)
          obtain ⟨i1, i2, i3, i4⟩ := ih _ _ _ _ _ _ l' hl' hret hok'
          rw [fillVideoBuffer_specChunk nAllocLen Data Length EndOfFrame hL] at hl i1 i2 i3 i4
          have hn : (specChunk nAllocLen Data Length.toNat EndOfFrame).nFilledLen =
              min nAllocLen Length.toNat := rfl
          have hrem : (Length - ((min nAllocLen Length.toNat : Nat) : Int)).toNat =
              Length.toNat - min nAllocLen Length.toNat := by omega
          rw [hn, hrem] at i1 i2 i3 i4
          have hacq : acquisitions l = nAllocLen :: acquisitions l' := by
            rw [hl]; rfl
          have hsub : submissions l =
              some (specChunk nAllocLen Data Length.toNat EndOfFrame) :: submissions l' := by
            rw [hl]; rfl
          have hne : Length.toNat ≠ 0 := by omega
          have hsc : specChunks (acquisitions l) Data Length.toNat EndOfFrame =
              specChunk nAllocLen Data Length.toNat EndOfFrame ::
                specChunks (acquisitions l') (Data.drop (min nAllocLen Length.toNat))
                  (Length.toNat - min nAllocLen Length.toNat) EndOfFrame := by
            rw [hacq, specChunks, if_neg hne]
          rw [hsc, hsub]
          refine ⟨by rw [i1]; rfl, ?_, ?_, ?_⟩
          · rw [List.map_cons, List.sum_cons, i2, hn]
            omega
          · rw [List.map_cons, List.flatten_cons, i3]
            show Data.take (min nAllocLen Length.toNat) ++ _ = _
            rw [← List.take_add]
            congr 1
            omega
          · rw [List.map_cons, List.length_cons, i4]
            by_cases hz : Length.toNat - min nAllocLen Length.toNat = 0
            · rw [hz, specChunks_zero]
              simp [specChunk, eofFlags, hz]
            · have hpos : 0 < (specChunks (acquisitions l')
                  (Data.drop (min nAllocLen Length.toNat))
                  (Length.toNat - min nAllocLen Length.toNat) EndOfFrame).length := by
                by_contra hc
                have hnil := List.length_eq_zero.mp (Nat.eq_zero_of_not_pos hc)
                rw [hnil] at i2
                simp at i2
                omega
              rw [← eofFlags_cons _ _ hpos]
              simp [specChunk, hz]
        · rw [Bool.not_eq_true] at hres
          rw [hres] at htrace hst
          simp only [Bool.not_false, if_true] at htrace
          have hl : l = [Call.GetVideoBuffer pts (some nAllocLen),
              Call.EmptyVideoBuffer (some (fillVideoBuffer nAllocLen Data Length EndOfFrame))
                false] := by
            rw [hst] at htrace
            exact (List.append_cancel_left htrace).symm
          have := hok (Call.EmptyVideoBuffer
            (some (fillVideoBuffer nAllocLen Data Length EndOfFrame)) false) (by rw [hl]; simp)
          simp [Call.isFailure] at this
    · rw [if_neg hL] at htrace
      have hl : l = [] := List.self_eq_append_right.mp htrace
      have h0 : Length.toNat = 0 := by omega
      subst hl
      rw [h0]
      simp [submissions, acquisitions, specChunks, eofFlags]

/-- A call outside the submission loop acquires no buffer. -/
theorem acquisitions_of_not_isVideoBuffer (l : List Call)
    (h : ∀ c ∈ l, c.isVideoBuffer = false) : acquisitions l = [] := by
  unfold acquisitions
  rw [List.filterMap_eq_nil_iff]
  intro c hc
  have hv := h c hc
  cases c <;> first | rfl | simp [Call.isVideoBuffer] at hv

/-- Whether video is present when `PlayVideo` is done is decided before the
submission loop. -/
theorem PlayVideo_hasVideo (env : Env) (fuel : Nat) (s : Dev) (Data : List Nat) (Length : Int)
    (EndOfFrame : Bool) :
    (PlayVideo env fuel s Data Length EndOfFrame).1.m_hasVideo =
      (playVideoHead env s Data Length).m_hasVideo := by
  rw [PlayVideo_eq]
  split_ifs
  · exact (congrArg Playback.hasVideo (playVideoSubmit_playback env fuel _ _ _ _ _ _)).trans
      (playVideoTrack_flags env _ _).2
  · rfl

/-- C20: for every video packet that `PlayVideo` submits completely (video is
present, the call returns, and every buffer is acquired and accepted), the
submitted buffers are the chunks of the specification for the capacities of
the acquired buffers: each chunk's size is the lesser of the buffer capacity
and the remaining payload, the sizes add up to the payload length, the chunks
concatenated in order equal the payload (the `Length` minus offset bytes after
the PES payload offset; all bytes after the offset when `Length` is the length
of the packet), and the end-of-frame flag is `EndOfFrame` on the final chunk
and false on every chunk before it. -/
theorem C20_PlayVideo_chunks (env : Env) (fuel : Nat) (s : Dev) (Data : List Nat)
    (Length : Int) (EndOfFrame : Bool) (l : List Call)
    (hvideo : (PlayVideo env fuel s Data Length EndOfFrame).1.m_hasVideo = true)
    (htrace : (PlayVideo env fuel s Data Length EndOfFrame).1.trace = s.trace ++ l)
    (hret : (PlayVideo env fuel s Data Length EndOfFrame).2 ≠ none)
    (hok : ∀ c ∈ l, c.isFailure = false) :
    submissions l =
      (specChunks (acquisitions l) (Data.drop (PesPayloadOffset Data))
        (Length - (PesPayloadOffset Data : Int)).toNat EndOfFrame).map some ∧
    ((specChunks (acquisitions l) (Data.drop (PesPayloadOffset Data))
      (Length - (PesPayloadOffset Data : Int)).toNat EndOfFrame).map
        OmxBuffer.nFilledLen).sum = (Length - (PesPayloadOffset Data : Int)).toNat ∧
    ((specChunks (acquisitions l) (Data.drop (PesPayloadOffset Data))
      (Length - (PesPayloadOffset Data : Int)).toNat EndOfFrame).map
        OmxBuffer.pBuffer).flatten =
      (Data.drop (PesPayloadOffset Data)).take (Length - (PesPayloadOffset Data : Int)).toNat ∧
    (Length = (Data.length : Int) →
      ((specChunks (acquisitions l) (Data.drop (PesPayloadOffset Data))
        (Length - (PesPayloadOffset Data : Int)).toNat EndOfFrame).map
          OmxBuffer.pBuffer).flatten = Data.drop (PesPayloadOffset Data)) ∧
    (specChunks (acquisitions l) (Data.drop (PesPayloadOffset Data))
      (Length - (PesPayloadOffset Data : Int)).toNat EndOfFrame).map OmxBuffer.endOfFrame =
      eofFlags (specChunks (acquisitions l) (Data.drop (PesPayloadOffset Data))
        (Length - (PesPayloadOffset Data : Int)).toNat EndOfFrame).length EndOfFrame := by
  rw [PlayVideo_hasVideo] at hvideo
  rw [PlayVideo_eq, if_pos hvideo] at htrace hret
  obtain ⟨l0, e0, p0⟩ := (playVideoHead_track_emits env s Data Length).2
  obtain ⟨l1, e1, _⟩ := playVideoSubmit_outcome env fuel
    (playVideoTrack env (playVideoHead env s Data Length) (packetPts Data))
    (Data.drop (PesPayloadOffset Data)) (Length - PesPayloadOffset Data) (packetPts Data)
    EndOfFrame Length
  have hl : l = l0 ++ l1 := by
    have e := htrace.symm.trans e1
    rw [e0, List.append_assoc] at e
    exact List.append_cancel_left e
  have hok1 : ∀ c ∈ l1, c.isFailure = false := fun c hc =>
    hok c (by rw [hl]; exact List.mem_append_right _ hc)
  have hsub : submissions l = submissions l1 := by
    rw [hl]
    unfold submissions
    rw [List.filterMap_append]
    have := submissions_of_not_isVideoBuffer l0 p0
    unfold submissions at this
    rw [this, List.nil_append]
  have hacq : acquisitions l = acquisitions l1 := by
    rw [hl]
    unfold acquisitions
    rw [List.filterMap_append]
    have := acquisitions_of_not_isVideoBuffer l0 p0
    unfold acquisitions at this
    rw [this, List.nil_append]
  obtain ⟨i1, i2, i3, i4⟩ := playVideoSubmit_chunks env fuel _ _ _ _ _ _ l1 e1 hret hok1
  rw [hsub, hacq]
  refine ⟨i1, i2, i3, fun hlen => ?_, i4⟩
  rw [i3]
  apply List.take_of_length_le
  rw [List.length_drop]
  omega

/-- C20 (witness): a device that is presenting video, a decoder with buffers of
4 bytes, and a packet with a payload of 10 bytes that ends a frame: the chunks
are 4, 4 and 2 bytes, and the third one carries the end-of-frame flag. -/
theorem C20_PlayVideo_chunks_witness :
    (PlayVideo (sampleEnv 4 0 false) 3 (presentingVideo (sampleEnv 4 0 false))
      (videoPes 3000 [10, 11, 12, 13, 14, 15, 16, 17, 18, 19]) 24 true).2 = some 24 ∧
    submissions chunkedCalls =
      (specChunks [4, 4, 4] [10, 11, 12, 13, 14, 15, 16, 17, 18, 19] 10 true).map some :=
  ⟨by decide,
    (C20_PlayVideo_chunks (sampleEnv 4 0 false) 3 (presentingVideo (sampleEnv 4 0 false))
      (videoPes 3000 [10, 11, 12, 13, 14, 15, 16, 17, 18, 19]) 24 true
      chunkedCalls
      (by decide) (by decide) (by decide) (by decide)).1⟩

/-! ## Theorems: the latency target is never negative -/

/-- The sample environment meets the assumptions on the platform. -/
theorem sampleEnv_filterEnv (cap : Nat) (stc : Int) (transferring : Bool) :
    FilterEnv (sampleEnv cap stc transferring) where
  preroll_nonneg := by
    show (0 : Int) ≤ 64
    decide
  target_nonneg := by
    intro a ha
    exact Int.tdiv_nonneg (by simp only [FloatLit.ratio]; omega) (by decide)

theorem filterInv_of_eq {s t : Dev} (e : t.filterState = s.filterState) (h : s.filterInv) :
    t.filterInv := by
  unfold Dev.filterInv
  rw [e]
  exact h

theorem cOmxDevice_filterInv (env : Env) (garbage : Nat → Int) :
    (cOmxDevice env garbage).filterInv :=
  ⟨le_refl _, fun i hi => absurd hi (by show ¬ ((i : Int) < 0); omega)⟩

theorem ResetLatency_filterInv (env : Env) (henv : FilterEnv env) (s : Dev) :
    (ResetLatency env s).filterInv :=
  ⟨le_refl _, fun i hi => absurd hi (by
    show ¬ ((i : Int) < -env.LATENCY_FILTER_PREROLL)
    have := henv.preroll_nonneg
    omega)⟩

/-- The entries of a pushed window that the counter counts are not negative. -/
theorem pushedWindow_nonneg (env : Env) (s : Dev) (pts : Int) (h : s.filterInv)
    (hacc : sampleAccepted env s pts = true) (i : Nat)
    (hi : (i : Int) < s.m_latencySamples + 1) :
    0 ≤ (pushedWindow env s pts).getD i 0 := by
  obtain ⟨_, _, _, hlt⟩ := (sampleAccepted_iff env s pts).1 hacc
  unfold pushedWindow
  cases i with
  | zero =>
    show 0 ≤ latencySample env s pts
    exact Int.tdiv_nonneg (by omega) (by decide)
  | succ j =>
    show 0 ≤ (s.m_latency.take (env.LATENCY_FILTER_SIZE - 1)).getD j 0
    by_cases hj : j < env.LATENCY_FILTER_SIZE - 1
    · rw [List.getD_eq_getElem?_getD, List.getElem?_take_of_lt hj, ← List.getD_eq_getElem?_getD]
      have h2 : ∀ k : Nat, (k : Int) < s.m_latencySamples → 0 ≤ s.m_latency.getD k 0 := h.2
      exact h2 j (by push_cast at hi; omega)
    · rw [List.getD_eq_getElem?_getD, List.getElem?_eq_none (by
        rw [List.length_take]; omega)]
      exact le_refl _

/-- The mean of a pushed window that is evaluated is not negative. -/
theorem pushedMean_nonneg (env : Env) (s : Dev) (pts : Int) (h : s.filterInv)
    (hacc : sampleAccepted env s pts = true) (hf : windowFull env s) :
    0 ≤ pushedMean env s pts := by
  unfold pushedMean windowMean
  refine Int.tdiv_nonneg (List.sum_nonneg ?_) (Int.ofNat_nonneg _)
  intro x hx
  obtain ⟨i, hi, rfl⟩ := List.getElem_of_mem hx
  rw [List.length_take] at hi
  rw [List.getElem_take]
  have hw := pushedWindow_nonneg env s pts h hacc i (by
    unfold windowFull at hf
    have : (i : Int) < env.LATENCY_FILTER_SIZE := by omega
    omega)
  rw [List.getD_eq_getElem?_getD, List.getElem?_eq_getElem (by omega)] at hw
  exact hw

/-- `UpdateLatency` keeps the invariant of the latency filter. -/
theorem UpdateLatency_filterInv (env : Env) (henv : FilterEnv env) (s : Dev) (pts : Int)
    (h : s.filterInv) : (UpdateLatency env s pts).filterInv := by
  by_cases hacc : sampleAccepted env s pts = true
  · by_cases hf : windowFull env s
    · refine ⟨?_, ?_⟩
      · show 0 ≤ (UpdateLatency env s pts).m_latencyTarget
        rw [UpdateLatency_target]
        by_cases h0 : s.m_latencyTarget = 0
        · rw [if_pos ⟨hacc, hf, h0⟩]
          exact henv.target_nonneg _ (pushedMean_nonneg env s pts h hacc hf)
        · rw [if_neg (fun hc => h0 hc.2.2)]
          exact h.1
      · intro i hi
        rw [UpdateLatency_evaluated env s pts hacc hf] at hi ⊢
        have e1 := latencyEvaluate_samples env
          { (afterQueries env s) with m_latency := pushedWindow env s pts }
        have e2 : (latencyEvaluate env
            { (afterQueries env s) with m_latency := pushedWindow env s pts }).m_latency =
            pushedWindow env s pts := by
          rw [latencyEvaluate_eq]
          show (updateLiveSpeed env _ _).m_latency = _
          rw [(updateLiveSpeed_window env _ _).1]
          split_ifs <;> rfl
        show 0 ≤ (latencyEvaluate env _).m_latency.getD i 0
        rw [e2]
        refine pushedWindow_nonneg env s pts h hacc i ?_
        have hi' : (i : Int) < (latencyEvaluate env
            { (afterQueries env s) with m_latency := pushedWindow env s pts }).m_latencySamples :=
          hi
        rw [e1] at hi'
        have hi2 : (i : Int) < s.m_latencySamples := hi'
        omega
    · rw [UpdateLatency_counted env s pts hacc hf]
      exact ⟨h.1, fun i hi => pushedWindow_nonneg env s pts h hacc i hi⟩
  · rw [Bool.not_eq_true] at hacc
    obtain ⟨l, hstep, _⟩ := UpdateLatency_rejected env s pts hacc
    rw [hstep]
    exact h

theorem FlushStreams_filterState (s : Dev) (flushVideoRender : Bool) :
    (FlushStreams s flushVideoRender).filterState = s.filterState := by
  unfold FlushStreams
  simp only [Dev.emit]
  split_ifs <;> rfl

theorem PtsTracker_filterState (s : Dev) (ptsDiff : Int) :
    (PtsTracker s ptsDiff).filterState = s.filterState := by
  unfold PtsTracker
  simp only
  split_ifs <;> rfl

theorem ResetLatency_ite_filterInv (env : Env) (henv : FilterEnv env) (b : Prop) [Decidable b]
    (t : Dev) (h : t.filterInv) : (if b then ResetLatency env t else t).filterInv := by
  split_ifs
  · exact ResetLatency_filterInv env henv t
  · exact h

theorem UpdateLatency_ite_filterInv (env : Env) (henv : FilterEnv env) (b : Prop) [Decidable b]
    (t : Dev) (pts : Int) (h : t.filterInv) :
    (if b then UpdateLatency env t pts else t).filterInv := by
  split_ifs
  · exact UpdateLatency_filterInv env henv t pts h
  · exact h

theorem playAudioStart_filterInv (env : Env) (henv : FilterEnv env) (s : Dev) (Id : Nat)
    (h : s.filterInv) : (playAudioStart env s Id).filterInv := by
  unfold playAudioStart
  by_cases ha : (!s.m_hasAudio) = true
  · rw [if_pos ha]
    refine ResetLatency_ite_filterInv env henv _ _ (filterInv_of_eq ?_ h)
    simp only [Dev.emit]
    split_ifs <;> rfl
  · rw [if_neg ha]
    exact h

theorem playAudioTrack_filterState (s : Dev) (pts : Int) :
    (playAudioTrack s pts).filterState = s.filterState := by
  unfold playAudioTrack
  split_ifs
  · exact PtsTracker_filterState s _
  · rfl
  · rfl

theorem playAudioLatency_filterInv (env : Env) (henv : FilterEnv env) (s : Dev) (pts : Int)
    (Id : Nat) (h : s.filterInv) : (playAudioLatency env s pts Id).filterInv := by
  have h1 : (s.emit (Call.Transferring (env.Transferring s.trace))).filterInv :=
    filterInv_of_eq rfl h
  have h2 : ({ (ResetLatency env (s.emit (Call.Transferring (env.Transferring s.trace)))) with
      m_audioId := Id } : Dev).filterInv :=
    filterInv_of_eq rfl (ResetLatency_filterInv env henv
      (s.emit (Call.Transferring (env.Transferring s.trace))))
  unfold playAudioLatency
  simp only
  split_ifs
  · exact UpdateLatency_filterInv env henv _ pts h2
  · exact UpdateLatency_filterInv env henv _ pts h1
  · exact h1

theorem playAudioWrite_filterState (env : Env) (s : Dev) (Data : List Nat) (Length : Int)
    (Id : Nat) (pts : Int) :
    (playAudioWrite env s Data Length Id pts).1.filterState = s.filterState := by
  unfold playAudioWrite
  simp only
  split_ifs <;> rfl

theorem PlayAudio_filterInv (env : Env) (henv : FilterEnv env) (s : Dev) (Data : List Nat)
    (Length : Int) (Id : Nat) (h : s.filterInv) :
    (PlayAudio env s Data Length Id).1.filterInv := by
  unfold PlayAudio
  simp only
  exact filterInv_of_eq (playAudioWrite_filterState env _ Data Length Id _)
    (playAudioLatency_filterInv env henv _ _ Id
      (filterInv_of_eq (playAudioTrack_filterState _ _)
        (playAudioStart_filterInv env henv s Id h)))

theorem playVideoCodecChange_filterState (env : Env) (s : Dev) (codec : eCodec) :
    (playVideoCodecChange env s codec).1.filterState = s.filterState := by
  unfold playVideoCodecChange
  simp only
  split_ifs <;> rfl

theorem playVideoRestart_filterInv (env : Env) (henv : FilterEnv env) (s : Dev)
    (videoRestart : Bool) (h : s.filterInv) :
    (playVideoRestart env s videoRestart).filterInv := by
  unfold playVideoRestart
  by_cases hv : videoRestart = true
  · rw [if_pos hv]
    refine ResetLatency_ite_filterInv env henv _ _ (filterInv_of_eq ?_ h)
    simp only [Dev.emit]
    split_ifs <;> rfl
  · rw [if_neg hv]
    exact h

theorem playVideoTrack_filterInv (env : Env) (henv : FilterEnv env) (s : Dev) (pts : Int)
    (h : s.filterInv) : (playVideoTrack env s pts).filterInv := by
  have hs1 : (if s.m_trickRequest ≠ 0 ∧ pts ≠ 0 ∧ s.m_videoPts ≠ 0 then
      PtsTracker s (PtsDiff s.m_videoPts pts) else s).filterInv := by
    split_ifs
    · exact filterInv_of_eq (PtsTracker_filterState s _) h
    · exact h
  unfold playVideoTrack
  simp only
  by_cases ha : (!(if s.m_trickRequest ≠ 0 ∧ pts ≠ 0 ∧ s.m_videoPts ≠ 0 then
      PtsTracker s (PtsDiff s.m_videoPts pts) else s).m_hasAudio) = true
  · rw [if_pos ha]
    exact UpdateLatency_ite_filterInv env henv _ _ pts (filterInv_of_eq rfl hs1)
  · rw [if_neg ha]
    exact hs1

theorem playVideoSubmit_filterState (env : Env) (fuel : Nat) :
    ∀ (s : Dev) (Data : List Nat) (Length pts : Int) (EndOfFrame : Bool) (ret : Int),
      (playVideoSubmit env fuel s Data Length pts EndOfFrame ret).1.filterState =
        s.filterState := by
  induction fuel with
  | zero =>
    intro s Data Length pts EndOfFrame ret
    unfold playVideoSubmit
    split_ifs <;> rfl
  | succ n ih =>
    intro s Data Length pts EndOfFrame ret
    rw [playVideoSubmit]
    by_cases hL : Length > 0
    · rw [if_pos hL]
      split
      · simp only
        split
        · rfl
        · rw [ih]; rfl
      · rfl
    · rw [if_neg hL]

theorem PlayVideo_filterInv (env : Env) (henv : FilterEnv env) (fuel : Nat) (s : Dev)
    (Data : List Nat) (Length : Int) (EndOfFrame : Bool) (h : s.filterInv) :
    (PlayVideo env fuel s Data Length EndOfFrame).1.filterInv := by
  have hh : (playVideoHead env s Data Length).filterInv :=
    playVideoRestart_filterInv env henv _ _
      (filterInv_of_eq (playVideoCodecChange_filterState env s _) h)
  rw [PlayVideo_eq]
  split_ifs
  · exact filterInv_of_eq (playVideoSubmit_filterState env fuel _ _ _ _ _ _)
      (playVideoTrack_filterInv env henv _ _ hh)
  · exact hh

theorem playVideoPacket_filterInv (env : Env) (henv : FilterEnv env) (fuel : Nat) (s : Dev)
    (data : List Nat) (length : Int) (h : s.filterInv) :
    (playVideoPacket env fuel s data length).1.filterInv := by
  unfold playVideoPacket
  split_ifs
  · exact PlayVideo_filterInv env henv fuel s data _ _ h
  · exact h

theorem stillPicturePackets_filterInv (env : Env) (henv : FilterEnv env) (fuel : Nat) :
    ∀ (n : Nat) (s : Dev) (data : List Nat) (length : Int), s.filterInv →
      (stillPicturePackets env fuel n s data length).1.filterInv := by
  intro n
  induction n with
  | zero => intro s data length h; exact h
  | succ n ih =>
    intro s data length h
    have hp := playVideoPacket_filterInv env henv fuel s data length h
    rw [stillPicturePackets]
    by_cases h1 : PesLongEnough length = true
    · rw [if_pos h1]
      split
      · exact hp
      · exact ih _ _ _ hp
    · rw [if_neg h1]
      exact h

theorem stillPictureRepeat_filterInv (env : Env) (henv : FilterEnv env) (fuel : Nat) :
    ∀ (k : Nat) (s : Dev) (data : List Nat) (length : Int), s.filterInv →
      (stillPictureRepeat env fuel k s data length).1.filterInv := by
  intro k
  induction k with
  | zero => intro s data length h; exact h
  | succ k ih =>
    intro s data length h
    rw [stillPictureRepeat]
    have hp := stillPicturePackets_filterInv env henv fuel fuel s data length h
    by_cases h1 : (stillPicturePackets env fuel fuel s data length).2 = true
    · simp only [h1, if_true]
      exact ih _ _ _ hp
    · simp only [h1, Bool.false_eq_true, if_false]
      exact hp

theorem SubmitEOS_filterState (env : Env) (s : Dev) :
    (SubmitEOS env s).1.filterState = s.filterState := rfl

theorem stillPictureShow_filterInv (env : Env) (henv : FilterEnv env) (fuel : Nat) (s : Dev)
    (codec : eCodec) (data : List Nat) (length : Int) (h : s.filterInv) :
    (stillPictureShow env fuel s codec data length).1.filterInv := by
  unfold stillPictureShow
  simp only
  have h2 := stillPictureRepeat_filterInv env henv fuel (if codec = eCodec.eMPEG2 then 4 else 10)
    ({ s with m_playbackSpeed := ePlaybackSpeed.eNormal,
              m_direction := eDirection.eForward }.emit Call.StopClock) data length h
  by_cases hr : (stillPictureRepeat env fuel (if codec = eCodec.eMPEG2 then 4 else 10)
      ({ s with m_playbackSpeed := ePlaybackSpeed.eNormal,
                m_direction := eDirection.eForward }.emit Call.StopClock) data length).2 = true
  · rw [if_pos hr]
    exact filterInv_of_eq (SubmitEOS_filterState env _) h2
  · rw [if_neg hr]
    exact h2

theorem StillPicture_filterInv (env : Env) (henv : FilterEnv env) (fuel : Nat) (s : Dev)
    (Data : List Nat) (Length : Int) (h : s.filterInv) :
    (StillPicture env fuel s Data Length).1.filterInv := by
  unfold StillPicture
  simp only
  split_ifs
  · exact filterInv_of_eq rfl h
  · exact filterInv_of_eq rfl h
  · exact stillPictureShow_filterInv env henv fuel _ _ _ _ (filterInv_of_eq rfl h)
  · exact h
  · exact stillPictureShow_filterInv env henv fuel _ _ _ _ h

theorem SetPlayMode_filterState (s : Dev) (PlayMode : ePlayMode) :
    (SetPlayMode s PlayMode).filterState = s.filterState := by
  cases PlayMode
  case pmNone =>
    simp only [SetPlayMode]
    split_ifs <;> exact FlushStreams_filterState s true
  all_goals rfl

theorem Clear_filterState (s : Dev) : (Clear s).filterState = s.filterState :=
  FlushStreams_filterState s false

theorem Play_filterState (s : Dev) : (Play s).filterState = s.filterState := rfl

theorem Freeze_filterState (s : Dev) : (Freeze s).filterState = s.filterState := rfl

theorem emit_filterState (s : Dev) (c : Call) : (s.emit c).filterState = s.filterState := rfl

theorem HandleBufferStall_filterState (s : Dev) :
    (HandleBufferStall s).filterState = s.filterState := by
  unfold HandleBufferStall
  simp only [emit_filterState]
  exact FlushStreams_filterState s false

theorem HandleEndOfStream_filterState (s : Dev) :
    (HandleEndOfStream s).filterState = s.filterState := by
  unfold HandleEndOfStream
  simp only [emit_filterState]
  exact FlushStreams_filterState s false

theorem TrickSpeed_filterState (s : Dev) (Speed : Int) :
    (TrickSpeed s Speed).filterState = s.filterState := by
  unfold TrickSpeed
  simp only
  split_ifs <;> rfl

/-- Every operation keeps the invariant of the latency filter. -/
theorem step_filterInv (env : Env) (henv : FilterEnv env) (s : Dev) (op : Op)
    (h : s.filterInv) : (step env s op).filterInv := by
  cases op with
  | SetPlayMode PlayMode => exact filterInv_of_eq (SetPlayMode_filterState s PlayMode) h
  | PlayAudio Data Length Id => exact PlayAudio_filterInv env henv s Data Length Id h
  | PlayVideo fuel Data Length EndOfFrame =>
    exact PlayVideo_filterInv env henv fuel s Data Length EndOfFrame h
  | Clear => exact filterInv_of_eq (Clear_filterState s) h
  | StillPicture fuel Data Length => exact StillPicture_filterInv env henv fuel s Data Length h
  | HandleBufferStall => exact filterInv_of_eq (HandleBufferStall_filterState s) h
  | HandleEndOfStream => exact filterInv_of_eq (HandleEndOfStream_filterState s) h
  | Play => exact filterInv_of_eq (Play_filterState s) h
  | Freeze => exact filterInv_of_eq (Freeze_filterState s) h
  | TrickSpeed Speed => exact filterInv_of_eq (TrickSpeed_filterState s Speed) h
  | TrickSpeed_20103 Speed Forward => exact h

/-- The latency target is never negative: in every state that a constructed
device reaches by a sequence of operations, the invariant of the latency filter
holds, whatever the array `m_latency` held at construction. -/
theorem run_filterInv (env : Env) (henv : FilterEnv env) (ops : List Op) :
    ∀ s : Dev, s.filterInv → (run env s ops).filterInv := by
  induction ops with
  | nil => intro s h; exact h
  | cons op ops ih => intro s h; exact ih (step env s op) (step_filterInv env henv s op h)

theorem run_target_nonneg (env : Env) (henv : FilterEnv env) (garbage : Nat → Int)
    (ops : List Op) : 0 ≤ (run env (cOmxDevice env garbage) ops).m_latencyTarget :=
  (run_filterInv env henv ops _ (cOmxDevice_filterInv env garbage)).1

/-! ## Theorems: a failed video packet, audio lengths, the still picture packet -/

/-- C21 (counterexample): a decoder with buffers of 4 bytes that rejects the
second submission, and a video packet with a payload of 6 bytes. `PlayVideo`
returns 0, and the decoder has accepted the first 4 bytes of the payload; the
retry of the same packet returns 20, and the decoder has then accepted these 4
bytes twice. -/
theorem C21_counterexample :
    (PlayVideo (flakyEnv 4 1) 8
      (SetPlayMode (freshDev (flakyEnv 4 1)) ePlayMode.pmAudioVideo)
      (videoPes 50 mpeg2Payload) 20 true).2 = some 0 ∧
    acceptedBytes (PlayVideo (flakyEnv 4 1) 8
      (SetPlayMode (freshDev (flakyEnv 4 1)) ePlayMode.pmAudioVideo)
      (videoPes 50 mpeg2Payload) 20 true).1.trace = [0x00, 0x00, 0x01, 0xb3] ∧
    (PlayVideo (flakyEnv 4 1) 8
      (PlayVideo (flakyEnv 4 1) 8
        (SetPlayMode (freshDev (flakyEnv 4 1)) ePlayMode.pmAudioVideo)
        (videoPes 50 mpeg2Payload) 20 true).1
      (videoPes 50 mpeg2Payload) 20 true).2 = some 20 ∧
    acceptedBytes (PlayVideo (flakyEnv 4 1) 8
      (PlayVideo (flakyEnv 4 1) 8
        (SetPlayMode (freshDev (flakyEnv 4 1)) ePlayMode.pmAudioVideo)
        (videoPes 50 mpeg2Payload) 20 true).1
      (videoPes 50 mpeg2Payload) 20 true).1.trace =
        [0x00, 0x00, 0x01, 0xb3, 0x00, 0x00, 0x01, 0xb3, 0x2d, 0x02] := by
  decide

/-- A call outside the submission loop passes no buffer to the decoder. -/
theorem acceptedBuffers_of_not_isVideoBuffer (l : List Call)
    (h : ∀ c ∈ l, c.isVideoBuffer = false) : acceptedBuffers l = [] := by
  unfold acceptedBuffers
  rw [List.filterMap_eq_nil_iff]
  intro c hc
  have hv := h c hc
  cases c <;> first | rfl | simp [Call.isVideoBuffer] at hv

/-- A failed call is not an accepted buffer. -/
theorem accepted_of_isFailure (c : Call) (h : c.isFailure = true) : c.accepted = none := by
  cases c with
  | EmptyVideoBuffer buf res =>
    cases buf <;> cases res <;> first | rfl | simp [Call.isFailure] at h
  | _ => rfl

/-- The bytes that the decoder accepts during a run of the submission loop are
a prefix of the payload, and a proper one if a call of the run has failed. -/
theorem playVideoSubmit_accepted (env : Env) (fuel : Nat) :
    ∀ (s : Dev) (Data : List Nat) (Length pts : Int) (EndOfFrame : Bool) (ret : Int)
      (l : List Call),
      (playVideoSubmit env fuel s Data Length pts EndOfFrame ret).1.trace = s.trace ++ l →
      acceptedBytes l = Data.take (acceptedSize l) ∧
      acceptedSize l ≤ Length.toNat ∧
      ((∃ c ∈ l, c.isFailure = true) → acceptedSize l < Length.toNat) := by
  induction fuel with
  | zero =>
    intro s Data Length pts EndOfFrame ret l htrace
    rw [playVideoSubmit] at htrace
    have hl : l = [] := by
      split_ifs at htrace <;> exact List.self_eq_append_right.mp htrace
    subst hl
    exact ⟨rfl, Nat.zero_le _, fun ⟨c, hc, _⟩ => absurd hc (List.not_mem_nil c)⟩
  | succ n ih =>
    intro s Data Length pts EndOfFrame ret l htrace
    rw [playVideoSubmit_succ] at htrace
    by_cases hL : Length > 0
    · rw [if_pos hL] at htrace
      have hpos : 0 < Length.toNat := by omega
      cases hbuf : env.GetVideoBuffer s.trace pts with
      | none =>
        rw [hbuf] at htrace
        have hl : l = [Call.GetVideoBuffer pts none] :=
          (List.append_cancel_left htrace).symm
        subst hl
        exact ⟨rfl, Nat.zero_le _, fun _ => hpos⟩
      | some nAllocLen =>
        rw [hbuf] at htrace
        simp only at htrace
        have hst : (submitState env s pts nAllocLen Data Length EndOfFrame).trace =
            s.trace ++ [Call.GetVideoBuffer pts (some nAllocLen),
              Call.EmptyVideoBuffer (some (fillVideoBuffer nAllocLen Data Length EndOfFrame))
                (submitRes env s pts nAllocLen Data Length EndOfFrame)] := by
          simp [submitState, Dev.emit]
        by_cases hres : submitRes env s pts nAllocLen Data Length EndOfFrame = true
        · rw [hres] at htrace hst
          simp only [Bool.not_true, Bool.false_eq_true, if_false] at htrace
          obtain ⟨l', hl', _⟩ := playVideoSubmit_outcome env n
            (submitState env s pts nAllocLen Data Length EndOfFrame)
            (Data.drop (fillVideoBuffer nAllocLen Data Length EndOfFrame).nFilledLen)
            (Length - ((fillVideoBuffer nAllocLen Data Length EndOfFrame).nFilledLen : Int))
            0 EndOfFrame ret
          have hl : l = [Call.GetVideoBuffer pts (some nAllocLen),
              Call.EmptyVideoBuffer (some (fillVideoBuffer nAllocLen Data Length EndOfFrame))
                true] ++ l' := by
            have e := htrace.symm.trans hl'
            rw [hst, List.append_assoc] at e
            exact List.append_cancel_left e
          obtain ⟨i1, i2, i3⟩ := ih _ _ _ _ _ _ l' hl'
          rw [fillVideoBuffer_specChunk nAllocLen Data Length EndOfFrame hL] at hl i1 i2 i3
          have hn : (specChunk nAllocLen Data Length.toNat EndOfFrame).nFilledLen =
              min nAllocLen Length.toNat := rfl
          have hrem : (Length - ((min nAllocLen Length.toNat : Nat) : Int)).toNat =
              Length.toNat - min nAllocLen Length.toNat := by omega
          rw [hn] at i1 i2 i3
          rw [hrem] at i2 i3
          have hacc : acceptedBuffers l =
              specChunk nAllocLen Data Length.toNat EndOfFrame :: acceptedBuffers l' := by
            rw [hl]; rfl
          have hsize : acceptedSize l = min nAllocLen Length.toNat + acceptedSize l' := by
            unfold acceptedSize
            rw [hacc, List.map_cons, List.sum_cons, hn]
          have hbytes : acceptedBytes l =
              Data.take (min nAllocLen Length.toNat) ++ acceptedBytes l' := by
            unfold acceptedBytes
            rw [hacc, List.map_cons, List.flatten_cons]
            rfl
          refine ⟨?_, ?_, ?_⟩
          · rw [hbytes, hsize, i1, List.take_add]
          · rw [hsize]
            omega
          · rintro ⟨c, hc, hf⟩
            rw [hl] at hc
            have hc' : c ∈ l' := by
              rcases List.mem_append.mp hc with h | h
              · simp only [List.mem_cons, List.mem_singleton, List.not_mem_nil, or_false] at h
                rcases h with h | h <;> (rw [h] at hf; simp [Call.isFailure] at hf)
              · exact h
            have := i3 ⟨c, hc', hf⟩
            rw [hsize]
            omega
        · rw [Bool.not_eq_true] at hres
          rw [hres] at htrace hst
          simp only [Bool.not_false, if_true] at htrace
          have hl : l = [Call.GetVideoBuffer pts (some nAllocLen),
              Call.EmptyVideoBuffer (some (fillVideoBuffer nAllocLen Data Length EndOfFrame))
                false] := by
            rw [hst] at htrace
            exact (List.append_cancel_left htrace).symm
          subst hl
          exact ⟨rfl, Nat.zero_le _, fun _ => hpos⟩
    · rw [if_neg hL] at htrace
      have hl : l = [] := List.self_eq_append_right.mp htrace
      subst hl
      exact ⟨rfl, Nat.zero_le _, fun ⟨c, hc, _⟩ => absurd hc (List.not_mem_nil c)⟩

/-- C21 (amended): the buffers that the decoder accepts during a `PlayVideo`
call hold, in order, a prefix of the packet's payload; and whenever `PlayVideo`
returns 0 for a packet with `Length` other than 0, the last decoder call of
`PlayVideo` is the one that failed, and the prefix accepted before it is a
proper one. The prefix is empty when the first buffer fails; after a failure
at a later buffer it is not empty, and the caller's retry of the same packet
delivers these bytes a second time. -/
theorem C21_accepted_bytes (env : Env) (fuel : Nat) (s : Dev) (Data : List Nat)
    (Length : Int) (EndOfFrame : Bool) (l : List Call)
    (htrace : (PlayVideo env fuel s Data Length EndOfFrame).1.trace = s.trace ++ l) :
    acceptedBytes l = (Data.drop (PesPayloadOffset Data)).take (acceptedSize l) ∧
    acceptedSize l ≤ (Length - (PesPayloadOffset Data : Int)).toNat ∧
    ((PlayVideo env fuel s Data Length EndOfFrame).2 = some 0 → Length ≠ 0 →
      acceptedSize l < (Length - (PesPayloadOffset Data : Int)).toNat ∧
      ∃ pre c, l = pre ++ [c] ∧ c.isFailure = true ∧ (∀ d ∈ pre, d.isFailure = false) ∧
        acceptedBuffers l = acceptedBuffers pre) := by
  obtain ⟨l0, e0, p0⟩ := (playVideoHead_track_emits env s Data Length).1
  obtain ⟨l1, e1, p1⟩ := (playVideoHead_track_emits env s Data Length).2
  have hnil : ∀ l' : List Call, (∀ c ∈ l', c.isVideoBuffer = false) →
      acceptedBytes l' = [] ∧ acceptedSize l' = 0 := by
    intro l' h
    unfold acceptedBytes acceptedSize
    rw [acceptedBuffers_of_not_isVideoBuffer l' h]
    exact ⟨rfl, rfl⟩
  rw [PlayVideo_eq] at htrace ⊢
  by_cases hv : (playVideoHead env s Data Length).m_hasVideo = true
  · rw [if_pos hv] at htrace ⊢
    obtain ⟨l2, e2, o2⟩ := playVideoSubmit_outcome env fuel
      (playVideoTrack env (playVideoHead env s Data Length) (packetPts Data))
      (Data.drop (PesPayloadOffset Data)) (Length - PesPayloadOffset Data) (packetPts Data)
      EndOfFrame Length
    have hl : l = l1 ++ l2 := by
      have e := htrace.symm.trans e2
      rw [e1, List.append_assoc] at e
      exact List.append_cancel_left e
    obtain ⟨i1, i2, i3⟩ := playVideoSubmit_accepted env fuel _ _ _ _ _ _ l2 e2
    have hacc : acceptedBuffers l = acceptedBuffers l2 := by
      rw [hl]
      unfold acceptedBuffers
      rw [List.filterMap_append]
      have := acceptedBuffers_of_not_isVideoBuffer l1 p1
      unfold acceptedBuffers at this
      rw [this, List.nil_append]
    have hbytes : acceptedBytes l = acceptedBytes l2 := by
      unfold acceptedBytes; rw [hacc]
    have hsize : acceptedSize l = acceptedSize l2 := by
      unfold acceptedSize; rw [hacc]
    rw [hbytes, hsize]
    refine ⟨i1, i2, fun hret hne => ?_⟩
    rcases o2 with ⟨hr, _⟩ | ⟨_, pre, c, hpc, hf, hpre⟩ | ⟨hr, _⟩
    · rw [hr] at hret
      exact absurd (Option.some.inj hret) hne
    · refine ⟨i3 ⟨c, by rw [hpc]; simp, hf⟩, l1 ++ pre, c, by rw [hl, hpc, List.append_assoc],
        hf, ?_, ?_⟩
      · intro d hd
        rcases List.mem_append.mp hd with h | h
        · have hvb := p1 d h
          cases d <;> first | rfl | simp [Call.isVideoBuffer] at hvb
        · exact hpre d h
      · rw [hacc, hpc]
        unfold acceptedBuffers
        rw [List.filterMap_append, List.filterMap_append]
        have h1 := acceptedBuffers_of_not_isVideoBuffer l1 p1
        unfold acceptedBuffers at h1
        rw [h1, List.nil_append]
        simp [accepted_of_isFailure c hf]
    · rw [hr] at hret
      exact absurd hret (by simp)
  · rw [if_neg hv] at htrace ⊢
    have hl : l = l0 := by
      have e := htrace.symm.trans e0
      exact List.append_cancel_left e
    rw [hl, (hnil l0 p0).1, (hnil l0 p0).2]
    refine ⟨by simp, Nat.zero_le _, fun hret hne => ?_⟩
    exact absurd (Option.some.inj hret) hne

/-- C21 (witness): the call of the counterexample returns 0 for a packet of
length 20; the decoder has accepted 4 of the 6 bytes of the payload. -/
theorem C21_accepted_bytes_witness :
    (PlayVideo (flakyEnv 4 1) 8
      (SetPlayMode (freshDev (flakyEnv 4 1)) ePlayMode.pmAudioVideo)
      (videoPes 50 mpeg2Payload) 20 true).2 = some 0 ∧
    acceptedSize [Call.SetVideoCodec eCodec.eMPEG2,
      Call.SetClockReference eClockReference.eClockRefVideo, Call.SetClockScale 65536,
      Call.StartClock true false, Call.Transferring false, Call.Transferring false,
      Call.GetVideoBuffer 50 (some 4),
      Call.EmptyVideoBuffer (some ⟨[0x00, 0x00, 0x01, 0xb3], 4, false, false⟩) true,
      Call.GetVideoBuffer 0 (some 4),
      Call.EmptyVideoBuffer (some ⟨[0x2d, 0x02], 2, true, false⟩) false] <
      ((20 : Int) - (PesPayloadOffset (videoPes 50 mpeg2Payload) : Int)).toNat :=
  ⟨by decide,
    ((C21_accepted_bytes (flakyEnv 4 1) 8
      (SetPlayMode (freshDev (flakyEnv 4 1)) ePlayMode.pmAudioVideo)
      (videoPes 50 mpeg2Payload) 20 true _ (by decide)).2.2 (by decide) (by decide)).1⟩

/-- The write of `PlayAudio` for a payload that begins with a substream header
equal to the stream id: four bytes are skipped and the length is four less,
whatever is left of the payload. -/
theorem playAudioWrite_stripped (env : Env) (s : Dev) (Data : List Nat) (Length : Int)
    (Id : Nat) (pts : Int) (hL : Length - (PesPayloadOffset Data : Int) > 0)
    (hid : byteAt (Data.drop (PesPayloadOffset Data)) 0 = Id)
    (hsub : Id = 0x80 ∨ Id = 0x88 ∨ Id = 0xa0) :
    (playAudioWrite env s Data Length Id pts).1.trace = s.trace ++
      [Call.AudioWriteData ((Data.drop (PesPayloadOffset Data)).drop 4)
        (Length - (PesPayloadOffset Data : Int) - 4) pts
        (env.WriteData s.trace ((Data.drop (PesPayloadOffset Data)).drop 4)
          (Length - (PesPayloadOffset Data : Int) - 4) pts)] := by
  unfold playAudioWrite
  simp only
  rw [if_pos hL]
  have hstrip : decide ((byteAt (Data.drop (PesPayloadOffset Data)) 0 = 0x80 ∨
      byteAt (Data.drop (PesPayloadOffset Data)) 0 = 0x88 ∨
      byteAt (Data.drop (PesPayloadOffset Data)) 0 = 0xa0) ∧
      byteAt (Data.drop (PesPayloadOffset Data)) 0 = Id) = true := by
    rw [decide_eq_true_eq, hid]
    exact ⟨hsub, rfl⟩
  simp only [hstrip, if_true, Dev.emit]

/-- C22 (failing input): an audio packet with the stream id 0x80 whose
payload is the three bytes 0x80, 0x01, 0x02, played on a fresh device. The
length 3 passes the guard `length > 0`, the four bytes of the substream header
are then stripped, and `WriteData` is called with the length -1 (and with a
pointer behind the end of the packet: no byte is left). A payload of exactly
four bytes gives the length 0. -/
theorem C22_WriteData_length_not_positive :
    (17 : Int) - (PesPayloadOffset (audioPes 50 [0x80, 0x01, 0x02]) : Int) = 3 ∧
    Call.AudioWriteData [] (-1) 50 true ∈
      (PlayAudio (sampleEnv 64 0 false) (freshDev (sampleEnv 64 0 false))
        (audioPes 50 [0x80, 0x01, 0x02]) 17 0x80).1.trace ∧
    Call.AudioWriteData [] 0 50 true ∈
      (PlayAudio (sampleEnv 64 0 false) (freshDev (sampleEnv 64 0 false))
        (audioPes 50 [0x80, 0x01, 0x02, 0x03]) 18 0x80).1.trace := by
  decide

/-- C23: the PES packet that `StillPicture` synthesizes for a raw frame, the
14 bytes of `PesVideoHeader` followed by the `Length` bytes of `Data`, has a
video stream id, its PTS-present flag set, a zero length field (so that the
packet extends to the end of the data) and the payload offset 14 = 9 + 5, and
the sniff of `PlayVideo` at the payload offset of the packet gives the codec of
the sniff of the raw `Data`. For a raw frame of a known codec that is not a
transport stream, with the allocation succeeding, `StillPicture` shows this
packet. -/
theorem C23_synthesized_packet (env : Env) (fuel : Nat) (s : Dev) (Data : List Nat)
    (Length : Int) :
    PesVideoHeader.length = 14 ∧
    byteAt (PesVideoHeader ++ Data.take Length.toNat) 3 &&& 0xf0 = 0xe0 ∧
    PesHasPts (PesVideoHeader ++ Data.take Length.toNat) = true ∧
    PesHasLength (PesVideoHeader ++ Data.take Length.toNat) = false ∧
    (byteAt (PesVideoHeader ++ Data.take Length.toNat) 4 = 0 ∧
      byteAt (PesVideoHeader ++ Data.take Length.toNat) 5 = 0) ∧
    PesPayloadOffset (PesVideoHeader ++ Data.take Length.toNat) = 14 ∧
    pesPacketLength (PesVideoHeader ++ Data.take Length.toNat) (Length + 14) = Length + 14 ∧
    playVideoCodec (PesVideoHeader ++ Data.take Length.toNat) (Length + 14) =
      ParseVideoCodec Data Length ∧
    (byteAt Data 0 ≠ 0x47 → ParseVideoCodec Data Length ≠ eCodec.eInvalid →
      env.Malloc s.trace (Length + 14) = true →
      StillPicture env fuel s Data Length =
        stillPictureShow env fuel (s.emit (Call.Malloc (Length + 14) true))
          (ParseVideoCodec Data Length) (PesVideoHeader ++ Data.take Length.toNat)
          (Length + 14)) := by
  obtain ⟨h1, -, -, h4, h5, h6, h7⟩ := PesVideoHeader_parse (Data.take Length.toNat)
  refine ⟨rfl, h6, h1, h5, ⟨?_, ?_⟩, h4, ?_, ?_, ?_⟩
  · rw [byteAt_PesVideoHeader _ 4 (by decide)]; rfl
  · rw [byteAt_PesVideoHeader _ 5 (by decide)]; rfl
  · unfold pesPacketLength
    rw [h5]
    rfl
  · unfold playVideoCodec
    rw [h1, if_pos rfl, h4, h7]
    have e : Length + 14 - ((14 : Nat) : Int) = Length := by omega
    rw [e]
    exact ParseVideoCodec_take Data Length
  · intro h47 hcodec hmalloc
    unfold StillPicture
    rw [if_neg h47]
    simp only
    rw [if_pos hcodec]
    have hlen : Length + (PesVideoHeader.length : Int) = Length + 14 := rfl
    rw [hlen, hmalloc]
    rfl

/-- C23 (witness): a raw MPEG2 frame of six bytes. -/
theorem C23_synthesized_packet_witness :
    byteAt mpeg2Payload 0 ≠ 0x47 ∧ ParseVideoCodec mpeg2Payload 6 ≠ eCodec.eInvalid ∧
    playVideoCodec (PesVideoHeader ++ mpeg2Payload.take (6 : Int).toNat) (6 + 14) =
      ParseVideoCodec mpeg2Payload 6 ∧
    StillPicture (sampleEnv 64 0 false) 8 (freshDev (sampleEnv 64 0 false)) mpeg2Payload 6 =
      stillPictureShow (sampleEnv 64 0 false) 8
        ((freshDev (sampleEnv 64 0 false)).emit (Call.Malloc (6 + 14) true))
        (ParseVideoCodec mpeg2Payload 6) (PesVideoHeader ++ mpeg2Payload.take (6 : Int).toNat)
        (6 + 14) :=
  ⟨by decide, by decide,
    (C23_synthesized_packet (sampleEnv 64 0 false) 8 (freshDev (sampleEnv 64 0 false))
      mpeg2Payload 6).2.2.2.2.2.2.2.1,
    (C23_synthesized_packet (sampleEnv 64 0 false) 8 (freshDev (sampleEnv 64 0 false))
      mpeg2Payload 6).2.2.2.2.2.2.2.2 (by decide) (by decide) (by decide)⟩

/-! ## Theorems: the samples of the first window -/

/-- The ring buffer after an `UpdateLatency` call: the sample is shifted in if
it is accepted. -/
theorem UpdateLatency_latency (env : Env) (s : Dev) (pts : Int) :
    (UpdateLatency env s pts).m_latency =
      if sampleAccepted env s pts = true then pushedWindow env s pts else s.m_latency := by
  by_cases hacc : sampleAccepted env s pts = true
  · rw [if_pos hacc]
    by_cases hf : windowFull env s
    · rw [UpdateLatency_evaluated env s pts hacc hf, latencyEvaluate_eq]
      show (updateLiveSpeed env _ _).m_latency = _
      rw [(updateLiveSpeed_window env _ _).1]
      split_ifs <;> rfl
    · rw [UpdateLatency_counted env s pts hacc hf]
  · rw [if_neg hacc]
    rw [Bool.not_eq_true] at hacc
    obtain ⟨l, hstep, _⟩ := UpdateLatency_rejected env s pts hacc
    rw [hstep]

/-- A sample that is shifted in is the first entry of the ring buffer, in
front of the samples before it. -/
theorem ringHolds_push (size : Nat) (latency samples : List Int) (x : Int)
    (h : ringHolds size latency samples) :
    ringHolds size (x :: latency.take (size - 1)) (samples ++ [x]) := by
  intro i hi hs
  rw [List.reverse_append, List.reverse_singleton, List.singleton_append]
  cases i with
  | zero => rw [List.getElem?_cons_zero, List.getElem?_cons_zero]
  | succ j =>
    rw [List.getElem?_cons_succ, List.getElem?_cons_succ,
      List.getElem?_take_of_lt (by omega)]
    rw [List.length_append, List.length_singleton] at hi
    exact h j (by omega) (by omega)

theorem acceptedSamples_length (env : Env) (ptss : List Int) :
    ∀ s : Dev, (acceptedSamples env s ptss).length = acceptedCount env s ptss := by
  induction ptss with
  | nil => intro s; rfl
  | cons pts rest ih =>
    intro s
    rw [acceptedSamples, acceptedCount, List.length_append, ih]
    split_ifs <;> rfl

theorem acceptedSamples_append (env : Env) (l1 l2 : List Int) :
    ∀ s : Dev, acceptedSamples env s (l1 ++ l2) =
      acceptedSamples env s l1 ++ acceptedSamples env (updateAll env s l1) l2 := by
  induction l1 with
  | nil => intro s; rfl
  | cons pts rest ih =>
    intro s
    rw [List.cons_append, acceptedSamples, acceptedSamples, ih, List.append_assoc]
    rfl

/-- The ring buffer after a sequence of `UpdateLatency` calls begins with the
samples that the calls have accepted. -/
theorem updateAll_ringHolds (env : Env) (ptss : List Int) :
    ∀ (s : Dev) (samples : List Int),
      ringHolds env.LATENCY_FILTER_SIZE s.m_latency samples →
      ringHolds env.LATENCY_FILTER_SIZE (updateAll env s ptss).m_latency
        (samples ++ acceptedSamples env s ptss) := by
  induction ptss with
  | nil =>
    intro s samples h
    rw [acceptedSamples, List.append_nil]
    exact h
  | cons pts rest ih =>
    intro s samples h
    have hstep : ringHolds env.LATENCY_FILTER_SIZE (UpdateLatency env s pts).m_latency
        (samples ++ (if sampleAccepted env s pts then [latencySample env s pts] else [])) := by
      rw [UpdateLatency_latency]
      by_cases hacc : sampleAccepted env s pts = true
      · rw [if_pos hacc, if_pos hacc]
        exact ringHolds_push _ _ _ _ h
      · rw [if_neg hacc, if_neg hacc, List.append_nil]
        exact h
    have := ih (UpdateLatency env s pts) _ hstep
    rw [List.append_assoc] at this
    exact this

/-- C24: for every non-negative pre-roll, the first window that `UpdateLatency`
evaluates after a `ResetLatency` consists of the `LATENCY_FILTER_SIZE` most
recent samples, which are the samples accepted after the reset behind the
first `LATENCY_FILTER_PREROLL` ones (the pre-roll): the window, its mean and
the target derived from the mean are given by these samples alone, so no
ring-buffer entry from before the reset and no pre-roll sample contributes. -/
theorem C24_first_window (env : Env) (s : Dev) (ptss : List Int) (pts : Int)
    (hpre : 0 ≤ env.LATENCY_FILTER_PREROLL)
    (hcount : (acceptedCount env (ResetLatency env s) ptss : Int) =
      (env.LATENCY_FILTER_SIZE : Int) - 1 + env.LATENCY_FILTER_PREROLL)
    (hacc : sampleAccepted env (updateAll env (ResetLatency env s) ptss) pts = true) :
    ((acceptedSamples env (ResetLatency env s) (ptss ++ [pts])).drop
      env.LATENCY_FILTER_PREROLL.toNat).length = env.LATENCY_FILTER_SIZE ∧
    (pushedWindow env (updateAll env (ResetLatency env s) ptss) pts).take
        env.LATENCY_FILTER_SIZE =
      ((acceptedSamples env (ResetLatency env s) (ptss ++ [pts])).drop
        env.LATENCY_FILTER_PREROLL.toNat).reverse ∧
    pushedMean env (updateAll env (ResetLatency env s) ptss) pts =
      Int.tdiv ((acceptedSamples env (ResetLatency env s) (ptss ++ [pts])).drop
        env.LATENCY_FILTER_PREROLL.toNat).sum env.LATENCY_FILTER_SIZE ∧
    (UpdateLatency env (updateAll env (ResetLatency env s) ptss) pts).m_latencyTarget =
      env.floatMulToInt FloatLit.f1_4
        (Int.tdiv ((acceptedSamples env (ResetLatency env s) (ptss ++ [pts])).drop
          env.LATENCY_FILTER_PREROLL.toNat).sum env.LATENCY_FILTER_SIZE) := by
  have hall : acceptedSamples env (ResetLatency env s) (ptss ++ [pts]) =
      acceptedSamples env (ResetLatency env s) ptss ++
        [latencySample env (updateAll env (ResetLatency env s) ptss) pts] := by
    rw [acceptedSamples_append, acceptedSamples, acceptedSamples, if_pos hacc, List.append_nil]
  have hlen : (acceptedSamples env (ResetLatency env s) (ptss ++ [pts])).length =
      env.LATENCY_FILTER_SIZE + env.LATENCY_FILTER_PREROLL.toNat := by
    rw [hall, List.length_append, List.length_singleton, acceptedSamples_length]
    omega
  have hring0 : ringHolds env.LATENCY_FILTER_SIZE (ResetLatency env s).m_latency [] :=
    fun i hi _ => absurd hi (Nat.not_lt_zero i)
  have hring := ringHolds_push env.LATENCY_FILTER_SIZE _ _
    (latencySample env (updateAll env (ResetLatency env s) ptss) pts)
    (updateAll_ringHolds env ptss (ResetLatency env s) [] hring0)
  rw [List.nil_append, ← hall] at hring
  have hwin : (pushedWindow env (updateAll env (ResetLatency env s) ptss) pts).take
      env.LATENCY_FILTER_SIZE =
      ((acceptedSamples env (ResetLatency env s) (ptss ++ [pts])).drop
        env.LATENCY_FILTER_PREROLL.toNat).reverse := by
    have hd : env.LATENCY_FILTER_PREROLL.toNat =
        (acceptedSamples env (ResetLatency env s) (ptss ++ [pts])).length -
          env.LATENCY_FILTER_SIZE := by omega
    rw [hd, ← List.take_reverse]
    apply List.ext_getElem?
    intro i
    rw [List.getElem?_take, List.getElem?_take]
    split_ifs with hi
    · exact hring i (by omega) hi
    · rfl
  have hmean : pushedMean env (updateAll env (ResetLatency env s) ptss) pts =
      Int.tdiv ((acceptedSamples env (ResetLatency env s) (ptss ++ [pts])).drop
        env.LATENCY_FILTER_PREROLL.toNat).sum env.LATENCY_FILTER_SIZE := by
    unfold pushedMean windowMean
    rw [hwin, List.sum_reverse]
  obtain ⟨_, r2, r3, _⟩ := updateAll_counting env ptss (ResetLatency env s) rfl rfl (by
    show -env.LATENCY_FILTER_PREROLL + _ ≤ _
    omega)
  have hfull : windowFull env (updateAll env (ResetLatency env s) ptss) := by
    unfold windowFull
    rw [r3]
    show ¬ (-env.LATENCY_FILTER_PREROLL + _ < _)
    omega
  refine ⟨by rw [List.length_drop, hlen]; omega, hwin, hmean, ?_⟩
  rw [UpdateLatency_target, if_pos ⟨hacc, hfull, r2⟩, hmean]

set_option maxRecDepth 100000 in
/-- C24 (witness): a device whose ring buffer holds eight stale entries of 999
ms is reset; 64 pre-roll samples of 1000 ms and eight samples of 100 ms
follow. The first evaluated window has the mean 100 and gives the target
140. -/
theorem C24_first_window_witness :
    pushedMean (sampleEnv 64 1000 true)
      (updateAll (sampleEnv 64 1000 true)
        (ResetLatency (sampleEnv 64 1000 true) (filterDev 999 eLiveSpeed.ePosCorrection))
        (List.replicate 64 91000 ++ List.replicate 7 10000)) 10000 = 100 ∧
    (UpdateLatency (sampleEnv 64 1000 true)
      (updateAll (sampleEnv 64 1000 true)
        (ResetLatency (sampleEnv 64 1000 true) (filterDev 999 eLiveSpeed.ePosCorrection))
        (List.replicate 64 91000 ++ List.replicate 7 10000)) 10000).m_latencyTarget = 140 :=
  ⟨((C24_first_window (sampleEnv 64 1000 true) (filterDev 999 eLiveSpeed.ePosCorrection)
      (List.replicate 64 91000 ++ List.replicate 7 10000) 10000
      (by decide) (by decide) (by decide)).2.2.1).trans (by decide),
   ((C24_first_window (sampleEnv 64 1000 true) (filterDev 999 eLiveSpeed.ePosCorrection)
      (List.replicate 64 91000 ++ List.replicate 7 10000) 10000
      (by decide) (by decide) (by decide)).2.2.2).trans (by decide)⟩

end OmxDevice
